import Mathlib

/-!
Verification of the hybrid-accordion library (src/hybrid-accordion.js).

The JavaScript source is shallowly embedded.  JS numbers on the paths
modelled here are always decimal fractions, so they are represented
exactly by the type `Dec` of canonical decimal fractions
(`m / 10 ^ e` with trailing powers of ten stripped); `Dec.toRat`
interprets them in `ℚ`.  A possibly-`NaN` JS number is `JSNum :=
Option Dec` with `none` standing for `NaN`, which propagates through
arithmetic.  Strings are processed through their character lists, DOM
elements are natural-number identifiers with an explicit parent map, and
the mutable per-item / per-accordion state is threaded explicitly through
the operations.  Side effects that leave no trace in the inspected state
(timeline playback, scheduled scroll timers, sibling passes) are recorded
in instrumentation counters on the item state.
-/

namespace HybridAccordion

/-- A decimal fraction `m / 10 ^ e`.  All operations below return
    canonical values (`e = 0` or `10 ∤ m`), so that syntactic equality of
    computed values coincides with equality of the represented numbers. -/
structure Dec where
  m : ℤ
  e : ℕ
deriving DecidableEq

namespace Dec

/-- Strip factors of ten: canonicalise `m / 10 ^ e`. -/
def canonAux : ℤ → ℕ → Dec
  | m, 0 => ⟨m, 0⟩
  | m, e + 1 => if m % 10 = 0 then canonAux (m / 10) e else ⟨m, e + 1⟩

/-- The integer `m` as a decimal fraction. -/
def ofInt (m : ℤ) : Dec := ⟨m, 0⟩

/-- The rational value of a decimal fraction. -/
def toRat (a : Dec) : ℚ := (a.m : ℚ) / (10 : ℚ) ^ a.e

/-- Division by `10 ^ k` (exact). -/
def divPow10 (a : Dec) (k : ℕ) : Dec := canonAux a.m (a.e + k)

/-- Multiplication by `10 ^ k` (exact). -/
def mulPow10 (a : Dec) (k : ℕ) : Dec := canonAux (a.m * (10 : ℤ) ^ k) a.e

/-- Negation. -/
def neg (a : Dec) : Dec := ⟨-a.m, a.e⟩

/-- Addition (exact). -/
def add (a b : Dec) : Dec :=
  canonAux (a.m * (10 : ℤ) ^ (max a.e b.e - a.e) + b.m * (10 : ℤ) ^ (max a.e b.e - b.e)) (max a.e b.e)

theorem toRat_canonAux (m : ℤ) (e : ℕ) : (canonAux m e).toRat = (m : ℚ) / (10 : ℚ) ^ e := by
  induction e generalizing m with
  | zero => simp [canonAux, toRat]
  | succ e ih =>
    by_cases h : m % 10 = 0
    · have hdvd : (10 : ℤ) ∣ m := Int.dvd_of_emod_eq_zero h
      obtain ⟨c, hc⟩ := hdvd
      have h10 : m / 10 = c := by
        subst hc
        exact Int.mul_ediv_cancel_left c (by norm_num)
      rw [canonAux, if_pos h, ih, h10, hc]
      push_cast
      rw [pow_succ]
      field_simp
      ring
    · rw [canonAux, if_neg h, toRat]

theorem toRat_divPow10 (a : Dec) (k : ℕ) : (a.divPow10 k).toRat = a.toRat / (10 : ℚ) ^ k := by
  rw [divPow10, toRat_canonAux, toRat, pow_add, div_div]

theorem toRat_mulPow10 (a : Dec) (k : ℕ) : (a.mulPow10 k).toRat = a.toRat * (10 : ℚ) ^ k := by
  rw [mulPow10, toRat_canonAux, toRat]
  push_cast
  ring

theorem toRat_neg (a : Dec) : a.neg.toRat = -a.toRat := by
  simp [neg, toRat, neg_div]

theorem toRat_add (a b : Dec) : (a.add b).toRat = a.toRat + b.toRat := by
  have ten : (10 : ℚ) ≠ 0 := by norm_num
  have key : ∀ (m : ℤ) (e : ℕ), (m : ℚ) / (10 : ℚ) ^ e = (m : ℚ) * (10 : ℚ) ^ (-(e : ℤ)) := by
    intro m e
    rw [zpow_neg, zpow_natCast, div_eq_mul_inv]
  rw [add, toRat_canonAux, toRat, toRat, key, key, key]
  push_cast
  have h1 : ((max a.e b.e - a.e : ℕ) : ℤ) = (max a.e b.e : ℤ) - a.e := by
    have := le_max_left a.e b.e
    omega
  have h2 : ((max a.e b.e - b.e : ℕ) : ℤ) = (max a.e b.e : ℤ) - b.e := by
    have := le_max_right a.e b.e
    omega
  rw [add_mul, ← zpow_natCast (10 : ℚ) (max a.e b.e - a.e), ← zpow_natCast (10 : ℚ) (max a.e b.e - b.e),
    h1, h2, mul_assoc, mul_assoc, ← zpow_add₀ ten, ← zpow_add₀ ten]
  have e1 : (max a.e b.e : ℤ) - a.e + -(max a.e b.e : ℤ) = -(a.e : ℤ) := by ring
  have e2 : (max a.e b.e : ℤ) - b.e + -(max a.e b.e : ℤ) = -(b.e : ℤ) := by ring
  rw [e1, e2]

end Dec

/-- A JavaScript number: `none` models `NaN`, `some d` a real value.
    (The sources never produce infinities on the paths modelled here.) -/
abbrev JSNum := Option Dec

/-- JS division by the literal `1000`; `NaN` propagates. -/
def jsDiv1000 (a : JSNum) : JSNum := a.map (fun d => d.divPow10 3)

/-- JS multiplication by the literal `1000`; `NaN` propagates. -/
def jsMul1000 (a : JSNum) : JSNum := a.map (fun d => d.mulPow10 3)

/-- JS addition; `NaN` propagates. -/
def jsAdd (a b : JSNum) : JSNum :=
  match a, b with
  | some x, some y => some (x.add y)
  | _, _ => none

/-- JS `x || 0`: `NaN` and `0` are falsy and give `0`; any other number is
    returned unchanged (for `x = 0` both readings agree). -/
def jsOrZero (a : JSNum) : Dec :=
  match a with
  | some d => d
  | none => ⟨0, 0⟩

/-- The whitespace characters recognised by the JS `trim`/`parseFloat`
    model (the common ASCII subset). -/
def isJsWhitespace (c : Char) : Bool :=
  c = ' ' || c = '\t' || c = '\n' || c = '\r' || c = '\x0b' || c = '\x0c'

/-- `String.prototype.trim` on a character list. -/
def jsTrim (cs : List Char) : List Char :=
  ((cs.dropWhile isJsWhitespace).reverse.dropWhile isJsWhitespace).reverse

/-- `String.prototype.endsWith` on character lists. -/
def listEndsWith (cs suffixChars : List Char) : Bool :=
  suffixChars == cs.drop (cs.length - suffixChars.length)

/-- Numeric value of a digit string (most significant first). -/
def digitsToNat (ds : List Char) : Nat :=
  ds.foldl (fun a c => a * 10 + (c.toNat - 48)) 0

/-- Model of the browser built-in `parseFloat` (on the character list of
    its argument): skip leading whitespace, optional sign, a significand
    of digits with an optional fractional part, and an optional exponent
    (only consumed when digits follow the exponent marker).  Returns
    `none` (`NaN`) when no digit was read, and otherwise the exact decimal
    value (the double-rounding of the real `parseFloat` is not modelled;
    `Infinity` literals are not modelled as no call site produces them). -/
def parseFloat (s : List Char) : JSNum :=
  let cs := s.dropWhile isJsWhitespace
  let signed : ℤ × List Char :=
    match cs with
    | '-' :: r => (-1, r)
    | '+' :: r => (1, r)
    | r => (1, r)
  let ip := signed.2.takeWhile Char.isDigit
  let rest1 := signed.2.dropWhile Char.isDigit
  let fpPair : List Char × List Char :=
    match rest1 with
    | '.' :: r => (r.takeWhile Char.isDigit, r.dropWhile Char.isDigit)
    | r => ([], r)
  if ip.isEmpty && fpPair.1.isEmpty then none
  else
    let base : Dec := Dec.canonAux (signed.1 * (digitsToNat (ip ++ fpPair.1) : ℤ)) fpPair.1.length
    let expo : ℤ :=
      match fpPair.2 with
      | c :: r =>
        if c = 'e' || c = 'E' then
          let esigned : ℤ × List Char :=
            match r with
            | '-' :: r2 => (-1, r2)
            | '+' :: r2 => (1, r2)
            | r2 => (1, r2)
          let ed := esigned.2.takeWhile Char.isDigit
          if ed.isEmpty then 0 else esigned.1 * (digitsToNat ed : ℤ)
        else 0
      | [] => 0
    some (if 0 ≤ expo then base.mulPow10 expo.toNat else base.divPow10 (-expo).toNat)

/-- A value passed to `parseTimeValue`: a number (possibly `NaN`), a
    string, or anything else (`other`). -/
inductive JSValue where
  | num (d : Dec)
  | nan
  | str (s : String)
  | other
deriving DecidableEq

/-- `parseTimeValue` from src/hybrid-accordion.js lines 11–35: numbers are
    milliseconds (divided by 1000); strings are trimmed, then an `ms`
    suffix divides the parsed remainder by 1000, an `s` suffix returns the
    parsed remainder, a unitless numeric string is milliseconds, and only
    a unitless non-numeric string (or a non-string non-number) falls back
    to `0.4` (the decimal `⟨4, 1⟩`). -/
def parseTimeValue (value : JSValue) : JSNum :=
  match value with
  | .num d => some (d.divPow10 3)
  | .nan => none
  | .str s =>
    let trimmed := jsTrim s.data
    if listEndsWith trimmed ['m', 's'] then
      jsDiv1000 (parseFloat (trimmed.take (trimmed.length - 2)))
    else if listEndsWith trimmed ['s'] then
      parseFloat (trimmed.take (trimmed.length - 1))
    else
      match parseFloat trimmed with
      | some parsed => some (parsed.divPow10 3)
      | none => some ⟨4, 1⟩
  | .other => some ⟨4, 1⟩

/-- `parseBooleanAttribute` from src/hybrid-accordion.js lines 37–56,
    applied to an attribute list: absent attribute is `false`; an empty
    value is `true`; `"true"`/`"false"` are explicit; any other value is
    `true` (presence wins). -/
def parseBooleanAttribute (attrs : List (String × String)) (name : String) : Bool :=
  match attrs.find? (fun p => p.1 = name) with
  | none => false
  | some p =>
    if p.2 = "" then true
    else if p.2 = "true" then true
    else if p.2 = "false" then false
    else true

/-! ## Configuration data model (src/hybrid-accordion.js lines 58–87) -/

structure AnimationOptions where
  duration : JSNum
  ease : String
  respectMotionPreference : Bool
deriving DecidableEq

structure InteractionOptions where
  singleOpen : Bool
  startOpen : Bool
  openFirstItem : Bool
  openOnHover : Bool
  closeOnSecondClick : Bool
  closeNestedOnParentClose : Bool
deriving DecidableEq

structure SchemaOptions where
  enabled : Bool
deriving DecidableEq

structure ScrollToViewOptions where
  enabled : Bool
  delay : JSNum
deriving DecidableEq

structure AccordionOptions where
  containerSelector : String
  itemSelector : String
  headerSelector : String
  bodySelector : String
  iconSelector : String
  activeClass : String
  animation : AnimationOptions
  interactions : InteractionOptions
  schema : SchemaOptions
  scrollToView : ScrollToViewOptions
deriving DecidableEq

/-- `defaultOptions` from src/hybrid-accordion.js lines 59–87
    (0.4 s duration, 0.1 s scroll delay). -/
def defaultOptions : AccordionOptions where
  containerSelector := "[data-acc=\"container\"]"
  itemSelector := "[data-acc=\"item\"]"
  headerSelector := "[data-acc=\"header\"]"
  bodySelector := "[data-acc=\"panel\"]"
  iconSelector := "[data-acc=\"icon\"]"
  activeClass := "active"
  animation := { duration := some ⟨4, 1⟩, ease := "power2.inOut", respectMotionPreference := true }
  interactions :=
    { singleOpen := true, startOpen := false, openFirstItem := false, openOnHover := false,
      closeOnSecondClick := true, closeNestedOnParentClose := false }
  schema := { enabled := false }
  scrollToView := { enabled := false, delay := some ⟨1, 1⟩ }

/-- A value stored in `containerConfig`: the result of `parseTimeValue`,
    `parseBooleanAttribute` or the raw attribute string, depending on the
    attribute key (src/hybrid-accordion.js lines 519–527). -/
inductive AttrVal where
  | timeV (n : JSNum)
  | boolV (b : Bool)
  | strV (s : String)
deriving DecidableEq

/-- `isBooleanAttribute` from src/hybrid-accordion.js lines 534–541. -/
def isBooleanAttribute (key : String) : Bool :=
  ["single-open", "open-first", "open-on-hover", "close-on-second-click",
   "close-nested-on-parent-close", "respect-motion", "scroll-into-view", "schema"].contains key

/-- JS object insertion: replace the value in place when the key exists,
    otherwise append (insertion order is preserved). -/
def upsert (l : List (String × AttrVal)) (k : String) (v : AttrVal) : List (String × AttrVal) :=
  if l.any (fun p => p.1 = k) then l.map (fun p => if p.1 = k then (k, v) else p)
  else l ++ [(k, v)]

/-- `parseContainerAttributes` from src/hybrid-accordion.js lines
    509–532: every `data-acc-*` attribute is recorded under its stripped
    key, time-valued keys through `parseTimeValue`, boolean keys through
    `parseBooleanAttribute`, and the rest as raw strings. -/
def parseContainerAttributes (attrs : List (String × String)) : List (String × AttrVal) :=
  attrs.foldl
    (fun acc p =>
      if p.1.startsWith "data-acc-" then
        let key := p.1.drop 9
        let value : AttrVal :=
          if key = "duration" || key = "scroll-delay" then .timeV (parseTimeValue (.str p.2))
          else if isBooleanAttribute key then .boolV (parseBooleanAttribute attrs p.1)
          else .strV p.2
        upsert acc key value
      else acc)
    []

/-- A caller-supplied options object: each field is `none` when the key is
    absent.  (A JS caller may also pass extra top-level keys such as the
    selectors; those are the six leading fields.) -/
structure PartialAnimation where
  duration : Option JSNum
  ease : Option String
  respectMotionPreference : Option Bool
deriving DecidableEq

structure PartialInteractions where
  singleOpen : Option Bool
  startOpen : Option Bool
  openFirstItem : Option Bool
  openOnHover : Option Bool
  closeOnSecondClick : Option Bool
  closeNestedOnParentClose : Option Bool
deriving DecidableEq

structure PartialSchema where
  enabled : Option Bool
deriving DecidableEq

structure PartialScrollToView where
  enabled : Option Bool
  delay : Option JSNum
deriving DecidableEq

structure PartialOptions where
  containerSelector : Option String
  itemSelector : Option String
  headerSelector : Option String
  bodySelector : Option String
  iconSelector : Option String
  activeClass : Option String
  animation : PartialAnimation
  interactions : PartialInteractions
  schema : PartialSchema
  scrollToView : PartialScrollToView
deriving DecidableEq

/-- The caller options object with every key absent (`{}`). -/
def emptyPartialOptions : PartialOptions where
  containerSelector := none
  itemSelector := none
  headerSelector := none
  bodySelector := none
  iconSelector := none
  activeClass := none
  animation := { duration := none, ease := none, respectMotionPreference := none }
  interactions :=
    { singleOpen := none, startOpen := none, openFirstItem := none, openOnHover := none,
      closeOnSecondClick := none, closeNestedOnParentClose := none }
  schema := { enabled := none }
  scrollToView := { enabled := none, delay := none }

/-- The target paths of `attributeMapping` (src/hybrid-accordion.js
    lines 555–574), one constructor per mapped nested option path. -/
inductive AttrPath where
  | durationP
  | easeP
  | respectMotionP
  | singleOpenP
  | openFirstP
  | openOnHoverP
  | closeOnSecondClickP
  | closeNestedP
  | scrollIntoViewP
  | scrollDelayP
  | schemaP
deriving DecidableEq

/-- The declarative key owning each mapped path. -/
@[reducible] def pathKey : AttrPath → String
  | .durationP => "duration"
  | .easeP => "ease"
  | .respectMotionP => "respect-motion"
  | .singleOpenP => "single-open"
  | .openFirstP => "open-first"
  | .openOnHoverP => "open-on-hover"
  | .closeOnSecondClickP => "close-on-second-click"
  | .closeNestedP => "close-nested-on-parent-close"
  | .scrollIntoViewP => "scroll-into-view"
  | .scrollDelayP => "scroll-delay"
  | .schemaP => "schema"

/-- The `attributeMapping` dictionary of `mergeOptions`
    (src/hybrid-accordion.js lines 555–574): each recognised kebab-case
    key maps to exactly one nested option path; unknown keys miss. -/
def attributeMapping (key : String) : Option AttrPath :=
  if key = "duration" then some .durationP
  else if key = "ease" then some .easeP
  else if key = "respect-motion" then some .respectMotionP
  else if key = "single-open" then some .singleOpenP
  else if key = "open-first" then some .openFirstP
  else if key = "open-on-hover" then some .openOnHoverP
  else if key = "close-on-second-click" then some .closeOnSecondClickP
  else if key = "close-nested-on-parent-close" then some .closeNestedP
  else if key = "scroll-into-view" then some .scrollIntoViewP
  else if key = "scroll-delay" then some .scrollDelayP
  else if key = "schema" then some .schemaP
  else none

/-- The nested path write of the attribute-application loop
    (`current[path[path.length - 1]] = value`); the sections always
    exist, so the `if (!current[path[i]])` object creation never fires.
    The payload mismatches (`_` branches) are unreachable for
    configurations produced by `parseContainerAttributes`, which types
    each recognised key. -/
def writePath (o : AccordionOptions) (path : AttrPath) (v : AttrVal) : AccordionOptions :=
  match path, v with
  | .durationP, .timeV n => { o with animation := { o.animation with duration := n } }
  | .easeP, .strV s => { o with animation := { o.animation with ease := s } }
  | .respectMotionP, .boolV b =>
    { o with animation := { o.animation with respectMotionPreference := b } }
  | .singleOpenP, .boolV b => { o with interactions := { o.interactions with singleOpen := b } }
  | .openFirstP, .boolV b => { o with interactions := { o.interactions with openFirstItem := b } }
  | .openOnHoverP, .boolV b => { o with interactions := { o.interactions with openOnHover := b } }
  | .closeOnSecondClickP, .boolV b =>
    { o with interactions := { o.interactions with closeOnSecondClick := b } }
  | .closeNestedP, .boolV b =>
    { o with interactions := { o.interactions with closeNestedOnParentClose := b } }
  | .scrollIntoViewP, .boolV b => { o with scrollToView := { o.scrollToView with enabled := b } }
  | .scrollDelayP, .timeV n => { o with scrollToView := { o.scrollToView with delay := n } }
  | .schemaP, .boolV b => { o with schema := { o.schema with enabled := b } }
  | _, _ => o

/-- One step of the `attributeMapping` application loop in `mergeOptions`
    (src/hybrid-accordion.js lines 576–590): a recognised key writes its
    value to the mapped nested path; an unknown key is warned about and
    ignored. -/
def applyAttribute (o : AccordionOptions) (key : String) (v : AttrVal) : AccordionOptions :=
  match attributeMapping key with
  | some path => writePath o path v
  | none => o

/-- `mergeOptions` from src/hybrid-accordion.js lines 544–605: start from
    a fresh copy of the defaults, write every container attribute through
    the `attributeMapping` paths, then merge the caller options shallowly
    per section (`{ ...merged[section], ...(options[section] || {}) }`)
    and copy caller top-level non-section keys. -/
def mergeOptions (defaults : AccordionOptions) (containerConfig : List (String × AttrVal))
    (options : PartialOptions) : AccordionOptions :=
  let merged := containerConfig.foldl (fun o p => applyAttribute o p.1 p.2) defaults
  { containerSelector := options.containerSelector.getD merged.containerSelector
    itemSelector := options.itemSelector.getD merged.itemSelector
    headerSelector := options.headerSelector.getD merged.headerSelector
    bodySelector := options.bodySelector.getD merged.bodySelector
    iconSelector := options.iconSelector.getD merged.iconSelector
    activeClass := options.activeClass.getD merged.activeClass
    animation :=
      { duration := options.animation.duration.getD merged.animation.duration
        ease := options.animation.ease.getD merged.animation.ease
        respectMotionPreference :=
          options.animation.respectMotionPreference.getD merged.animation.respectMotionPreference }
    interactions :=
      { singleOpen := options.interactions.singleOpen.getD merged.interactions.singleOpen
        startOpen := options.interactions.startOpen.getD merged.interactions.startOpen
        openFirstItem := options.interactions.openFirstItem.getD merged.interactions.openFirstItem
        openOnHover := options.interactions.openOnHover.getD merged.interactions.openOnHover
        closeOnSecondClick :=
          options.interactions.closeOnSecondClick.getD merged.interactions.closeOnSecondClick
        closeNestedOnParentClose :=
          options.interactions.closeNestedOnParentClose.getD merged.interactions.closeNestedOnParentClose }
    schema := { enabled := options.schema.enabled.getD merged.schema.enabled }
    scrollToView :=
      { enabled := options.scrollToView.enabled.getD merged.scrollToView.enabled
        delay := options.scrollToView.delay.getD merged.scrollToView.delay } }

/-- The attribute level of the merge: defaults overwritten by the
    container configuration only. -/
def attrApplied (containerConfig : List (String × AttrVal)) : AccordionOptions :=
  containerConfig.foldl (fun o p => applyAttribute o p.1 p.2) defaultOptions

/-! ## Characterising the merge (claim C4 support)

`lookupLast` and the payload extractors below are specification-level
helpers (they follow the spec's description of "the value established by
declarative attributes"), used to state what `mergeOptions` computes. -/

/-- The value stored for `k` by JS object assignment: the last write wins. -/
def lookupLast : List (String × AttrVal) → String → Option AttrVal
  | [], _ => none
  | p :: rest, k =>
    match lookupLast rest k with
    | some v => some v
    | none => if p.1 = k then some p.2 else none

def timePayload : AttrVal → Option JSNum
  | .timeV n => some n
  | _ => none

def boolPayload : AttrVal → Option Bool
  | .boolV b => some b
  | _ => none

def strPayload : AttrVal → Option String
  | .strV s => some s
  | _ => none

/-- A configuration entry is well typed for its key, as
    `parseContainerAttributes` guarantees. -/
def wfEntry (p : String × AttrVal) : Bool :=
  if p.1 = "duration" || p.1 = "scroll-delay" then (timePayload p.2).isSome
  else if isBooleanAttribute p.1 then (boolPayload p.2).isSome
  else (strPayload p.2).isSome

theorem lookupLast_mem {cfg : List (String × AttrVal)} {k : String} {v : AttrVal}
    (h : lookupLast cfg k = some v) : ∃ p ∈ cfg, p.1 = k ∧ p.2 = v := by
  induction cfg with
  | nil => simp [lookupLast] at h
  | cons p rest ih =>
    simp only [lookupLast] at h
    split at h
    next w heq =>
      obtain rfl : w = v := Option.some_inj.mp h
      obtain ⟨q, hq, hq1, hq2⟩ := ih heq
      exact ⟨q, List.mem_cons_of_mem _ hq, hq1, hq2⟩
    next heq =>
      by_cases hk : p.1 = k
      · rw [if_pos hk] at h
        exact ⟨p, List.mem_cons_self _ _, hk, Option.some_inj.mp h⟩
      · rw [if_neg hk] at h
        exact absurd h (by simp)

/-- A projection untouched by every `applyAttribute` step is untouched by
    the whole attribute-application fold. -/
theorem foldl_proj_invariant {α : Type} (proj : AccordionOptions → α)
    (h : ∀ o k v, proj (applyAttribute o k v) = proj o) :
    ∀ (cfg : List (String × AttrVal)) (o : AccordionOptions),
      proj (cfg.foldl (fun o p => applyAttribute o p.1 p.2) o) = proj o := by
  intro cfg
  induction cfg with
  | nil => intro o; rfl
  | cons p rest ih =>
    intro o
    rw [List.foldl_cons, ih, h]

/-- Generic characterisation of one mapped option field after the
    attribute-application fold: the last well-typed write for the field's
    key wins, and absent keys leave the start value. -/
theorem foldl_proj_field {α : Type} (key : String) (proj : AccordionOptions → α)
    (payload : AttrVal → Option α)
    (G1 : ∀ o k v, k ≠ key → proj (applyAttribute o k v) = proj o)
    (G2 : ∀ o v a, payload v = some a → proj (applyAttribute o key v) = a) :
    ∀ (cfg : List (String × AttrVal)) (o : AccordionOptions),
      (∀ p ∈ cfg, p.1 = key → (payload p.2).isSome) →
      proj (cfg.foldl (fun o p => applyAttribute o p.1 p.2) o) =
        ((lookupLast cfg key).bind payload).getD (proj o) := by
  intro cfg
  induction cfg with
  | nil => intro o _; rfl
  | cons p rest ih =>
    intro o h
    have hrest' : ∀ q ∈ rest, q.1 = key → (payload q.2).isSome :=
      fun q hq => h q (List.mem_cons_of_mem _ hq)
    rw [List.foldl_cons, ih _ hrest']
    by_cases hk : p.1 = key
    · obtain ⟨a, ha⟩ := Option.isSome_iff_exists.mp (h p (List.mem_cons_self _ _) hk)
      have happ : proj (applyAttribute o p.1 p.2) = a := by
        rw [hk]; exact G2 o p.2 a ha
      rw [happ]
      simp only [lookupLast]
      cases hrestL : lookupLast rest key with
      | some v =>
        obtain ⟨q, hqmem, hq1, hq2⟩ := lookupLast_mem hrestL
        have hvs : (payload v).isSome := by
          rw [← hq2]
          exact hrest' q hqmem hq1
        obtain ⟨b, hb⟩ := Option.isSome_iff_exists.mp hvs
        simp [hb]
      | none => simp [hk, ha]
    · have happ : proj (applyAttribute o p.1 p.2) = proj o := G1 o p.1 p.2 hk
      rw [happ]
      simp only [lookupLast]
      cases hrestL : lookupLast rest key with
      | some v => simp
      | none => simp [hk]

set_option maxHeartbeats 1000000 in
theorem attributeMapping_some {k : String} {path : AttrPath}
    (h : attributeMapping k = some path) : k = pathKey path := by
  unfold attributeMapping at h
  split_ifs at h <;> (cases Option.some_inj.mp h; assumption)

theorem applyAttribute_keeps_duration (o : AccordionOptions) (k : String) (v : AttrVal)
    (hk : k ≠ "duration") :
    (applyAttribute o k v).animation.duration = o.animation.duration := by
  unfold applyAttribute
  cases hm : attributeMapping k with
  | none => rfl
  | some path =>
    have hkey := attributeMapping_some hm
    cases path <;> first | (cases v <;> rfl) | (exact absurd hkey hk)

theorem applyAttribute_keeps_ease (o : AccordionOptions) (k : String) (v : AttrVal)
    (hk : k ≠ "ease") :
    (applyAttribute o k v).animation.ease = o.animation.ease := by
  unfold applyAttribute
  cases hm : attributeMapping k with
  | none => rfl
  | some path =>
    have hkey := attributeMapping_some hm
    cases path <;> first | (cases v <;> rfl) | (exact absurd hkey hk)

theorem applyAttribute_keeps_respectMotion (o : AccordionOptions) (k : String) (v : AttrVal)
    (hk : k ≠ "respect-motion") :
    (applyAttribute o k v).animation.respectMotionPreference = o.animation.respectMotionPreference := by
  unfold applyAttribute
  cases hm : attributeMapping k with
  | none => rfl
  | some path =>
    have hkey := attributeMapping_some hm
    cases path <;> first | (cases v <;> rfl) | (exact absurd hkey hk)

theorem applyAttribute_keeps_singleOpen (o : AccordionOptions) (k : String) (v : AttrVal)
    (hk : k ≠ "single-open") :
    (applyAttribute o k v).interactions.singleOpen = o.interactions.singleOpen := by
  unfold applyAttribute
  cases hm : attributeMapping k with
  | none => rfl
  | some path =>
    have hkey := attributeMapping_some hm
    cases path <;> first | (cases v <;> rfl) | (exact absurd hkey hk)

theorem applyAttribute_keeps_openFirstItem (o : AccordionOptions) (k : String) (v : AttrVal)
    (hk : k ≠ "open-first") :
    (applyAttribute o k v).interactions.openFirstItem = o.interactions.openFirstItem := by
  unfold applyAttribute
  cases hm : attributeMapping k with
  | none => rfl
  | some path =>
    have hkey := attributeMapping_some hm
    cases path <;> first | (cases v <;> rfl) | (exact absurd hkey hk)

theorem applyAttribute_keeps_openOnHover (o : AccordionOptions) (k : String) (v : AttrVal)
    (hk : k ≠ "open-on-hover") :
    (applyAttribute o k v).interactions.openOnHover = o.interactions.openOnHover := by
  unfold applyAttribute
  cases hm : attributeMapping k with
  | none => rfl
  | some path =>
    have hkey := attributeMapping_some hm
    cases path <;> first | (cases v <;> rfl) | (exact absurd hkey hk)

theorem applyAttribute_keeps_closeOnSecondClick (o : AccordionOptions) (k : String) (v : AttrVal)
    (hk : k ≠ "close-on-second-click") :
    (applyAttribute o k v).interactions.closeOnSecondClick = o.interactions.closeOnSecondClick := by
  unfold applyAttribute
  cases hm : attributeMapping k with
  | none => rfl
  | some path =>
    have hkey := attributeMapping_some hm
    cases path <;> first | (cases v <;> rfl) | (exact absurd hkey hk)

theorem applyAttribute_keeps_closeNested (o : AccordionOptions) (k : String) (v : AttrVal)
    (hk : k ≠ "close-nested-on-parent-close") :
    (applyAttribute o k v).interactions.closeNestedOnParentClose = o.interactions.closeNestedOnParentClose := by
  unfold applyAttribute
  cases hm : attributeMapping k with
  | none => rfl
  | some path =>
    have hkey := attributeMapping_some hm
    cases path <;> first | (cases v <;> rfl) | (exact absurd hkey hk)

theorem applyAttribute_keeps_scrollEnabled (o : AccordionOptions) (k : String) (v : AttrVal)
    (hk : k ≠ "scroll-into-view") :
    (applyAttribute o k v).scrollToView.enabled = o.scrollToView.enabled := by
  unfold applyAttribute
  cases hm : attributeMapping k with
  | none => rfl
  | some path =>
    have hkey := attributeMapping_some hm
    cases path <;> first | (cases v <;> rfl) | (exact absurd hkey hk)

theorem applyAttribute_keeps_scrollDelay (o : AccordionOptions) (k : String) (v : AttrVal)
    (hk : k ≠ "scroll-delay") :
    (applyAttribute o k v).scrollToView.delay = o.scrollToView.delay := by
  unfold applyAttribute
  cases hm : attributeMapping k with
  | none => rfl
  | some path =>
    have hkey := attributeMapping_some hm
    cases path <;> first | (cases v <;> rfl) | (exact absurd hkey hk)

theorem applyAttribute_keeps_schemaEnabled (o : AccordionOptions) (k : String) (v : AttrVal)
    (hk : k ≠ "schema") :
    (applyAttribute o k v).schema.enabled = o.schema.enabled := by
  unfold applyAttribute
  cases hm : attributeMapping k with
  | none => rfl
  | some path =>
    have hkey := attributeMapping_some hm
    cases path <;> first | (cases v <;> rfl) | (exact absurd hkey hk)

theorem applyAttribute_keeps_startOpen (o : AccordionOptions) (k : String) (v : AttrVal) :
    (applyAttribute o k v).interactions.startOpen = o.interactions.startOpen := by
  unfold applyAttribute
  cases attributeMapping k with
  | none => rfl
  | some path => cases path <;> cases v <;> rfl

theorem applyAttribute_keeps_selectors (o : AccordionOptions) (k : String) (v : AttrVal) :
    (applyAttribute o k v).containerSelector = o.containerSelector ∧
    (applyAttribute o k v).itemSelector = o.itemSelector ∧
    (applyAttribute o k v).headerSelector = o.headerSelector ∧
    (applyAttribute o k v).bodySelector = o.bodySelector ∧
    (applyAttribute o k v).iconSelector = o.iconSelector ∧
    (applyAttribute o k v).activeClass = o.activeClass := by
  unfold applyAttribute
  cases attributeMapping k with
  | none => exact ⟨rfl, rfl, rfl, rfl, rfl, rfl⟩
  | some path => cases path <;> cases v <;> exact ⟨rfl, rfl, rfl, rfl, rfl, rfl⟩

/-- Well-typedness of a parsed container configuration, as
    `parseContainerAttributes` guarantees. -/
def WfConfig (cfg : List (String × AttrVal)) : Prop := cfg.all wfEntry = true

theorem wf_time_key (cfg : List (String × AttrVal)) (hw : WfConfig cfg) (key : String)
    (hk : key = "duration" ∨ key = "scroll-delay") :
    ∀ p ∈ cfg, p.1 = key → (timePayload p.2).isSome := by
  intro p hp hpk
  have hall := List.all_eq_true.mp hw p hp
  unfold wfEntry at hall
  rw [hpk] at hall
  rcases hk with rfl | rfl <;> exact hall

theorem wf_bool_key (cfg : List (String × AttrVal)) (hw : WfConfig cfg) (key : String)
    (hk : key ∈ ["single-open", "open-first", "open-on-hover", "close-on-second-click",
      "close-nested-on-parent-close", "respect-motion", "scroll-into-view", "schema"]) :
    ∀ p ∈ cfg, p.1 = key → (boolPayload p.2).isSome := by
  intro p hp hpk
  have hall := List.all_eq_true.mp hw p hp
  unfold wfEntry at hall
  rw [hpk] at hall
  simp only [List.mem_cons, List.not_mem_nil, or_false] at hk
  rcases hk with rfl | rfl | rfl | rfl | rfl | rfl | rfl | rfl <;> exact hall

theorem wf_ease_key (cfg : List (String × AttrVal)) (hw : WfConfig cfg) :
    ∀ p ∈ cfg, p.1 = "ease" → (strPayload p.2).isSome := by
  intro p hp hpk
  have hall := List.all_eq_true.mp hw p hp
  unfold wfEntry at hall
  rw [hpk] at hall
  exact hall

/-- Claim C4: `mergeOptions` applies precedence lowest-to-highest
    defaults → container declarative attributes → caller options, merging
    the caller structure shallowly per section: every mapped option field
    of the result equals the caller's value when the caller set it, else
    the last well-typed declarative write for the field's key, else the
    built-in default — so a caller that sets one field of a section never
    erases a sibling field established by attributes or defaults, and the
    merge never descends below one section level. -/
theorem mergeOptions_precedence (cfg : List (String × AttrVal)) (opts : PartialOptions)
    (hw : WfConfig cfg) :
    (mergeOptions defaultOptions cfg opts).animation.duration =
      opts.animation.duration.getD
        (((lookupLast cfg "duration").bind timePayload).getD defaultOptions.animation.duration) ∧
    (mergeOptions defaultOptions cfg opts).animation.ease =
      opts.animation.ease.getD
        (((lookupLast cfg "ease").bind strPayload).getD defaultOptions.animation.ease) ∧
    (mergeOptions defaultOptions cfg opts).animation.respectMotionPreference =
      opts.animation.respectMotionPreference.getD
        (((lookupLast cfg "respect-motion").bind boolPayload).getD defaultOptions.animation.respectMotionPreference) ∧
    (mergeOptions defaultOptions cfg opts).interactions.singleOpen =
      opts.interactions.singleOpen.getD
        (((lookupLast cfg "single-open").bind boolPayload).getD defaultOptions.interactions.singleOpen) ∧
    (mergeOptions defaultOptions cfg opts).interactions.openFirstItem =
      opts.interactions.openFirstItem.getD
        (((lookupLast cfg "open-first").bind boolPayload).getD defaultOptions.interactions.openFirstItem) ∧
    (mergeOptions defaultOptions cfg opts).interactions.openOnHover =
      opts.interactions.openOnHover.getD
        (((lookupLast cfg "open-on-hover").bind boolPayload).getD defaultOptions.interactions.openOnHover) ∧
    (mergeOptions defaultOptions cfg opts).interactions.closeOnSecondClick =
      opts.interactions.closeOnSecondClick.getD
        (((lookupLast cfg "close-on-second-click").bind boolPayload).getD defaultOptions.interactions.closeOnSecondClick) ∧
    (mergeOptions defaultOptions cfg opts).interactions.closeNestedOnParentClose =
      opts.interactions.closeNestedOnParentClose.getD
        (((lookupLast cfg "close-nested-on-parent-close").bind boolPayload).getD defaultOptions.interactions.closeNestedOnParentClose) ∧
    (mergeOptions defaultOptions cfg opts).schema.enabled =
      opts.schema.enabled.getD
        (((lookupLast cfg "schema").bind boolPayload).getD defaultOptions.schema.enabled) ∧
    (mergeOptions defaultOptions cfg opts).scrollToView.enabled =
      opts.scrollToView.enabled.getD
        (((lookupLast cfg "scroll-into-view").bind boolPayload).getD defaultOptions.scrollToView.enabled) ∧
    (mergeOptions defaultOptions cfg opts).scrollToView.delay =
      opts.scrollToView.delay.getD
        (((lookupLast cfg "scroll-delay").bind timePayload).getD defaultOptions.scrollToView.delay) ∧
    (mergeOptions defaultOptions cfg opts).interactions.startOpen = opts.interactions.startOpen.getD defaultOptions.interactions.startOpen ∧
    (mergeOptions defaultOptions cfg opts).containerSelector = opts.containerSelector.getD defaultOptions.containerSelector ∧
    (mergeOptions defaultOptions cfg opts).itemSelector = opts.itemSelector.getD defaultOptions.itemSelector ∧
    (mergeOptions defaultOptions cfg opts).headerSelector = opts.headerSelector.getD defaultOptions.headerSelector ∧
    (mergeOptions defaultOptions cfg opts).bodySelector = opts.bodySelector.getD defaultOptions.bodySelector ∧
    (mergeOptions defaultOptions cfg opts).iconSelector = opts.iconSelector.getD defaultOptions.iconSelector ∧
    (mergeOptions defaultOptions cfg opts).activeClass = opts.activeClass.getD defaultOptions.activeClass := by
  have Gdur : ∀ (o : AccordionOptions) (v : AttrVal) (a : JSNum), timePayload v = some a →
      (applyAttribute o "duration" v).animation.duration = a := by
    intro o v a ha
    cases v with
    | timeV n => exact Option.some_inj.mp ha
    | boolV b => simp [timePayload] at ha
    | strV s => simp [timePayload] at ha
  have hdur := foldl_proj_field "duration" (fun o => o.animation.duration) timePayload
      applyAttribute_keeps_duration Gdur cfg defaultOptions (wf_time_key cfg hw "duration" (Or.inl rfl))
  have Gease : ∀ (o : AccordionOptions) (v : AttrVal) (a : String), strPayload v = some a →
      (applyAttribute o "ease" v).animation.ease = a := by
    intro o v a ha
    cases v with
    | timeV n => simp [strPayload] at ha
    | boolV b => simp [strPayload] at ha
    | strV s => exact Option.some_inj.mp ha
  have hease := foldl_proj_field "ease" (fun o => o.animation.ease) strPayload
      applyAttribute_keeps_ease Gease cfg defaultOptions (wf_ease_key cfg hw)
  have Grm : ∀ (o : AccordionOptions) (v : AttrVal) (a : Bool), boolPayload v = some a →
      (applyAttribute o "respect-motion" v).animation.respectMotionPreference = a := by
    intro o v a ha
    cases v with
    | timeV n => simp [boolPayload] at ha
    | boolV b => exact Option.some_inj.mp ha
    | strV s => simp [boolPayload] at ha
  have hrm := foldl_proj_field "respect-motion" (fun o => o.animation.respectMotionPreference) boolPayload
      applyAttribute_keeps_respectMotion Grm cfg defaultOptions (wf_bool_key cfg hw "respect-motion" (by decide))
  have Gso : ∀ (o : AccordionOptions) (v : AttrVal) (a : Bool), boolPayload v = some a →
      (applyAttribute o "single-open" v).interactions.singleOpen = a := by
    intro o v a ha
    cases v with
    | timeV n => simp [boolPayload] at ha
    | boolV b => exact Option.some_inj.mp ha
    | strV s => simp [boolPayload] at ha
  have hso := foldl_proj_field "single-open" (fun o => o.interactions.singleOpen) boolPayload
      applyAttribute_keeps_singleOpen Gso cfg defaultOptions (wf_bool_key cfg hw "single-open" (by decide))
  have Gofi : ∀ (o : AccordionOptions) (v : AttrVal) (a : Bool), boolPayload v = some a →
      (applyAttribute o "open-first" v).interactions.openFirstItem = a := by
    intro o v a ha
    cases v with
    | timeV n => simp [boolPayload] at ha
    | boolV b => exact Option.some_inj.mp ha
    | strV s => simp [boolPayload] at ha
  have hofi := foldl_proj_field "open-first" (fun o => o.interactions.openFirstItem) boolPayload
      applyAttribute_keeps_openFirstItem Gofi cfg defaultOptions (wf_bool_key cfg hw "open-first" (by decide))
  have Gooh : ∀ (o : AccordionOptions) (v : AttrVal) (a : Bool), boolPayload v = some a →
      (applyAttribute o "open-on-hover" v).interactions.openOnHover = a := by
    intro o v a ha
    cases v with
    | timeV n => simp [boolPayload] at ha
    | boolV b => exact Option.some_inj.mp ha
    | strV s => simp [boolPayload] at ha
  have hooh := foldl_proj_field "open-on-hover" (fun o => o.interactions.openOnHover) boolPayload
      applyAttribute_keeps_openOnHover Gooh cfg defaultOptions (wf_bool_key cfg hw "open-on-hover" (by decide))
  have Gcsc : ∀ (o : AccordionOptions) (v : AttrVal) (a : Bool), boolPayload v = some a →
      (applyAttribute o "close-on-second-click" v).interactions.closeOnSecondClick = a := by
    intro o v a ha
    cases v with
    | timeV n => simp [boolPayload] at ha
    | boolV b => exact Option.some_inj.mp ha
    | strV s => simp [boolPayload] at ha
  have hcsc := foldl_proj_field "close-on-second-click" (fun o => o.interactions.closeOnSecondClick) boolPayload
      applyAttribute_keeps_closeOnSecondClick Gcsc cfg defaultOptions (wf_bool_key cfg hw "close-on-second-click" (by decide))
  have Gcn : ∀ (o : AccordionOptions) (v : AttrVal) (a : Bool), boolPayload v = some a →
      (applyAttribute o "close-nested-on-parent-close" v).interactions.closeNestedOnParentClose = a := by
    intro o v a ha
    cases v with
    | timeV n => simp [boolPayload] at ha
    | boolV b => exact Option.some_inj.mp ha
    | strV s => simp [boolPayload] at ha
  have hcn := foldl_proj_field "close-nested-on-parent-close" (fun o => o.interactions.closeNestedOnParentClose) boolPayload
      applyAttribute_keeps_closeNested Gcn cfg defaultOptions (wf_bool_key cfg hw "close-nested-on-parent-close" (by decide))
  have Gsch : ∀ (o : AccordionOptions) (v : AttrVal) (a : Bool), boolPayload v = some a →
      (applyAttribute o "schema" v).schema.enabled = a := by
    intro o v a ha
    cases v with
    | timeV n => simp [boolPayload] at ha
    | boolV b => exact Option.some_inj.mp ha
    | strV s => simp [boolPayload] at ha
  have hsch := foldl_proj_field "schema" (fun o => o.schema.enabled) boolPayload
      applyAttribute_keeps_schemaEnabled Gsch cfg defaultOptions (wf_bool_key cfg hw "schema" (by decide))
  have Gsve : ∀ (o : AccordionOptions) (v : AttrVal) (a : Bool), boolPayload v = some a →
      (applyAttribute o "scroll-into-view" v).scrollToView.enabled = a := by
    intro o v a ha
    cases v with
    | timeV n => simp [boolPayload] at ha
    | boolV b => exact Option.some_inj.mp ha
    | strV s => simp [boolPayload] at ha
  have hsve := foldl_proj_field "scroll-into-view" (fun o => o.scrollToView.enabled) boolPayload
      applyAttribute_keeps_scrollEnabled Gsve cfg defaultOptions (wf_bool_key cfg hw "scroll-into-view" (by decide))
  have Gsvd : ∀ (o : AccordionOptions) (v : AttrVal) (a : JSNum), timePayload v = some a →
      (applyAttribute o "scroll-delay" v).scrollToView.delay = a := by
    intro o v a ha
    cases v with
    | timeV n => exact Option.some_inj.mp ha
    | boolV b => simp [timePayload] at ha
    | strV s => simp [timePayload] at ha
  have hsvd := foldl_proj_field "scroll-delay" (fun o => o.scrollToView.delay) timePayload
      applyAttribute_keeps_scrollDelay Gsvd cfg defaultOptions (wf_time_key cfg hw "scroll-delay" (Or.inr rfl))
  have hstartOpen := foldl_proj_invariant (fun o => o.interactions.startOpen) applyAttribute_keeps_startOpen cfg defaultOptions
  have hcontainerSelector := foldl_proj_invariant (fun o => o.containerSelector) (fun o k v => (applyAttribute_keeps_selectors o k v).1) cfg defaultOptions
  have hitemSelector := foldl_proj_invariant (fun o => o.itemSelector) (fun o k v => (applyAttribute_keeps_selectors o k v).2.1) cfg defaultOptions
  have hheaderSelector := foldl_proj_invariant (fun o => o.headerSelector) (fun o k v => (applyAttribute_keeps_selectors o k v).2.2.1) cfg defaultOptions
  have hbodySelector := foldl_proj_invariant (fun o => o.bodySelector) (fun o k v => (applyAttribute_keeps_selectors o k v).2.2.2.1) cfg defaultOptions
  have hiconSelector := foldl_proj_invariant (fun o => o.iconSelector) (fun o k v => (applyAttribute_keeps_selectors o k v).2.2.2.2.1) cfg defaultOptions
  have hactiveClass := foldl_proj_invariant (fun o => o.activeClass) (fun o k v => (applyAttribute_keeps_selectors o k v).2.2.2.2.2) cfg defaultOptions
  refine ⟨?_, ?_, ?_, ?_, ?_, ?_, ?_, ?_, ?_, ?_, ?_, ?_, ?_, ?_, ?_, ?_, ?_, ?_⟩
  · exact congrArg (fun x => opts.animation.duration.getD x) hdur
  · exact congrArg (fun x => opts.animation.ease.getD x) hease
  · exact congrArg (fun x => opts.animation.respectMotionPreference.getD x) hrm
  · exact congrArg (fun x => opts.interactions.singleOpen.getD x) hso
  · exact congrArg (fun x => opts.interactions.openFirstItem.getD x) hofi
  · exact congrArg (fun x => opts.interactions.openOnHover.getD x) hooh
  · exact congrArg (fun x => opts.interactions.closeOnSecondClick.getD x) hcsc
  · exact congrArg (fun x => opts.interactions.closeNestedOnParentClose.getD x) hcn
  · exact congrArg (fun x => opts.schema.enabled.getD x) hsch
  · exact congrArg (fun x => opts.scrollToView.enabled.getD x) hsve
  · exact congrArg (fun x => opts.scrollToView.delay.getD x) hsvd
  · exact congrArg (fun x => opts.interactions.startOpen.getD x) hstartOpen
  · exact congrArg (fun x => opts.containerSelector.getD x) hcontainerSelector
  · exact congrArg (fun x => opts.itemSelector.getD x) hitemSelector
  · exact congrArg (fun x => opts.headerSelector.getD x) hheaderSelector
  · exact congrArg (fun x => opts.bodySelector.getD x) hbodySelector
  · exact congrArg (fun x => opts.iconSelector.getD x) hiconSelector
  · exact congrArg (fun x => opts.activeClass.getD x) hactiveClass

/-- Claim C3 (code bug): a suffixed time string whose numeric remainder
    does not parse yields `NaN` (`none` — `parseFloat` returns `NaN` and
    the `s`/`ms` branches have no `isNaN` guard), not the `0.4` fallback
    the spec promises for every unparseable input; the guard exists only
    on the unitless branch, where the fallback does fire.  The well-formed
    forms behave as specified: `ms` divides by 1000, `s` is taken as
    seconds, a bare numeric string is milliseconds, and `⟨4, 1⟩` is the
    decimal 0.4 = 2/5. -/
theorem parseTimeValue_nan_on_unparseable_suffix :
    parseTimeValue (.str "fasts") = none ∧
    parseTimeValue (.str "fastms") = none ∧
    parseTimeValue (.str "fast") = some ⟨4, 1⟩ ∧
    parseTimeValue (.str "400ms") = some ⟨4, 1⟩ ∧
    parseTimeValue (.str "0.4s") = some ⟨4, 1⟩ ∧
    parseTimeValue (.str "400") = some ⟨4, 1⟩ ∧
    (⟨4, 1⟩ : Dec).toRat = 2/5 := by
  refine ⟨by decide, by decide, by decide, by decide, by decide, by decide, ?_⟩
  norm_num [Dec.toRat]

/-! ## Runtime state model (Item State Machine, Accordion Coordinator)

The mutable state of the page: a list of accordion instances, each with
its item states, transformed by the synchronous parts of `open()`,
`close()`, `closeAllExcept()` and the navigation functions.  Deferred
work (timeline completion callbacks, `setTimeout` scrolls) is not part of
the synchronous state transition; its scheduling is recorded in the
instrumentation counters. -/

/-- The DOM, reduced to what the accordion logic inspects: a parent map
    on element identifiers and the distinguished `document.body`. -/
structure Dom where
  parent : Nat → Option Nat
  body : Nat

/-- The state of one `AccordionItem`.  `element`, `bodyElem`,
    `headerText` and `id` model the DOM node; `isSemanticHTML` and
    `startOpen` the fields resolved at construction; `isOpen`, `active`
    (the active classes), `openAttr` (the native `open` attribute),
    `heightAuto` (whether the body's height style is `auto`) and
    `hasTimeline` the mutable state; `passes`, `plays`, `reverses` and
    `scheduledScrolls` are instrumentation counters recording how often
    the single-open sibling pass ran on this item's behalf, the open
    timeline was played or reversed, and a deferred scroll was scheduled —
    they correspond to no source variable and only make side effects
    visible to the theorems. -/
structure ItemState where
  element : Nat
  bodyElem : Nat
  headerText : String
  id : Option (List Char)
  isSemanticHTML : Bool
  startOpen : Bool
  isOpen : Bool
  active : Bool
  openAttr : Bool
  heightAuto : Bool
  hasTimeline : Bool
  passes : Nat
  plays : Nat
  reverses : Nat
  scheduledScrolls : Nat
deriving DecidableEq

/-- The state of one `Accordion` coordinator. -/
structure AccState where
  element : Nat
  options : AccordionOptions
  prefersReducedMotion : Bool
  isInitialLoad : Bool
  items : List ItemState
deriving DecidableEq

/-- The process-wide `accordionRegistry`. -/
abbrev Registry := List AccState

/-- An item address: accordion index in the registry, item index in it. -/
abbrev Addr := Nat × Nat

def getItem? (reg : Registry) (ad : Addr) : Option ItemState :=
  reg[ad.1]?.bind (fun acc => acc.items[ad.2]?)

def modifyItem (reg : Registry) (ad : Addr) (f : ItemState → ItemState) : Registry :=
  match reg[ad.1]? with
  | none => reg
  | some acc =>
    match acc.items[ad.2]? with
    | none => reg
    | some it => reg.set ad.1 { acc with items := acc.items.set ad.2 (f it) }

/-- `e` lies strictly inside `anc` (walks the parent chain, bounded by
    `fuel`; the real DOM is a finite tree, so a fuel larger than the tree
    depth is exact). -/
def isStrictDescendant (dom : Dom) : Nat → Nat → Nat → Bool
  | 0, _, _ => false
  | fuel + 1, e, anc =>
    match dom.parent e with
    | none => false
    | some p => p = anc || isStrictDescendant dom fuel p anc

/-- One step of the `closeNestedItems` inner loop: close item `j` of the
    nested accordion `b` when it is open (`close` is the recursive
    `close()` at the next fuel level). -/
def closeNestedItemStep (close : Registry → Addr → Registry) (b : Nat)
    (r2 : Registry) (j : Nat) : Registry :=
  match getItem? r2 (b, j) with
  | some it2 => if it2.isOpen then close r2 (b, j) else r2
  | none => r2

/-- One step of the `closeNestedItems` outer loop: when accordion `b`'s
    container element lies inside the closing item's body (`bodyE`),
    close all of its open items. -/
def closeNestedAccStep (dom : Dom) (fuelD : Nat) (close : Registry → Addr → Registry)
    (bodyE : Nat) (r : Registry) (b : Nat) : Registry :=
  match r[b]? with
  | none => r
  | some acc2 =>
    if isStrictDescendant dom fuelD acc2.element bodyE then
      (List.range acc2.items.length).foldl (closeNestedItemStep close b) r
    else r

/-- `AccordionItem.close` (src/hybrid-accordion.js lines 286–323) plus its
    `closeNestedItems` cascade (lines 446–463): clear `isOpen` and the
    active classes; when `closeNestedOnParentClose` is set, close every
    open item of every registered accordion whose container lies inside
    this item's body; finally run the animation branch — under respected
    reduced motion (or with no timeline) remove the native `open`
    attribute and snap the height shut, otherwise reverse the timeline
    (the `open` attribute is then only removed by the asynchronous
    `onReverseComplete`).  `fuel` bounds the cascade recursion; the DOM
    containment order makes the real recursion finite, and any fuel
    larger than the total item count is exact. -/
def closeItem (dom : Dom) : Nat → Registry → Addr → Registry
  | 0, reg, _ => reg
  | fuel + 1, reg, ad =>
    match reg[ad.1]? with
    | none => reg
    | some acc =>
      match acc.items[ad.2]? with
      | none => reg
      | some it =>
        let reg1 := modifyItem reg ad (fun j => { j with isOpen := false, active := false })
        let reg2 :=
          if acc.options.interactions.closeNestedOnParentClose then
            (List.range reg1.length).foldl
              (closeNestedAccStep dom (fuel + 1) (fun r ad2 => closeItem dom fuel r ad2) it.bodyElem)
              reg1
          else reg1
        modifyItem reg2 ad (fun j =>
          if acc.prefersReducedMotion && acc.options.animation.respectMotionPreference then
            { j with openAttr := if j.isSemanticHTML then false else j.openAttr,
                     heightAuto := false }
          else if j.hasTimeline then
            { j with heightAuto := false, reverses := j.reverses + 1 }
          else
            { j with openAttr := if j.isSemanticHTML then false else j.openAttr,
                     heightAuto := false })

/-- The body of the `closeAllExcept` loop, for one candidate index `j`:
    skip `exceptItem` itself, close `j` when it is open and its element
    shares `exceptItem`'s parent element. -/
def closeAllExceptStep (dom : Dom) (fuel : Nat) (a excl : Nat) (r : Registry) (j : Nat) : Registry :=
  if j = excl then r
  else
    match getItem? r (a, j), getItem? r (a, excl) with
    | some itj, some ite =>
      if itj.isOpen && (dom.parent itj.element == dom.parent ite.element) then
        closeItem dom fuel r (a, j)
      else r
    | _, _ => r

/-- `Accordion.closeAllExcept` (src/hybrid-accordion.js lines 652–662):
    close every other item of this accordion that is open and whose
    element shares `exceptItem`'s parent element. -/
def closeAllExcept (dom : Dom) (fuel : Nat) (reg : Registry) (a : Nat) (excl : Nat) : Registry :=
  match reg[a]? with
  | none => reg
  | some acc =>
    (List.range acc.items.length).foldl (closeAllExceptStep dom fuel a excl) reg

/-- `AccordionItem.handleOpen` (src/hybrid-accordion.js lines 260–284):
    under respected reduced motion snap the height open; otherwise create
    the timeline on first use (the guard inside `createTimelineIfNeeded`
    passes because this branch has reduced motion off) and play it; then,
    when scroll-to-view is on and this is not the initial load, schedule
    the deferred scroll. -/
def handleOpen (reg : Registry) (a i : Nat) : Registry :=
  match reg[a]? with
  | none => reg
  | some acc =>
    let reg1 := modifyItem reg (a, i) (fun j =>
      if acc.prefersReducedMotion && acc.options.animation.respectMotionPreference then
        { j with heightAuto := true }
      else
        let j1 := if j.hasTimeline then j else { j with hasTimeline := true }
        if j1.hasTimeline then { j1 with plays := j1.plays + 1 }
        else { j1 with heightAuto := true })
    if acc.options.scrollToView.enabled && !acc.isInitialLoad then
      modifyItem reg1 (a, i) (fun j => { j with scheduledScrolls := j.scheduledScrolls + 1 })
    else reg1

/-- `AccordionItem.open` (src/hybrid-accordion.js lines 244–258): under
    single-open mode first run the sibling pass (`closeAllExcept`; the
    `passes` bump records that the pass ran on this item's behalf), then
    set `isOpen`, the active classes and the native `open` attribute, and
    run `handleOpen`. -/
def openItem (dom : Dom) (fuel : Nat) (reg : Registry) (a i : Nat) : Registry :=
  match reg[a]? with
  | none => reg
  | some acc =>
    let reg1 :=
      if acc.options.interactions.singleOpen then
        closeAllExcept dom fuel (modifyItem reg (a, i) (fun j => { j with passes := j.passes + 1 })) a i
      else reg
    let reg2 := modifyItem reg1 (a, i) (fun j =>
      { j with isOpen := true, active := true,
               openAttr := if j.isSemanticHTML then true else j.openAttr })
    handleOpen reg2 a i

/-- `AccordionItem.getScrollDelay` (src/hybrid-accordion.js lines
    325–336): under respected reduced motion only the configured
    post-animation delay, converted to milliseconds; otherwise the
    animation duration plus the configured delay, both in milliseconds. -/
def getScrollDelay (acc : AccState) : JSNum :=
  if acc.prefersReducedMotion && acc.options.animation.respectMotionPreference then
    some ((jsOrZero acc.options.scrollToView.delay).mulPow10 3)
  else
    jsAdd (jsMul1000 acc.options.animation.duration)
      (some ((jsOrZero acc.options.scrollToView.delay).mulPow10 3))

/-! ## Registry update lemmas -/

theorem getItem?_modifyItem_self (reg : Registry) (ad : Addr) (f : ItemState → ItemState) :
    getItem? (modifyItem reg ad f) ad = (getItem? reg ad).map f := by
  unfold modifyItem
  split
  next ha => simp [getItem?, ha]
  next acc ha =>
    split
    next hi => simp [getItem?, ha, hi]
    next it hi =>
      have hlt : ad.1 < reg.length := (List.getElem?_eq_some.mp ha).1
      have hlt2 : ad.2 < acc.items.length := (List.getElem?_eq_some.mp hi).1
      simp [getItem?, ha, hi, List.getElem?_set_eq_of_lt _ hlt, List.getElem?_set_eq_of_lt _ hlt2]

theorem getItem?_modifyItem_ne (reg : Registry) (ad ad' : Addr) (f : ItemState → ItemState)
    (h : ad' ≠ ad) : getItem? (modifyItem reg ad f) ad' = getItem? reg ad' := by
  unfold modifyItem
  split
  next => rfl
  next acc ha =>
    split
    next => rfl
    next it hi =>
      have hlt : ad.1 < reg.length := (List.getElem?_eq_some.mp ha).1
      unfold getItem?
      by_cases h1 : ad'.1 = ad.1
      · have h2 : ad'.2 ≠ ad.2 := fun h2 => h (Prod.ext h1 h2)
        rw [h1, List.getElem?_set_eq_of_lt _ hlt, ha]
        simp [List.getElem?_set_ne (fun hx => h2 hx.symm)]
      · rw [List.getElem?_set_ne (fun hx => h1 hx.symm)]

theorem length_modifyItem (reg : Registry) (ad : Addr) (f : ItemState → ItemState) :
    (modifyItem reg ad f).length = reg.length := by
  unfold modifyItem
  split
  next => rfl
  next acc ha =>
    split
    next => rfl
    next it hi => exact List.length_set _ _ _

/-- The accordion-level data (element, options, flags, item count) that
    item updates can never change. -/
def accData (acc : AccState) : Nat × AccordionOptions × Bool × Bool × Nat :=
  (acc.element, acc.options, acc.prefersReducedMotion, acc.isInitialLoad, acc.items.length)

theorem acc_modifyItem (reg : Registry) (ad : Addr) (f : ItemState → ItemState) (a : Nat) :
    ((modifyItem reg ad f)[a]?).map accData = (reg[a]?).map accData := by
  unfold modifyItem
  split
  next => rfl
  next acc ha =>
    split
    next => rfl
    next it hi =>
      have hlt : ad.1 < reg.length := (List.getElem?_eq_some.mp ha).1
      by_cases h1 : a = ad.1
      · subst h1
        rw [List.getElem?_set_eq_of_lt _ hlt, ha]
        simp [accData, List.length_set]
      · rw [List.getElem?_set_ne (fun hx => h1 hx.symm)]

/-- The per-item identity data that the open/close operations never
    change. -/
def itemIdData (it : ItemState) : Nat × Nat × String × Option (List Char) × Bool × Bool :=
  (it.element, it.bodyElem, it.headerText, it.id, it.isSemanticHTML, it.startOpen)

/-- `reg'` arises from `reg` without changing the registry's shape: the
    accordion-level data and every item's identity data are intact. -/
def ShapeEvolves (reg reg' : Registry) : Prop :=
  (∀ a : Nat, (reg'[a]?).map accData = (reg[a]?).map accData) ∧
  (∀ ad it it', getItem? reg ad = some it → getItem? reg' ad = some it' →
    itemIdData it' = itemIdData it)

/-- `reg'` arises from `reg` by steps that can only clear `isOpen`. -/
def OpenMono (reg reg' : Registry) : Prop :=
  ∀ ad it it', getItem? reg ad = some it → getItem? reg' ad = some it' →
    it'.isOpen = true → it.isOpen = true

theorem getItem?_isSome_of_acc {reg reg' : Registry}
    (h : ∀ a : Nat, (reg'[a]?).map accData = (reg[a]?).map accData) (ad : Addr) :
    (getItem? reg' ad).isSome = (getItem? reg ad).isSome := by
  unfold getItem?
  have hd := h ad.1
  cases ha : reg[ad.1]? with
  | none =>
    rw [ha] at hd
    simp only [Option.map_none', Option.map_eq_none'] at hd
    rw [hd]
  | some acc =>
    rw [ha] at hd
    cases hb : reg'[ad.1]? with
    | none => rw [hb] at hd; exact absurd hd (by simp)
    | some acc' =>
      rw [hb] at hd
      rw [Option.map_some', Option.map_some'] at hd
      have hlen : acc'.items.length = acc.items.length := by
        have := congrArg (fun t => t.2.2.2.2) (Option.some_inj.mp hd)
        simpa [accData] using this
      simp only [Option.some_bind]
      by_cases hin : ad.2 < acc.items.length
      · have h1 : acc.items[ad.2]?.isSome := by
          rw [List.getElem?_eq_getElem hin]; rfl
        have h2 : acc'.items[ad.2]?.isSome := by
          rw [List.getElem?_eq_getElem (hlen ▸ hin)]; rfl
        rw [h1, h2]
      · have h1 : acc.items[ad.2]? = none := List.getElem?_eq_none_iff.mpr (Nat.le_of_not_lt hin)
        have h2 : acc'.items[ad.2]? = none := List.getElem?_eq_none_iff.mpr (hlen ▸ Nat.le_of_not_lt hin)
        rw [h1, h2]

/-- Close-type evolution: shape preserved and `isOpen` only cleared. -/
def CloseEvolves (reg reg' : Registry) : Prop := ShapeEvolves reg reg' ∧ OpenMono reg reg'

theorem shapeEvolves_refl (reg : Registry) : ShapeEvolves reg reg :=
  ⟨fun _ => rfl, fun _ _ _ h h' => by rw [h] at h'; rw [Option.some_inj.mp h']⟩

theorem closeEvolves_refl (reg : Registry) : CloseEvolves reg reg :=
  ⟨shapeEvolves_refl reg, fun _ _ _ h h' ho => by
    rw [h] at h'
    cases Option.some_inj.mp h'
    exact ho⟩

theorem getItem?_some_of_shape {reg reg' : Registry} (h : ShapeEvolves reg reg') {ad : Addr}
    {it : ItemState} (hit : getItem? reg ad = some it) : ∃ it', getItem? reg' ad = some it' := by
  have := getItem?_isSome_of_acc h.1 ad
  rw [hit] at this
  exact Option.isSome_iff_exists.mp (by rw [this]; rfl)

theorem shapeEvolves_trans {r1 r2 r3 : Registry} (h12 : ShapeEvolves r1 r2)
    (h23 : ShapeEvolves r2 r3) : ShapeEvolves r1 r3 := by
  refine ⟨fun a => (h23.1 a).trans (h12.1 a), fun ad it it' hit hit' => ?_⟩
  obtain ⟨itm, hitm⟩ := getItem?_some_of_shape h12 hit
  exact (h23.2 ad itm it' hitm hit').trans (h12.2 ad it itm hit hitm)

theorem closeEvolves_trans {r1 r2 r3 : Registry} (h12 : CloseEvolves r1 r2)
    (h23 : CloseEvolves r2 r3) : CloseEvolves r1 r3 := by
  refine ⟨shapeEvolves_trans h12.1 h23.1, fun ad it it' hit hit' ho => ?_⟩
  obtain ⟨itm, hitm⟩ := getItem?_some_of_shape h12.1 hit
  exact h12.2 ad it itm hit hitm (h23.2 ad itm it' hitm hit' ho)

theorem shapeEvolves_modifyItem (reg : Registry) (ad : Addr) (f : ItemState → ItemState)
    (hid : ∀ it, itemIdData (f it) = itemIdData it) : ShapeEvolves reg (modifyItem reg ad f) := by
  refine ⟨fun a => acc_modifyItem reg ad f a, fun ad' it it' hit hit' => ?_⟩
  by_cases h : ad' = ad
  · subst h
    rw [getItem?_modifyItem_self, hit, Option.map_some'] at hit'
    obtain rfl := Option.some_inj.mp hit'
    exact hid it
  · rw [getItem?_modifyItem_ne _ _ _ _ h, hit] at hit'
    rw [Option.some_inj.mp hit']

theorem openMono_modifyItem (reg : Registry) (ad : Addr) (f : ItemState → ItemState)
    (hopen : ∀ it, (f it).isOpen = true → it.isOpen = true) : OpenMono reg (modifyItem reg ad f) := by
  intro ad' it it' hit hit' ho
  by_cases h : ad' = ad
  · subst h
    rw [getItem?_modifyItem_self, hit, Option.map_some'] at hit'
    obtain rfl := Option.some_inj.mp hit'
    exact hopen it ho
  · rw [getItem?_modifyItem_ne _ _ _ _ h, hit] at hit'
    cases Option.some_inj.mp hit'
    exact ho

theorem closeEvolves_modifyItem (reg : Registry) (ad : Addr) (f : ItemState → ItemState)
    (hid : ∀ it, itemIdData (f it) = itemIdData it)
    (hopen : ∀ it, (f it).isOpen = true → it.isOpen = true) :
    CloseEvolves reg (modifyItem reg ad f) :=
  ⟨shapeEvolves_modifyItem reg ad f hid, openMono_modifyItem reg ad f hopen⟩

theorem closeEvolves_foldl {β : Type} (step : Registry → β → Registry)
    (hstep : ∀ r x, CloseEvolves r (step r x)) :
    ∀ (l : List β) (reg : Registry), CloseEvolves reg (l.foldl step reg) := by
  intro l
  induction l with
  | nil => exact fun reg => closeEvolves_refl reg
  | cons x xs ih =>
    intro reg
    exact closeEvolves_trans (hstep reg x) (ih (step reg x))

theorem closeEvolves_closeNestedItemStep (close : Registry → Addr → Registry)
    (hclose : ∀ r ad, CloseEvolves r (close r ad)) (b : Nat) :
    ∀ (r2 : Registry) (j : Nat), CloseEvolves r2 (closeNestedItemStep close b r2 j) := by
  intro r2 j
  unfold closeNestedItemStep
  split
  next it2 hit2 =>
    split_ifs with hop
    · exact hclose r2 (b, j)
    · exact closeEvolves_refl r2
  next => exact closeEvolves_refl r2

theorem closeEvolves_closeNestedAccStep (dom : Dom) (fuelD : Nat)
    (close : Registry → Addr → Registry) (hclose : ∀ r ad, CloseEvolves r (close r ad))
    (bodyE : Nat) :
    ∀ (r : Registry) (b : Nat), CloseEvolves r (closeNestedAccStep dom fuelD close bodyE r b) := by
  intro r b
  unfold closeNestedAccStep
  split
  next => exact closeEvolves_refl r
  next acc2 hb =>
    split_ifs with hdesc
    · exact closeEvolves_foldl _ (closeEvolves_closeNestedItemStep close hclose b) _ _
    · exact closeEvolves_refl r

/-- `close()` (with its nested cascade) preserves the registry's shape and
    never sets any `isOpen`. -/
theorem closeEvolves_closeItem (dom : Dom) :
    ∀ (fuel : Nat) (reg : Registry) (ad : Addr), CloseEvolves reg (closeItem dom fuel reg ad) := by
  intro fuel
  induction fuel with
  | zero => exact fun reg ad => closeEvolves_refl reg
  | succ fuel ih =>
    intro reg ad
    unfold closeItem
    split
    next => exact closeEvolves_refl reg
    next acc ha =>
      split
      next => exact closeEvolves_refl reg
      next it hi =>
        simp only []
        have h1 : CloseEvolves reg
            (modifyItem reg ad (fun j => { j with isOpen := false, active := false })) :=
          closeEvolves_modifyItem _ _ _ (fun j => rfl) (fun j h => by simp at h)
        refine closeEvolves_trans ?h2 (closeEvolves_modifyItem _ _ _ (fun j => ?hid) (fun j h => ?hop))
        case h2 =>
          split_ifs with hcn
          · exact closeEvolves_trans h1
              (closeEvolves_foldl _
                (closeEvolves_closeNestedAccStep dom (fuel + 1) _ (fun r ad2 => ih r ad2) it.bodyElem) _ _)
          · exact h1
        case hid => split_ifs <;> rfl
        case hop => split_ifs at h <;> exact h

theorem getItem?_eq_some_iff {reg : Registry} {ad : Addr} {it : ItemState} :
    getItem? reg ad = some it ↔
      ∃ acc, reg[ad.1]? = some acc ∧ acc.items[ad.2]? = some it := by
  unfold getItem?
  cases reg[ad.1]? <;> simp

/-- An item closed before a close-type evolution is still closed after. -/
theorem closed_of_closeEvolves {reg reg' : Registry} (h : CloseEvolves reg reg') {ad : Addr}
    {it it' : ItemState} (hit : getItem? reg ad = some it) (hit' : getItem? reg' ad = some it')
    (ho : it.isOpen = false) : it'.isOpen = false := by
  cases hop : it'.isOpen with
  | false => rfl
  | true => rw [h.2 ad it it' hit hit' hop] at ho; cases ho

/-- `close()` leaves its own target with `isOpen = false` (when the
    cascade fuel is positive). -/
theorem closeItem_closes (dom : Dom) (fuel : Nat) (reg : Registry) (ad : Addr) :
    ∀ it', getItem? (closeItem dom (fuel + 1) reg ad) ad = some it' → it'.isOpen = false := by
  intro it' hit'
  rw [closeItem] at hit'
  revert hit'
  split
  next ha =>
    intro hit'
    rw [getItem?_eq_some_iff] at hit'
    obtain ⟨acc, hb, -⟩ := hit'
    rw [ha] at hb
    cases hb
  next acc ha =>
    split
    next hi =>
      intro hit'
      rw [getItem?_eq_some_iff] at hit'
      obtain ⟨acc2, hb, hj⟩ := hit'
      rw [ha] at hb
      cases Option.some_inj.mp hb
      rw [hi] at hj
      cases hj
    next it hi =>
      simp only []
      intro hit'
      rw [getItem?_modifyItem_self] at hit'
      have hreg1 : getItem? (modifyItem reg ad
            (fun j => { j with isOpen := false, active := false })) ad =
          some { it with isOpen := false, active := false } := by
        rw [getItem?_modifyItem_self, getItem?_eq_some_iff.mpr ⟨acc, ha, hi⟩, Option.map_some']
      by_cases hcn : acc.options.interactions.closeNestedOnParentClose = true
      · rw [if_pos hcn] at hit'
        obtain ⟨it2, h2, hF⟩ := Option.map_eq_some'.mp hit'
        have hclosed : it2.isOpen = false :=
          closed_of_closeEvolves
            (closeEvolves_foldl _
              (closeEvolves_closeNestedAccStep dom (fuel + 1) _
                (fun r ad2 => closeEvolves_closeItem dom fuel r ad2) it.bodyElem) _ _)
            hreg1 h2 rfl
        have hiso : it'.isOpen = it2.isOpen := by
          rw [← hF]
          split_ifs <;> rfl
        rw [hiso]
        exact hclosed
      · rw [if_neg hcn, hreg1] at hit'
        obtain ⟨it2, h2, hF⟩ := Option.map_eq_some'.mp hit'
        have hiso : it'.isOpen = it2.isOpen := by
          rw [← hF]
          split_ifs <;> rfl
        rw [hiso]
        cases Option.some_inj.mp h2
        rfl

theorem closeEvolves_closeAllExceptStep (dom : Dom) (fuel : Nat) (a excl : Nat) :
    ∀ (r : Registry) (j : Nat), CloseEvolves r (closeAllExceptStep dom fuel a excl r j) := by
  intro r j
  unfold closeAllExceptStep
  split_ifs with hj
  · exact closeEvolves_refl r
  · split
    next itj ite hitj hite =>
      split_ifs with hcond
      · exact closeEvolves_closeItem dom fuel r (a, j)
      · exact closeEvolves_refl r
    next => exact closeEvolves_refl r

theorem closeEvolves_closeAllExcept (dom : Dom) (fuel : Nat) (reg : Registry) (a excl : Nat) :
    CloseEvolves reg (closeAllExcept dom fuel reg a excl) := by
  unfold closeAllExcept
  split
  next => exact closeEvolves_refl reg
  next acc ha =>
    exact closeEvolves_foldl _ (closeEvolves_closeAllExceptStep dom fuel a excl) _ _

/-- After one `closeAllExcept` pass, every item of accordion `a` other
    than `exceptItem` whose element shares `exceptItem`'s parent element
    is closed, provided its index was covered by the pass. -/
theorem closeAllExcept_fold_post (dom : Dom) (f : Nat) (a excl : Nat) :
    ∀ (l : List Nat) (r : Registry) (j : Nat), j ∈ l → j ≠ excl →
      ∀ itj ite',
        getItem? (l.foldl (closeAllExceptStep dom (f + 1) a excl) r) (a, j) = some itj →
        getItem? (l.foldl (closeAllExceptStep dom (f + 1) a excl) r) (a, excl) = some ite' →
        dom.parent itj.element = dom.parent ite'.element →
        itj.isOpen = false := by
  intro l
  induction l with
  | nil =>
    intro r j hj
    cases hj
  | cons j0 l ih =>
    intro r j hj hne itj ite' hitj hite' hpar
    rw [List.foldl_cons] at hitj hite'
    rcases List.mem_cons.mp hj with rfl | hj'
    · by_cases hj'' : j ∈ l
      · exact ih _ j hj'' hne itj ite' hitj hite' hpar
      · have hrest : CloseEvolves (closeAllExceptStep dom (f + 1) a excl r j)
            (l.foldl (closeAllExceptStep dom (f + 1) a excl)
              (closeAllExceptStep dom (f + 1) a excl r j)) :=
          closeEvolves_foldl _ (closeEvolves_closeAllExceptStep dom (f + 1) a excl) l _
        have hall : CloseEvolves r
            (l.foldl (closeAllExceptStep dom (f + 1) a excl)
              (closeAllExceptStep dom (f + 1) a excl r j)) :=
          closeEvolves_trans (closeEvolves_closeAllExceptStep dom (f + 1) a excl r j) hrest
        obtain ⟨itj0, hitj0⟩ : ∃ x,
            getItem? (closeAllExceptStep dom (f + 1) a excl r j) (a, j) = some x := by
          have hs := getItem?_isSome_of_acc hrest.1.1 (a, j)
          rw [hitj] at hs
          exact Option.isSome_iff_exists.mp (by rw [← hs]; rfl)
        have hexcl0 : (getItem? r (a, excl)).isSome = true := by
          have hs := getItem?_isSome_of_acc hall.1.1 (a, excl)
          rw [hite'] at hs
          rw [← hs]
          rfl
        have hstep : itj0.isOpen = false := by
          revert hitj0
          unfold closeAllExceptStep
          rw [if_neg hne]
          cases hj1 : getItem? r (a, j) with
          | none =>
            intro h0
            have h0' : getItem? r (a, j) = some itj0 := h0
            rw [hj1] at h0'
            cases h0'
          | some itjr =>
            cases hj2 : getItem? r (a, excl) with
            | none =>
              rw [hj2] at hexcl0
              cases hexcl0
            | some iter =>
              show getItem?
                  (if itjr.isOpen && (dom.parent itjr.element == dom.parent iter.element) then
                    closeItem dom (f + 1) r (a, j)
                  else r) (a, j) = some itj0 → itj0.isOpen = false
              split_ifs with hcond
              · exact closeItem_closes dom f r (a, j) itj0
              · intro h0
                rw [hj1] at h0
                cases Option.some_inj.mp h0
                have hel1 : itj.element = itj0.element :=
                  congrArg (fun t => t.1) (hall.1.2 (a, j) itj0 itj hj1 hitj)
                have hel2 : ite'.element = iter.element :=
                  congrArg (fun t => t.1) (hall.1.2 (a, excl) iter ite' hj2 hite')
                cases hopn : itj0.isOpen with
                | false => rfl
                | true =>
                  exfalso
                  apply hcond
                  rw [Bool.and_eq_true, hopn]
                  refine ⟨rfl, ?_⟩
                  rw [beq_iff_eq, ← hel1, ← hel2]
                  exact hpar
        exact closed_of_closeEvolves hrest hitj0 hitj hstep
    · exact ih _ j hj' hne itj ite' hitj hite' hpar

theorem isOpen_modifyItem (reg : Registry) (ad : Addr) (fn : ItemState → ItemState)
    (hf : ∀ it, (fn it).isOpen = it.isOpen) (ad' : Addr) :
    (getItem? (modifyItem reg ad fn) ad').map (fun it => it.isOpen) =
      (getItem? reg ad').map (fun it => it.isOpen) := by
  by_cases h : ad' = ad
  · subst h
    rw [getItem?_modifyItem_self]
    cases getItem? reg ad' <;> simp [hf]
  · rw [getItem?_modifyItem_ne _ _ _ _ h]

theorem isOpen_handleOpen (reg : Registry) (a i : Nat) (ad : Addr) :
    (getItem? (handleOpen reg a i) ad).map (fun it => it.isOpen) =
      (getItem? reg ad).map (fun it => it.isOpen) := by
  unfold handleOpen
  split
  next => rfl
  next acc ha =>
    simp only []
    by_cases hscr : (acc.options.scrollToView.enabled && !acc.isInitialLoad) = true
    · rw [if_pos hscr, isOpen_modifyItem, isOpen_modifyItem]
      · exact fun it => by split_ifs <;> rfl
      · exact fun it => rfl
    · rw [if_neg hscr, isOpen_modifyItem]
      exact fun it => by split_ifs <;> rfl

theorem shapeEvolves_handleOpen (reg : Registry) (a i : Nat) :
    ShapeEvolves reg (handleOpen reg a i) := by
  unfold handleOpen
  split
  next => exact shapeEvolves_refl reg
  next acc ha =>
    simp only []
    by_cases hscr : (acc.options.scrollToView.enabled && !acc.isInitialLoad) = true
    · rw [if_pos hscr]
      refine shapeEvolves_trans (shapeEvolves_modifyItem _ _ _ ?hf1)
        (shapeEvolves_modifyItem _ _ _ ?hf2)
      case hf1 => exact fun j => by split_ifs <;> rfl
      case hf2 => exact fun j => rfl
    · rw [if_neg hscr]
      refine shapeEvolves_modifyItem _ _ _ ?hf3
      case hf3 => exact fun j => by split_ifs <;> rfl

theorem shapeEvolves_openItem (dom : Dom) (fuel : Nat) (reg : Registry) (a i : Nat) :
    ShapeEvolves reg (openItem dom fuel reg a i) := by
  unfold openItem
  split
  next => exact shapeEvolves_refl reg
  next acc ha =>
    simp only []
    refine shapeEvolves_trans (shapeEvolves_trans ?hA
      (shapeEvolves_modifyItem _ _ _ ?hB)) (shapeEvolves_handleOpen _ a i)
    case hB => exact fun j => rfl
    case hA =>
      split_ifs with hs
      · refine shapeEvolves_trans (shapeEvolves_modifyItem _ _ _ ?hC)
          (closeEvolves_closeAllExcept dom fuel _ a i).1
        case hC => exact fun j => rfl
      · exact shapeEvolves_refl reg

/-- After `open()` on item `i` of a single-open accordion, item `i` is
    open and every other item of the accordion sharing its parent element
    is closed. -/
theorem openItem_post (dom : Dom) (f : Nat) (reg : Registry) (a i : Nat) (acc : AccState)
    (hacc : reg[a]? = some acc) (hsingle : acc.options.interactions.singleOpen = true)
    (hi : i < acc.items.length) :
    (getItem? (openItem dom (f + 1) reg a i) (a, i)).map (fun it => it.isOpen) = some true ∧
    (∀ j itj iti', j ≠ i →
      getItem? (openItem dom (f + 1) reg a i) (a, j) = some itj →
      getItem? (openItem dom (f + 1) reg a i) (a, i) = some iti' →
      dom.parent itj.element = dom.parent iti'.element →
      itj.isOpen = false) := by
  have hres : openItem dom (f + 1) reg a i =
      handleOpen (modifyItem
        (closeAllExcept dom (f + 1)
          (modifyItem reg (a, i) (fun j => { j with passes := j.passes + 1 })) a i)
        (a, i) (fun j => { j with isOpen := true, active := true, openAttr := if j.isSemanticHTML then true else j.openAttr })) a i := by
    unfold openItem
    rw [hacc]
    show handleOpen (modifyItem
        (if acc.options.interactions.singleOpen = true then
          closeAllExcept dom (f + 1)
            (modifyItem reg (a, i) (fun j => { j with passes := j.passes + 1 })) a i
        else reg)
        (a, i) (fun j => { j with isOpen := true, active := true, openAttr := if j.isSemanticHTML then true else j.openAttr })) a i = _
    rw [if_pos hsingle]
  -- names for the intermediate registries
  have hit0 : getItem? reg (a, i) = some (acc.items[i]) := by
    rw [getItem?_eq_some_iff]
    exact ⟨acc, hacc, List.getElem?_eq_getElem hi⟩
  have hRPi : getItem? (modifyItem reg (a, i) (fun j => { j with passes := j.passes + 1 })) (a, i) =
      some { acc.items[i] with passes := (acc.items[i]).passes + 1 } := by
    rw [getItem?_modifyItem_self, hit0, Option.map_some']
  obtain ⟨acc', hacc', hlen'⟩ : ∃ acc',
      (modifyItem reg (a, i) (fun j => { j with passes := j.passes + 1 }))[a]? = some acc' ∧
        acc'.items.length = acc.items.length := by
    have hm := acc_modifyItem reg (a, i) (fun j => { j with passes := j.passes + 1 }) a
    rw [hacc, Option.map_some'] at hm
    obtain ⟨acc', h1, h2⟩ := Option.map_eq_some'.mp hm
    exact ⟨acc', h1, congrArg (fun t => t.2.2.2.2) h2⟩
  have hR1eq : closeAllExcept dom (f + 1)
      (modifyItem reg (a, i) (fun j => { j with passes := j.passes + 1 })) a i =
      (List.range acc'.items.length).foldl (closeAllExceptStep dom (f + 1) a i)
        (modifyItem reg (a, i) (fun j => { j with passes := j.passes + 1 })) := by
    unfold closeAllExcept
    rw [hacc']
  have hR1ev : CloseEvolves (modifyItem reg (a, i) (fun j => { j with passes := j.passes + 1 }))
      (closeAllExcept dom (f + 1)
        (modifyItem reg (a, i) (fun j => { j with passes := j.passes + 1 })) a i) :=
    closeEvolves_closeAllExcept dom (f + 1) _ a i
  obtain ⟨iti1, hiti1⟩ : ∃ x, getItem? (closeAllExcept dom (f + 1)
      (modifyItem reg (a, i) (fun j => { j with passes := j.passes + 1 })) a i) (a, i) = some x := by
    have hs := getItem?_isSome_of_acc hR1ev.1.1 (a, i)
    rw [hRPi] at hs
    exact Option.isSome_iff_exists.mp (by rw [hs]; rfl)
  -- item i after the open write
  have hR2i : getItem? (modifyItem
      (closeAllExcept dom (f + 1)
        (modifyItem reg (a, i) (fun j => { j with passes := j.passes + 1 })) a i)
      (a, i) (fun j => { j with isOpen := true, active := true, openAttr := if j.isSemanticHTML then true else j.openAttr })) (a, i) =
      some { iti1 with isOpen := true, active := true, openAttr := if iti1.isSemanticHTML then true else iti1.openAttr } := by
    rw [getItem?_modifyItem_self, hiti1, Option.map_some']
  constructor
  · rw [hres, isOpen_handleOpen, hR2i, Option.map_some']
  · intro j itj iti' hne hitj hiti' hpar
    rw [hres] at hitj hiti'
    -- transport the final items back to the state after the sibling pass
    have hmapj : (getItem? (handleOpen (modifyItem
        (closeAllExcept dom (f + 1)
          (modifyItem reg (a, i) (fun j => { j with passes := j.passes + 1 })) a i)
        (a, i) (fun j => { j with isOpen := true, active := true, openAttr := if j.isSemanticHTML then true else j.openAttr })) a i) (a, j)).map
          (fun it => it.isOpen) =
        (getItem? (closeAllExcept dom (f + 1)
          (modifyItem reg (a, i) (fun j => { j with passes := j.passes + 1 })) a i) (a, j)).map
          (fun it => it.isOpen) := by
      rw [isOpen_handleOpen, getItem?_modifyItem_ne]
      exact fun hx => hne (congrArg (fun t => t.2) hx)
    rw [hitj, Option.map_some'] at hmapj
    obtain ⟨itj1, hitj1, hjopen⟩ := Option.map_eq_some'.mp hmapj.symm
    -- element identities through the last two steps
    have hshape2 : ShapeEvolves (closeAllExcept dom (f + 1)
        (modifyItem reg (a, i) (fun j => { j with passes := j.passes + 1 })) a i)
        (handleOpen (modifyItem
          (closeAllExcept dom (f + 1)
            (modifyItem reg (a, i) (fun j => { j with passes := j.passes + 1 })) a i)
          (a, i) (fun j => { j with isOpen := true, active := true, openAttr := if j.isSemanticHTML then true else j.openAttr })) a i) := by
      refine shapeEvolves_trans (shapeEvolves_modifyItem _ _ _ ?hB) (shapeEvolves_handleOpen _ a i)
      case hB => exact fun j => rfl
    have helj : itj.element = itj1.element :=
      congrArg (fun t => t.1) (hshape2.2 (a, j) itj1 itj hitj1 hitj)
    have heli : iti'.element = iti1.element :=
      congrArg (fun t => t.1) (hshape2.2 (a, i) iti1 iti' hiti1 hiti')
    -- j was covered by the pass
    have hjlt : j < acc'.items.length := by
      have hs : (getItem? (modifyItem reg (a, i)
          (fun j => { j with passes := j.passes + 1 })) (a, j)).isSome = true := by
        have h1 := getItem?_isSome_of_acc hR1ev.1.1 (a, j)
        rw [hitj1] at h1
        rw [← h1]
        rfl
      rw [getItem?] at hs
      rw [hacc'] at hs
      simp only [Option.some_bind] at hs
      cases hjq : acc'.items[j]? with
      | none => rw [hjq] at hs; cases hs
      | some x => exact (List.getElem?_eq_some.mp hjq).1
    have hclosed : itj1.isOpen = false := by
      apply closeAllExcept_fold_post dom f a i (List.range acc'.items.length) _ j
        (List.mem_range.mpr hjlt) hne itj1 iti1
      · rw [← hR1eq]; exact hitj1
      · rw [← hR1eq]; exact hiti1
      · rw [← helj, ← heli]; exact hpar
    rw [← hjopen]
    exact hclosed

/-! ## Counting open items in a sibling group (claim C1 support) -/

/-- The number of open items of accordion `a` whose element has parent
    `p`. -/
def openCountIn (dom : Dom) (reg : Registry) (a : Nat) (p : Option Nat) : Nat :=
  match reg[a]? with
  | none => 0
  | some acc => acc.items.countP (fun it => it.isOpen && (dom.parent it.element == p))

theorem countP_le_countP_pointwise (pred : ItemState → Bool) :
    ∀ (l l' : List ItemState), l'.length = l.length →
      (∀ (k : Nat) (itk itk' : ItemState),
        l[k]? = some itk → l'[k]? = some itk' → pred itk' = true → pred itk = true) →
      l'.countP pred ≤ l.countP pred := by
  intro l
  induction l with
  | nil =>
    intro l' hlen _
    rw [List.length_nil, List.length_eq_zero] at hlen
    subst hlen
    exact Nat.le_refl _
  | cons x xs ih =>
    intro l' hlen hpt
    cases l' with
    | nil => exact Nat.zero_le _
    | cons y ys =>
      rw [List.countP_cons, List.countP_cons]
      have htail : ys.countP pred ≤ xs.countP pred := by
        refine ih ys (by simpa using hlen) (fun k itk itk' h1 h2 => ?_)
        exact hpt (k + 1) itk itk' (by simpa using h1) (by simpa using h2)
      have hhead : (if pred y then 1 else 0) ≤ (if pred x then 1 else 0) := by
        by_cases hy : pred y = true
        · have hx := hpt 0 x y (by simp) (by simp) hy
          rw [if_pos hy, if_pos hx]
        · rw [if_neg hy]
          exact Nat.zero_le _
      omega

theorem countP_le_one_except (pred : ItemState → Bool) :
    ∀ (l : List ItemState) (i : Nat),
      (∀ j itj, j ≠ i → l[j]? = some itj → pred itj = false) → l.countP pred ≤ 1 := by
  intro l
  induction l with
  | nil => intro i _; exact Nat.zero_le _
  | cons x xs ih =>
    intro i h
    rw [List.countP_cons]
    cases i with
    | zero =>
      have htail : xs.countP pred = 0 := by
        rw [List.countP_eq_zero]
        intro b hb
        obtain ⟨k, hk⟩ := List.mem_iff_getElem?.mp hb
        have := h (k + 1) b (Nat.succ_ne_zero k) (by simpa using hk)
        simp [this]
      have hone : (if pred x = true then 1 else 0) ≤ 1 := by
        split_ifs <;> omega
      omega
    | succ m =>
      have hx : pred x = false := h 0 x (by omega) (by simp)
      have htail : xs.countP pred ≤ 1 :=
        ih m (fun j itj hj h1 => h (j + 1) itj (by omega) (by simpa using h1))
      rw [hx]
      simpa using htail

theorem openCountIn_le_of_closeEvolves (dom : Dom) (a : Nat) (p : Option Nat)
    {r r' : Registry} (h : CloseEvolves r r') :
    openCountIn dom r' a p ≤ openCountIn dom r a p := by
  unfold openCountIn
  have hd := h.1.1 a
  cases ha : r[a]? with
  | none =>
    rw [ha] at hd
    rw [Option.map_none', Option.map_eq_none'] at hd
    rw [hd]
  | some acc =>
    rw [ha] at hd
    cases hb : r'[a]? with
    | none => rw [hb] at hd; exact absurd hd (by simp)
    | some acc' =>
      rw [hb] at hd
      rw [Option.map_some', Option.map_some'] at hd
      have hlen : acc'.items.length = acc.items.length := by
        have := congrArg (fun t => t.2.2.2.2) (Option.some_inj.mp hd)
        simpa [accData] using this
      refine countP_le_countP_pointwise _ acc.items acc'.items hlen ?_
      intro k itk itk' h1 h2 hp
      have hg1 : getItem? r (a, k) = some itk := getItem?_eq_some_iff.mpr ⟨acc, ha, h1⟩
      have hg2 : getItem? r' (a, k) = some itk' := getItem?_eq_some_iff.mpr ⟨acc', hb, h2⟩
      rw [Bool.and_eq_true] at hp
      rw [Bool.and_eq_true]
      have hel : itk'.element = itk.element :=
        congrArg (fun t => t.1) (h.1.2 (a, k) itk itk' hg1 hg2)
      refine ⟨h.2 (a, k) itk itk' hg1 hg2 hp.1, ?_⟩
      rw [← hel]
      exact hp.2

theorem openCountIn_eq_of_isOpenEq (dom : Dom) (a : Nat) (p : Option Nat)
    {r r' : Registry} (hshape : ShapeEvolves r r')
    (hopen : ∀ ad : Addr, (getItem? r' ad).map (fun it => it.isOpen) =
      (getItem? r ad).map (fun it => it.isOpen)) :
    openCountIn dom r' a p = openCountIn dom r a p := by
  have h1 : CloseEvolves r r' := by
    refine ⟨hshape, fun ad it it' hit hit' ho => ?_⟩
    have := hopen ad
    rw [hit, hit', Option.map_some', Option.map_some'] at this
    rw [← Option.some_inj.mp this]
    exact ho
  have h2 : CloseEvolves r' r := by
    refine ⟨?_, fun ad it it' hit hit' ho => ?_⟩
    · refine ⟨fun x => (hshape.1 x).symm, fun ad it it' hit hit' => ?_⟩
      exact (hshape.2 ad it' it hit' hit).symm
    · have := hopen ad
      rw [hit, hit', Option.map_some', Option.map_some'] at this
      rw [Option.some_inj.mp this]
      exact ho
  exact Nat.le_antisymm (openCountIn_le_of_closeEvolves dom a p h1)
    (openCountIn_le_of_closeEvolves dom a p h2)

theorem openCountIn_le_one (dom : Dom) (reg : Registry) (a : Nat) (p : Option Nat) (i : Nat)
    (h : ∀ j itj, j ≠ i → getItem? reg (a, j) = some itj →
      (itj.isOpen && (dom.parent itj.element == p)) = false) :
    openCountIn dom reg a p ≤ 1 := by
  unfold openCountIn
  cases ha : reg[a]? with
  | none => exact Nat.zero_le _
  | some acc =>
    refine countP_le_one_except _ acc.items i (fun j itj hj h1 => ?_)
    exact h j itj hj (getItem?_eq_some_iff.mpr ⟨acc, ha, h1⟩)

/-- After one `open()` on a single-open accordion, at most one item of
    the opened item's sibling group is open. -/
theorem openCountIn_after_open (dom : Dom) (f : Nat) (reg : Registry) (a i : Nat)
    (p : Option Nat) (acc : AccState)
    (hacc : reg[a]? = some acc) (hsingle : acc.options.interactions.singleOpen = true)
    (hi : i < acc.items.length) (it0 : ItemState)
    (hit0 : getItem? reg (a, i) = some it0) (hp : dom.parent it0.element = p) :
    openCountIn dom (openItem dom (f + 1) reg a i) a p ≤ 1 := by
  obtain ⟨hopen1, hpost⟩ := openItem_post dom f reg a i acc hacc hsingle hi
  obtain ⟨iti', hiti', -⟩ := Option.map_eq_some'.mp hopen1
  have hshape := shapeEvolves_openItem dom (f + 1) reg a i
  have heli : iti'.element = it0.element :=
    congrArg (fun t => t.1) (hshape.2 (a, i) it0 iti' hit0 hiti')
  refine openCountIn_le_one dom _ a p i (fun j itj hj hitj => ?_)
  cases hbq : (dom.parent itj.element == p) with
  | false => exact Bool.and_false _
  | true =>
    have hpar : dom.parent itj.element = dom.parent iti'.element := by
      rw [heli, hp]
      exact beq_iff_eq.mp hbq
    rw [hpost j itj iti' hj hitj hiti' hpar, Bool.false_and]

theorem shapeEvolves_foldl {β : Type} (step : Registry → β → Registry)
    (hstep : ∀ r x, ShapeEvolves r (step r x)) :
    ∀ (l : List β) (reg : Registry), ShapeEvolves reg (l.foldl step reg) := by
  intro l
  induction l with
  | nil => exact fun reg => shapeEvolves_refl reg
  | cons x xs ih =>
    intro reg
    exact shapeEvolves_trans (hstep reg x) (ih (step reg x))

/-- A sequence of `open()` calls on items of accordion `a`. -/
def applyOpens (dom : Dom) (fuel : Nat) (a : Nat) (reg : Registry) (seq : List Nat) : Registry :=
  seq.foldl (fun r k => openItem dom fuel r a k) reg

theorem shapeEvolves_applyOpens (dom : Dom) (fuel : Nat) (a : Nat) (reg : Registry)
    (seq : List Nat) : ShapeEvolves reg (applyOpens dom fuel a reg seq) :=
  shapeEvolves_foldl _ (fun r k => shapeEvolves_openItem dom fuel r a k) seq reg

theorem acc_of_shape {reg s : Registry} (h : ShapeEvolves reg s) {a : Nat} {acc : AccState}
    (hacc : reg[a]? = some acc) :
    ∃ acc', s[a]? = some acc' ∧ accData acc' = accData acc := by
  have hd := h.1 a
  rw [hacc, Option.map_some'] at hd
  exact Option.map_eq_some'.mp hd

theorem item_of_shape {reg s : Registry} (h : ShapeEvolves reg s) {ad : Addr}
    {it : ItemState} (hit : getItem? reg ad = some it) :
    ∃ it', getItem? s ad = some it' ∧ itemIdData it' = itemIdData it := by
  obtain ⟨it', hit'⟩ := getItem?_some_of_shape h hit
  exact ⟨it', hit', h.2 ad it it' hit hit'⟩

/-! ## The intermediate synchronous states of one `open()` call -/

/-- The successive states produced by folding `step` over `l`, initial
    state first. -/
def stepStates (step : Registry → Nat → Registry) : Registry → List Nat → List Registry
  | r, [] => [r]
  | r, j :: js => r :: stepStates step (step r j) js

theorem stepStates_ne_nil (step : Registry → Nat → Registry) (r : Registry) (l : List Nat) :
    stepStates step r l ≠ [] := by
  cases l <;> simp [stepStates]

theorem stepStates_getLast? (step : Registry → Nat → Registry) :
    ∀ (l : List Nat) (r : Registry),
      (stepStates step r l).getLast? = some (l.foldl step r) := by
  intro l
  induction l with
  | nil => intro r; rfl
  | cons j js ih =>
    intro r
    show (r :: stepStates step (step r j) js).getLast? = _
    cases hS : stepStates step (step r j) js with
    | nil => exact absurd hS (stepStates_ne_nil step _ js)
    | cons s0 S =>
      rw [List.getLast?_cons_cons, ← hS, ih (step r j)]
      rfl

theorem closeEvolves_of_mem_stepStates (dom : Dom) (fuel : Nat) (a excl : Nat) :
    ∀ (l : List Nat) (r s : Registry),
      s ∈ stepStates (closeAllExceptStep dom fuel a excl) r l → CloseEvolves r s := by
  intro l
  induction l with
  | nil =>
    intro r s hs
    obtain rfl : s = r := by simpa [stepStates] using hs
    exact closeEvolves_refl _
  | cons j js ih =>
    intro r s hs
    rw [stepStates] at hs
    rcases List.mem_cons.mp hs with rfl | hs'
    · exact closeEvolves_refl s
    · exact closeEvolves_trans (closeEvolves_closeAllExceptStep dom fuel a excl r j) (ih _ s hs')

/-- The intermediate synchronous states of one `open()` call, in
    execution order: the state at entry, then the state after each
    sibling-close step of `closeAllExcept`, then the state just after the
    winner's `isOpen`/classes/attribute write, then the state after
    `handleOpen` (which equals the result of `open()`).  The losing
    siblings are thus closed strictly before the winner is marked open. -/
def openItemStates (dom : Dom) (fuel : Nat) (reg : Registry) (a i : Nat) : List Registry :=
  match reg[a]? with
  | none => [reg]
  | some acc =>
    let regP := modifyItem reg (a, i) (fun j => { j with passes := j.passes + 1 })
    let states1 :=
      if acc.options.interactions.singleOpen then
        match regP[a]? with
        | none => [regP]
        | some acc2 => stepStates (closeAllExceptStep dom fuel a i) regP (List.range acc2.items.length)
      else [reg]
    let reg1 := if acc.options.interactions.singleOpen then closeAllExcept dom fuel regP a i else reg
    let reg2 := modifyItem reg1 (a, i) (fun j => { j with isOpen := true, active := true, openAttr := if j.isSemanticHTML then true else j.openAttr })
    states1 ++ [reg2, handleOpen reg2 a i]

theorem getLast?_append_pair {α : Type} (l : List α) (x y : α) :
    (l ++ [x, y]).getLast? = some y := by
  induction l with
  | nil => rfl
  | cons z zs ih =>
    cases hz : zs ++ [x, y] with
    | nil => exact absurd hz (by simp)
    | cons w ws =>
      rw [List.cons_append, hz, List.getLast?_cons_cons, ← hz, ih]

/-- The last intermediate state of `open()` is its result. -/
theorem openItemStates_getLast (dom : Dom) (fuel : Nat) (reg : Registry) (a i : Nat) :
    (openItemStates dom fuel reg a i).getLast? = some (openItem dom fuel reg a i) := by
  unfold openItemStates openItem
  split
  next ha => rfl
  next acc ha =>
    simp only []
    exact getLast?_append_pair _ _ _

theorem openItemStates_eq (dom : Dom) (f : Nat) (reg : Registry) (a i : Nat)
    (acc accP : AccState) (hacc : reg[a]? = some acc)
    (hsingle : acc.options.interactions.singleOpen = true)
    (haccP : (modifyItem reg (a, i) (fun j => { j with passes := j.passes + 1 }))[a]? = some accP) :
    openItemStates dom f reg a i =
      stepStates (closeAllExceptStep dom f a i)
          (modifyItem reg (a, i) (fun j => { j with passes := j.passes + 1 }))
          (List.range accP.items.length) ++
        [modifyItem (closeAllExcept dom f
            (modifyItem reg (a, i) (fun j => { j with passes := j.passes + 1 })) a i) (a, i)
            (fun j => { j with isOpen := true, active := true, openAttr := if j.isSemanticHTML then true else j.openAttr }),
         handleOpen (modifyItem (closeAllExcept dom f
            (modifyItem reg (a, i) (fun j => { j with passes := j.passes + 1 })) a i) (a, i)
            (fun j => { j with isOpen := true, active := true, openAttr := if j.isSemanticHTML then true else j.openAttr })) a i] := by
  unfold openItemStates
  rw [hacc]
  show (if acc.options.interactions.singleOpen then
      match (modifyItem reg (a, i) (fun j => { j with passes := j.passes + 1 }))[a]? with
      | none => [modifyItem reg (a, i) (fun j => { j with passes := j.passes + 1 })]
      | some acc2 => stepStates (closeAllExceptStep dom f a i)
          (modifyItem reg (a, i) (fun j => { j with passes := j.passes + 1 }))
          (List.range acc2.items.length)
    else [reg]) ++
    [modifyItem (if acc.options.interactions.singleOpen then
        closeAllExcept dom f
          (modifyItem reg (a, i) (fun j => { j with passes := j.passes + 1 })) a i
      else reg) (a, i)
      (fun j => { j with isOpen := true, active := true, openAttr := if j.isSemanticHTML then true else j.openAttr }),
     handleOpen (modifyItem (if acc.options.interactions.singleOpen then
        closeAllExcept dom f
          (modifyItem reg (a, i) (fun j => { j with passes := j.passes + 1 })) a i
      else reg) (a, i)
      (fun j => { j with isOpen := true, active := true, openAttr := if j.isSemanticHTML then true else j.openAttr })) a i] = _
  rw [if_pos hsingle, if_pos hsingle, haccP]

theorem openItem_eq (dom : Dom) (f : Nat) (reg : Registry) (a i : Nat)
    (acc : AccState) (hacc : reg[a]? = some acc)
    (hsingle : acc.options.interactions.singleOpen = true) :
    openItem dom f reg a i =
      handleOpen (modifyItem (closeAllExcept dom f
          (modifyItem reg (a, i) (fun j => { j with passes := j.passes + 1 })) a i) (a, i)
          (fun j => { j with isOpen := true, active := true, openAttr := if j.isSemanticHTML then true else j.openAttr })) a i := by
  unfold openItem
  rw [hacc]
  show handleOpen (modifyItem
      (if acc.options.interactions.singleOpen then
        closeAllExcept dom f
          (modifyItem reg (a, i) (fun j => { j with passes := j.passes + 1 })) a i
      else reg)
      (a, i) (fun j => { j with isOpen := true, active := true, openAttr := if j.isSemanticHTML then true else j.openAttr })) a i = _
  rw [if_pos hsingle]

/-- Passes-counter bumps do not change the open count. -/
theorem openCountIn_passesBump (dom : Dom) (reg : Registry) (a : Nat) (p : Option Nat)
    (ad : Addr) :
    openCountIn dom (modifyItem reg ad (fun j => { j with passes := j.passes + 1 })) a p =
      openCountIn dom reg a p := by
  refine openCountIn_eq_of_isOpenEq dom a p ?hs ?ho
  case hs =>
    apply shapeEvolves_modifyItem
    exact fun it => rfl
  case ho =>
    intro ad'
    apply isOpen_modifyItem
    exact fun it => rfl

/-- Every intermediate synchronous state of one `open()` call on a
    single-open accordion keeps at most one item of the opened item's
    sibling group open, provided the state at entry does. -/
theorem openItemStates_safe (dom : Dom) (f : Nat) (reg : Registry) (a i : Nat)
    (p : Option Nat) (acc : AccState)
    (hacc : reg[a]? = some acc) (hsingle : acc.options.interactions.singleOpen = true)
    (hi : i < acc.items.length) (it0 : ItemState)
    (hit0 : getItem? reg (a, i) = some it0) (hp : dom.parent it0.element = p)
    (hinit : openCountIn dom reg a p ≤ 1) :
    ∀ s ∈ openItemStates dom (f + 1) reg a i, openCountIn dom s a p ≤ 1 := by
  obtain ⟨accP, haccP⟩ : ∃ accP,
      (modifyItem reg (a, i) (fun j => { j with passes := j.passes + 1 }))[a]? = some accP := by
    have hm := acc_modifyItem reg (a, i) (fun j => { j with passes := j.passes + 1 }) a
    rw [hacc, Option.map_some'] at hm
    obtain ⟨accP, h1, -⟩ := Option.map_eq_some'.mp hm
    exact ⟨accP, h1⟩
  intro s hs
  rw [openItemStates_eq dom (f + 1) reg a i acc accP hacc hsingle haccP] at hs
  have hfin : openCountIn dom (openItem dom (f + 1) reg a i) a p ≤ 1 :=
    openCountIn_after_open dom f reg a i p acc hacc hsingle hi it0 hit0 hp
  rw [openItem_eq dom (f + 1) reg a i acc hacc hsingle] at hfin
  rcases List.mem_append.mp hs with hs1 | hs2
  · -- an intermediate state of the sibling-closing pass
    have hev : CloseEvolves (modifyItem reg (a, i) (fun j => { j with passes := j.passes + 1 })) s :=
      closeEvolves_of_mem_stepStates dom (f + 1) a i (List.range accP.items.length) _ s hs1
    have h1 := openCountIn_le_of_closeEvolves dom a p hev
    rw [openCountIn_passesBump] at h1
    exact Nat.le_trans h1 hinit
  · -- the state after the winner write, or the final state
    have hs2' : s = modifyItem (closeAllExcept dom (f + 1)
          (modifyItem reg (a, i) (fun j => { j with passes := j.passes + 1 })) a i) (a, i)
          (fun j => { j with isOpen := true, active := true, openAttr := if j.isSemanticHTML then true else j.openAttr }) ∨
        s = handleOpen (modifyItem (closeAllExcept dom (f + 1)
          (modifyItem reg (a, i) (fun j => { j with passes := j.passes + 1 })) a i) (a, i)
          (fun j => { j with isOpen := true, active := true, openAttr := if j.isSemanticHTML then true else j.openAttr })) a i := by
      simpa using hs2
    rcases hs2' with rfl | rfl
    · -- winner write: same open pattern as the final state
      rw [openCountIn_eq_of_isOpenEq dom a p (shapeEvolves_handleOpen _ a i)
        (fun ad' => isOpen_handleOpen _ a i ad')] at hfin
      exact hfin
    · exact hfin

theorem applyOpens_safe (dom : Dom) (f : Nat) (a : Nat) (p : Option Nat) :
    ∀ (seq : List Nat) (reg : Registry) (acc : AccState),
      reg[a]? = some acc →
      acc.options.interactions.singleOpen = true →
      (∀ k ∈ seq, k < acc.items.length) →
      (∀ k ∈ seq, ∀ it, getItem? reg (a, k) = some it → dom.parent it.element = p) →
      openCountIn dom reg a p ≤ 1 →
      openCountIn dom (applyOpens dom (f + 1) a reg seq) a p ≤ 1 ∧
      (∀ n k, seq[n]? = some k →
        ∀ s ∈ openItemStates dom (f + 1) (applyOpens dom (f + 1) a reg (seq.take n)) a k,
          openCountIn dom s a p ≤ 1) := by
  intro seq
  induction seq with
  | nil =>
    intro reg acc hacc hsingle hseq hpar hinit
    refine ⟨hinit, fun n k hk => ?_⟩
    simp at hk
  | cons k0 ks ih =>
    intro reg acc hacc hsingle hseq hpar hinit
    have hk0lt : k0 < acc.items.length := hseq k0 (List.mem_cons_self k0 ks)
    have hit0 : getItem? reg (a, k0) = some (acc.items[k0]) := by
      rw [getItem?_eq_some_iff]
      exact ⟨acc, hacc, List.getElem?_eq_getElem hk0lt⟩
    have hp0 : dom.parent (acc.items[k0]).element = p :=
      hpar k0 (List.mem_cons_self k0 ks) _ hit0
    have hshape' : ShapeEvolves reg (openItem dom (f + 1) reg a k0) :=
      shapeEvolves_openItem dom (f + 1) reg a k0
    obtain ⟨acc', hacc', haccd⟩ := acc_of_shape hshape' hacc
    have hopts' : acc'.options = acc.options := congrArg (fun t => t.2.1) haccd
    have hsingle' : acc'.options.interactions.singleOpen = true := by
      rw [hopts']; exact hsingle
    have hlen' : acc'.items.length = acc.items.length :=
      congrArg (fun t => t.2.2.2.2) haccd
    have hseq' : ∀ k ∈ ks, k < acc'.items.length := by
      intro k hk
      rw [hlen']
      exact hseq k (List.mem_cons_of_mem _ hk)
    have hpar' : ∀ k ∈ ks, ∀ it,
        getItem? (openItem dom (f + 1) reg a k0) (a, k) = some it →
        dom.parent it.element = p := by
      intro k hk it hit
      have hklt : k < acc.items.length := hseq k (List.mem_cons_of_mem _ hk)
      have hitO : getItem? reg (a, k) = some (acc.items[k]) := by
        rw [getItem?_eq_some_iff]
        exact ⟨acc, hacc, List.getElem?_eq_getElem hklt⟩
      have hel : it.element = (acc.items[k]).element :=
        congrArg (fun t => t.1) (hshape'.2 (a, k) _ it hitO hit)
      rw [hel]
      exact hpar k (List.mem_cons_of_mem _ hk) _ hitO
    have hinit' : openCountIn dom (openItem dom (f + 1) reg a k0) a p ≤ 1 :=
      openCountIn_after_open dom f reg a k0 p acc hacc hsingle hk0lt _ hit0 hp0
    obtain ⟨ihA, ihB⟩ := ih (openItem dom (f + 1) reg a k0) acc' hacc' hsingle' hseq' hpar' hinit'
    refine ⟨ihA, fun n k hk s hsmem => ?_⟩
    cases n with
    | zero =>
      have hk' : k = k0 := by simpa using hk.symm
      subst hk'
      exact openItemStates_safe dom f reg a k p acc hacc hsingle hk0lt _ hit0 hp0 hinit s hsmem
    | succ m =>
      have hk' : ks[m]? = some k := by simpa using hk
      exact ihB m k hk' s hsmem

/-! ## Concrete test fixture -/

/-- A small concrete DOM: elements below 20 are children of element 0. -/
def exDom : Dom :=
  { parent := fun e => if e < 20 then some 0 else none, body := 100 }

def exItem0 : ItemState :=
  { element := 1, bodyElem := 11, headerText := "First", id := none,
    isSemanticHTML := true, startOpen := true, isOpen := true, active := true,
    openAttr := true, heightAuto := true, hasTimeline := false,
    passes := 0, plays := 0, reverses := 0, scheduledScrolls := 0 }

def exItem1 : ItemState :=
  { element := 2, bodyElem := 12, headerText := "Second", id := none,
    isSemanticHTML := true, startOpen := false, isOpen := false, active := false,
    openAttr := false, heightAuto := false, hasTimeline := false,
    passes := 0, plays := 0, reverses := 0, scheduledScrolls := 0 }

def exAcc : AccState :=
  { element := 0, options := defaultOptions, prefersReducedMotion := false,
    isInitialLoad := false, items := [exItem0, exItem1] }

def exReg : Registry := [exAcc]

/-- C1: for an accordion whose options have `interactions.singleOpen = true`
    and any sequence of `open()` calls on items of that accordion whose
    elements share the parent element `p`, (a) after each call of the
    sequence at most one item of the parent group `p` is open, and (b) no
    intermediate synchronous state of any of the calls — entry state,
    the state after each sibling-closing step of `closeAllExcept`, the
    state after the winner's `isOpen` write, and the state after
    `handleOpen` — has two items of the group open, so the losing
    siblings are closed strictly before the winner is marked open. -/
theorem singleOpen_invariant (dom : Dom) (f : Nat) (reg : Registry) (a : Nat)
    (seq : List Nat) (p : Option Nat) (acc : AccState)
    (hacc : reg[a]? = some acc)
    (hsingle : acc.options.interactions.singleOpen = true)
    (hseq : ∀ k ∈ seq, k < acc.items.length)
    (hpar : ∀ k ∈ seq, ∀ it, getItem? reg (a, k) = some it → dom.parent it.element = p)
    (hinit : openCountIn dom reg a p ≤ 1) :
    (∀ n, openCountIn dom (applyOpens dom (f + 1) a reg (seq.take n)) a p ≤ 1) ∧
    (∀ n k, seq[n]? = some k →
      ∀ s ∈ openItemStates dom (f + 1) (applyOpens dom (f + 1) a reg (seq.take n)) a k,
        openCountIn dom s a p ≤ 1) := by
  constructor
  · intro n
    exact (applyOpens_safe dom f a p (seq.take n) reg acc hacc hsingle
      (fun k hk => hseq k (List.take_subset n seq hk))
      (fun k hk => hpar k (List.take_subset n seq hk)) hinit).1
  · exact (applyOpens_safe dom f a p seq reg acc hacc hsingle hseq hpar hinit).2

theorem singleOpen_invariant_witness :
    openCountIn exDom (applyOpens exDom 5 0 exReg ([1, 0].take 2)) 0 (some 0) ≤ 1 ∧
    (openItemStates exDom 5 (applyOpens exDom 5 0 exReg ([1, 0].take 1)) 0 0).all
      (fun s => decide (openCountIn exDom s 0 (some 0) ≤ 1)) = true := by
  have h := singleOpen_invariant exDom 4 exReg 0 [1, 0] (some 0) exAcc rfl rfl
    (by decide)
    (by intro k hk it hit
        fin_cases hk
        · rw [show getItem? exReg (0, 1) = some exItem1 from rfl] at hit
          cases Option.some_inj.mp hit
          decide
        · rw [show getItem? exReg (0, 0) = some exItem0 from rfl] at hit
          cases Option.some_inj.mp hit
          decide)
    (by decide)
  exact ⟨h.1 2, List.all_eq_true.mpr (fun s hs => decide_eq_true (h.2 1 0 rfl s hs))⟩

/-! ## Observable state: everything except the instrumentation counters -/

/-- An item's observable state: the instrumentation counters erased. -/
def obsItem (it : ItemState) : ItemState :=
  { it with passes := 0, plays := 0, reverses := 0, scheduledScrolls := 0 }

/-- An accordion's observable state. -/
def obsAcc (acc : AccState) : AccState :=
  { acc with items := acc.items.map obsItem }

/-- The registry's observable state. -/
def obsReg (reg : Registry) : Registry :=
  reg.map obsAcc

theorem obsReg_eq (r r' : Registry)
    (ha : ∀ n : Nat, (r'[n]?).map accData = (r[n]?).map accData)
    (hitem : ∀ ad it it', getItem? r ad = some it → getItem? r' ad = some it' →
      obsItem it' = obsItem it) :
    obsReg r' = obsReg r := by
  unfold obsReg
  refine List.ext_getElem? (fun n => ?_)
  rw [List.getElem?_map, List.getElem?_map]
  cases hn : r[n]? with
  | none =>
    have hd := ha n
    rw [hn, Option.map_none', Option.map_eq_none'] at hd
    rw [hd]
  | some acc =>
    have hd := ha n
    rw [hn, Option.map_some'] at hd
    obtain ⟨acc', hn', hdd⟩ := Option.map_eq_some'.mp hd
    rw [hn', Option.map_some', Option.map_some']
    have he : acc'.element = acc.element := congrArg (fun t => t.1) hdd
    have ho : acc'.options = acc.options := congrArg (fun t => t.2.1) hdd
    have hm : acc'.prefersReducedMotion = acc.prefersReducedMotion :=
      congrArg (fun t => t.2.2.1) hdd
    have hl : acc'.isInitialLoad = acc.isInitialLoad := congrArg (fun t => t.2.2.2.1) hdd
    have hlen : acc'.items.length = acc.items.length := congrArg (fun t => t.2.2.2.2) hdd
    have hitems : acc'.items.map obsItem = acc.items.map obsItem := by
      refine List.ext_getElem? (fun m => ?_)
      rw [List.getElem?_map, List.getElem?_map]
      cases hm1 : acc.items[m]? with
      | none =>
        rw [List.getElem?_eq_none_iff.mpr
          (by rw [hlen]; exact List.getElem?_eq_none_iff.mp hm1)]
      | some it =>
        have hg : getItem? r (n, m) = some it := getItem?_eq_some_iff.mpr ⟨acc, hn, hm1⟩
        obtain ⟨it', hm2⟩ : ∃ it', acc'.items[m]? = some it' := by
          have hlt : m < acc.items.length := (List.getElem?_eq_some.mp hm1).1
          refine Option.ne_none_iff_exists'.mp ?_
          rw [Ne, List.getElem?_eq_none_iff, hlen]
          omega
        have hg' : getItem? r' (n, m) = some it' := getItem?_eq_some_iff.mpr ⟨acc', hn', hm2⟩
        rw [hm2, Option.map_some', Option.map_some', hitem (n, m) it it' hg hg']
    cases acc with
    | mk e o p l items =>
      cases acc' with
      | mk e' o' p' l' items' =>
        simp only [obsAcc] at he ho hm hl hitems ⊢
        subst he ho hm hl
        rw [hitems]

theorem foldl_congr_id {β : Type} (step : Registry → β → Registry) (reg : Registry)
    (h : ∀ x, step reg x = reg) : ∀ l : List β, l.foldl step reg = reg := by
  intro l
  induction l with
  | nil => rfl
  | cons x xs ih => rw [List.foldl_cons, h x]; exact ih

/-- When no other item of accordion `a` is both open and in `exceptItem`'s
    sibling group, the `closeAllExcept` pass leaves the registry exactly
    unchanged: every step's guard is false. -/
theorem closeAllExcept_id (dom : Dom) (fuel : Nat) (reg : Registry) (a excl : Nat)
    (h : ∀ j itj ite, j ≠ excl → getItem? reg (a, j) = some itj →
      getItem? reg (a, excl) = some ite →
      (itj.isOpen && (dom.parent itj.element == dom.parent ite.element)) = false) :
    closeAllExcept dom fuel reg a excl = reg := by
  unfold closeAllExcept
  split
  next => rfl
  next acc ha =>
    refine foldl_congr_id _ _ (fun j => ?_) _
    unfold closeAllExceptStep
    by_cases h1 : j = excl
    · rw [if_pos h1]
    · rw [if_neg h1]
      split
      next itj ite hj he => simp [h j itj ite h1 hj he]
      next => rfl

theorem getItem?_handleOpen_ne (reg : Registry) (a i : Nat) (ad : Addr) (hne : ad ≠ (a, i)) :
    getItem? (handleOpen reg a i) ad = getItem? reg ad := by
  unfold handleOpen
  split
  next => rfl
  next acc ha =>
    simp only []
    by_cases hscr : (acc.options.scrollToView.enabled && !acc.isInitialLoad) = true
    · rw [if_pos hscr, getItem?_modifyItem_ne _ _ _ _ hne, getItem?_modifyItem_ne _ _ _ _ hne]
    · rw [if_neg hscr, getItem?_modifyItem_ne _ _ _ _ hne]

theorem getItem?_handleOpen_self (reg : Registry) (a i : Nat) (acc : AccState)
    (ha : reg[a]? = some acc) (x : ItemState) (hx : getItem? reg (a, i) = some x) :
    getItem? (handleOpen reg a i) (a, i) = some (
      (fun y =>
        if acc.options.scrollToView.enabled && !acc.isInitialLoad then
          { y with scheduledScrolls := y.scheduledScrolls + 1 }
        else y)
      (if acc.prefersReducedMotion && acc.options.animation.respectMotionPreference then
        { x with heightAuto := true }
      else
        let j1 := if x.hasTimeline then x else { x with hasTimeline := true }
        if j1.hasTimeline then { j1 with plays := j1.plays + 1 }
        else { j1 with heightAuto := true })) := by
  unfold handleOpen
  rw [ha]
  simp only []
  by_cases hscr : (acc.options.scrollToView.enabled && !acc.isInitialLoad) = true
  · rw [if_pos hscr, if_pos hscr, getItem?_modifyItem_self, getItem?_modifyItem_self, hx,
      Option.map_some', Option.map_some']
  · rw [if_neg hscr, if_neg hscr, getItem?_modifyItem_self, hx, Option.map_some']

/-- After `open()` on a single-open accordion, the opened item is open
    and active, its native `open` attribute is set when semantic, and it
    has the height snap or the timeline according to the motion
    preference. -/
theorem openItem_winner_fields (dom : Dom) (f : Nat) (reg : Registry) (a i : Nat)
    (acc : AccState) (hacc : reg[a]? = some acc)
    (hsingle : acc.options.interactions.singleOpen = true)
    (hi : i < acc.items.length) :
    ∃ iti1, getItem? (openItem dom (f + 1) reg a i) (a, i) = some iti1 ∧
      iti1.isOpen = true ∧ iti1.active = true ∧
      (iti1.isSemanticHTML = true → iti1.openAttr = true) ∧
      ((acc.prefersReducedMotion && acc.options.animation.respectMotionPreference) = true →
        iti1.heightAuto = true) ∧
      ((acc.prefersReducedMotion && acc.options.animation.respectMotionPreference) = false →
        iti1.hasTimeline = true) := by
  rw [openItem_eq dom (f + 1) reg a i acc hacc hsingle]
  have hit0 : getItem? reg (a, i) = some (acc.items[i]) := by
    rw [getItem?_eq_some_iff]
    exact ⟨acc, hacc, List.getElem?_eq_getElem hi⟩
  have hRPi : getItem? (modifyItem reg (a, i) (fun j => { j with passes := j.passes + 1 })) (a, i) =
      some { acc.items[i] with passes := (acc.items[i]).passes + 1 } := by
    rw [getItem?_modifyItem_self, hit0, Option.map_some']
  have hev := closeEvolves_closeAllExcept dom (f + 1)
    (modifyItem reg (a, i) (fun j => { j with passes := j.passes + 1 })) a i
  obtain ⟨itpre, hpre⟩ : ∃ x, getItem? (closeAllExcept dom (f + 1)
      (modifyItem reg (a, i) (fun j => { j with passes := j.passes + 1 })) a i) (a, i) = some x := by
    have hs := getItem?_isSome_of_acc hev.1.1 (a, i)
    rw [hRPi] at hs
    exact Option.isSome_iff_exists.mp (by rw [hs]; rfl)
  have hMi : getItem? (modifyItem (closeAllExcept dom (f + 1)
      (modifyItem reg (a, i) (fun j => { j with passes := j.passes + 1 })) a i) (a, i)
      (fun j => { j with isOpen := true, active := true, openAttr := if j.isSemanticHTML then true else j.openAttr })) (a, i) =
      some { itpre with isOpen := true, active := true, openAttr := if itpre.isSemanticHTML then true else itpre.openAttr } := by
    rw [getItem?_modifyItem_self, hpre, Option.map_some']
  obtain ⟨accM, haccM, hdM⟩ : ∃ accM, (modifyItem (closeAllExcept dom (f + 1)
      (modifyItem reg (a, i) (fun j => { j with passes := j.passes + 1 })) a i) (a, i)
      (fun j => { j with isOpen := true, active := true, openAttr := if j.isSemanticHTML then true else j.openAttr }))[a]? = some accM ∧
      accData accM = accData acc := by
    have h1 := acc_modifyItem reg (a, i) (fun j => { j with passes := j.passes + 1 }) a
    have h2 := hev.1.1 a
    have h3 := acc_modifyItem (closeAllExcept dom (f + 1)
      (modifyItem reg (a, i) (fun j => { j with passes := j.passes + 1 })) a i) (a, i)
      (fun j => { j with isOpen := true, active := true, openAttr := if j.isSemanticHTML then true else j.openAttr }) a
    rw [h2, h1, hacc, Option.map_some'] at h3
    exact Option.map_eq_some'.mp h3
  have hflags1 : accM.prefersReducedMotion = acc.prefersReducedMotion :=
    congrArg (fun t => t.2.2.1) hdM
  have hflags2 : accM.options = acc.options := congrArg (fun t => t.2.1) hdM
  refine ⟨_, getItem?_handleOpen_self _ a i accM haccM _ hMi, ?_⟩
  rw [hflags1, hflags2]
  by_cases hred : (acc.prefersReducedMotion && acc.options.animation.respectMotionPreference) = true <;>
  by_cases hT : itpre.hasTimeline = true <;>
    simp [hred, hT, apply_ite] <;> tauto

/-- C2: calling `open()` on an item of a single-open accordion twice in a
    row is NOT a no-op — there is no already-open guard, so the second
    call repeats its side effects (it runs the sibling pass again, plays
    the timeline again, and schedules another deferred scroll; see the
    counterexample `open_not_noop_cx`) — but the observable item state
    (everything except the repeated side effects recorded in the
    instrumentation counters) after two calls equals that after one. -/
theorem open_observably_idempotent (dom : Dom) (f : Nat) (reg : Registry) (a i : Nat)
    (acc : AccState) (hacc : reg[a]? = some acc)
    (hsingle : acc.options.interactions.singleOpen = true)
    (hi : i < acc.items.length) :
    obsReg (openItem dom (f + 1) (openItem dom (f + 1) reg a i) a i) =
      obsReg (openItem dom (f + 1) reg a i) := by
  obtain ⟨hpost1, hpost2⟩ := openItem_post dom f reg a i acc hacc hsingle hi
  obtain ⟨iti1, hiti1, hopen1, hact1, hattr1, hha1, hht1⟩ :=
    openItem_winner_fields dom f reg a i acc hacc hsingle hi
  have hshape1 := shapeEvolves_openItem dom (f + 1) reg a i
  obtain ⟨acc1, hacc1, hd1⟩ := acc_of_shape hshape1 hacc
  have hopts1 : acc1.options = acc.options := congrArg (fun t => t.2.1) hd1
  have hred1 : acc1.prefersReducedMotion = acc.prefersReducedMotion :=
    congrArg (fun t => t.2.2.1) hd1
  have hsingle1 : acc1.options.interactions.singleOpen = true := by
    rw [hopts1]; exact hsingle
  have hr2 := openItem_eq dom (f + 1) (openItem dom (f + 1) reg a i) a i acc1 hacc1 hsingle1
  -- the second sibling pass finds nothing to close
  have hRP2i : getItem? (modifyItem (openItem dom (f + 1) reg a i) (a, i)
      (fun j => { j with passes := j.passes + 1 })) (a, i) =
      some { iti1 with passes := iti1.passes + 1 } := by
    rw [getItem?_modifyItem_self, hiti1, Option.map_some']
  have hCA2 : closeAllExcept dom (f + 1)
      (modifyItem (openItem dom (f + 1) reg a i) (a, i)
        (fun j => { j with passes := j.passes + 1 })) a i =
      modifyItem (openItem dom (f + 1) reg a i) (a, i)
        (fun j => { j with passes := j.passes + 1 }) := by
    refine closeAllExcept_id dom (f + 1) _ a i (fun j itj ite hj hitj hite => ?_)
    have hadne : ((a, j) : Addr) ≠ (a, i) := by simp [hj]
    rw [getItem?_modifyItem_ne _ _ _ _ hadne] at hitj
    rw [hRP2i] at hite
    cases Option.some_inj.mp hite
    cases hbq : (dom.parent itj.element == dom.parent ({ iti1 with passes := iti1.passes + 1 } : ItemState).element) with
    | false => exact Bool.and_false _
    | true =>
      have hpar : dom.parent itj.element = dom.parent iti1.element := beq_iff_eq.mp hbq
      rw [hpost2 j itj iti1 hj hitj hiti1 hpar, Bool.false_and]
  rw [hr2, hCA2]
  -- now compare item by item
  refine obsReg_eq _ _ ?hacceq ?hitem
  case hacceq =>
    intro n
    have h1 := acc_modifyItem (openItem dom (f + 1) reg a i) (a, i)
      (fun j => { j with passes := j.passes + 1 }) n
    have h2 := acc_modifyItem (modifyItem (openItem dom (f + 1) reg a i) (a, i)
        (fun j => { j with passes := j.passes + 1 })) (a, i)
      (fun j => { j with isOpen := true, active := true, openAttr := if j.isSemanticHTML then true else j.openAttr }) n
    have h3 := (shapeEvolves_handleOpen (modifyItem (modifyItem (openItem dom (f + 1) reg a i) (a, i)
        (fun j => { j with passes := j.passes + 1 })) (a, i)
      (fun j => { j with isOpen := true, active := true, openAttr := if j.isSemanticHTML then true else j.openAttr })) a i).1 n
    rw [h3, h2, h1]
  case hitem =>
    intro ad it it' hit hit'
    by_cases had : ad = (a, i)
    · subst had
      rw [hiti1] at hit
      cases Option.some_inj.mp hit
      -- the accordion record seen by the second handleOpen
      obtain ⟨accM, haccM, hdM⟩ : ∃ accM, (modifyItem (modifyItem (openItem dom (f + 1) reg a i) (a, i)
          (fun j => { j with passes := j.passes + 1 })) (a, i)
          (fun j => { j with isOpen := true, active := true, openAttr := if j.isSemanticHTML then true else j.openAttr }))[a]? = some accM ∧
          accData accM = accData acc1 := by
        have h1 := acc_modifyItem (openItem dom (f + 1) reg a i) (a, i)
          (fun j => { j with passes := j.passes + 1 }) a
        have h2 := acc_modifyItem (modifyItem (openItem dom (f + 1) reg a i) (a, i)
            (fun j => { j with passes := j.passes + 1 })) (a, i)
          (fun j => { j with isOpen := true, active := true, openAttr := if j.isSemanticHTML then true else j.openAttr }) a
        rw [h1, hacc1, Option.map_some'] at h2
        exact Option.map_eq_some'.mp h2
      have hMi : getItem? (modifyItem (modifyItem (openItem dom (f + 1) reg a i) (a, i)
          (fun j => { j with passes := j.passes + 1 })) (a, i)
          (fun j => { j with isOpen := true, active := true, openAttr := if j.isSemanticHTML then true else j.openAttr })) (a, i) =
          some { iti1 with passes := iti1.passes + 1, isOpen := true, active := true, openAttr := if iti1.isSemanticHTML then true else iti1.openAttr } := by
        rw [getItem?_modifyItem_self, hRP2i, Option.map_some']
      rw [getItem?_handleOpen_self _ a i accM haccM _ hMi] at hit'
      cases Option.some_inj.mp hit'
      have hMred : accM.prefersReducedMotion = acc.prefersReducedMotion := by
        have h : accM.prefersReducedMotion = acc1.prefersReducedMotion :=
          congrArg (fun t => t.2.2.1) hdM
        rw [h, hred1]
      have hMopts : accM.options = acc.options := by
        have h : accM.options = acc1.options := congrArg (fun t => t.2.1) hdM
        rw [h, hopts1]
      rw [hMred, hMopts]
      by_cases hred : (acc.prefersReducedMotion && acc.options.animation.respectMotionPreference) = true
      · have hha := hha1 hred
        by_cases hsem : iti1.isSemanticHTML = true
        · simp [obsItem, apply_ite, hred, hha, hopen1, hact1, hsem, hattr1 hsem]
        · simp [obsItem, apply_ite, hred, hha, hopen1, hact1, hsem]
      · have hht := hht1 (Bool.not_eq_true _ ▸ hred)
        by_cases hsem : iti1.isSemanticHTML = true
        · simp [obsItem, apply_ite, hred, hht, hopen1, hact1, hsem, hattr1 hsem]
        · simp [obsItem, apply_ite, hred, hht, hopen1, hact1, hsem]
    · rw [getItem?_handleOpen_ne _ a i ad had,
        getItem?_modifyItem_ne _ _ _ _ had, getItem?_modifyItem_ne _ _ _ _ had] at hit'
      rw [hit] at hit'
      rw [Option.some_inj.mp hit']

/-- Options with scroll-to-view on, as a page enabling the deferred
    scroll would set them. -/
def cxOptions : AccordionOptions :=
  { defaultOptions with scrollToView := { enabled := true, delay := some ⟨1, 1⟩ } }

/-- An item that is already open. -/
def cxItem : ItemState :=
  { element := 1, bodyElem := 11, headerText := "Only", id := none,
    isSemanticHTML := true, startOpen := false, isOpen := true, active := true,
    openAttr := true, heightAuto := false, hasTimeline := true,
    passes := 0, plays := 0, reverses := 0, scheduledScrolls := 0 }

def cxAcc : AccState :=
  { element := 0, options := cxOptions, prefersReducedMotion := false,
    isInitialLoad := false, items := [cxItem] }

def cxReg : Registry := [cxAcc]

/-- `open()` on an already-open item is not a no-op: the item starts
    open, yet the second call changes the state again — after one call
    the sibling pass has run once, the timeline has been played once and
    one scroll has been scheduled, after two calls each count is two. -/
theorem open_not_noop_cx :
    (getItem? cxReg (0, 0)).map (fun it => it.isOpen) = some true ∧
    openItem exDom 5 (openItem exDom 5 cxReg 0 0) 0 0 ≠ openItem exDom 5 cxReg 0 0 ∧
    (getItem? (openItem exDom 5 cxReg 0 0) (0, 0)).map
      (fun it => (it.passes, it.plays, it.scheduledScrolls)) = some (1, 1, 1) ∧
    (getItem? (openItem exDom 5 (openItem exDom 5 cxReg 0 0) 0 0) (0, 0)).map
      (fun it => (it.passes, it.plays, it.scheduledScrolls)) = some (2, 2, 2) := by
  decide

theorem open_observably_idempotent_witness :
    obsReg (openItem exDom 5 (openItem exDom 5 cxReg 0 0) 0 0) =
      obsReg (openItem exDom 5 cxReg 0 0) :=
  open_observably_idempotent exDom 4 cxReg 0 0 cxAcc rfl rfl (by decide)

def wCfg : List (String × AttrVal) :=
  [("duration", AttrVal.timeV (some ⟨7, 1⟩)), ("single-open", AttrVal.boolV true)]

def wOpts : PartialOptions :=
  { containerSelector := none, itemSelector := none, headerSelector := none,
    bodySelector := none, iconSelector := none, activeClass := none,
    animation := { duration := none, ease := none, respectMotionPreference := none },
    interactions := { singleOpen := some false, startOpen := none, openFirstItem := none, openOnHover := none, closeOnSecondClick := none, closeNestedOnParentClose := none },
    schema := { enabled := none },
    scrollToView := { enabled := none, delay := none } }

theorem mergeOptions_precedence_witness :
    WfConfig wCfg ∧
    ((mergeOptions defaultOptions wCfg wOpts).animation.duration = some ⟨7, 1⟩ ∧
     (mergeOptions defaultOptions wCfg wOpts).interactions.singleOpen = false) :=
  ⟨rfl, by
    have h := mergeOptions_precedence wCfg wOpts rfl
    exact ⟨h.1.trans (by decide), h.2.2.2.1.trans (by decide)⟩⟩

/-! ## Item construction and initial state (src/hybrid-accordion.js lines 88–115, 211–233, 609–650) -/

/-- The markup of one item as the constructor reads it. -/
structure ItemMarkup where
  element : Nat
  bodyElem : Nat
  headerText : String
  id : Option (List Char)
  isSemanticHTML : Bool
  attrs : List (String × String)
  openAttr0 : Bool
deriving DecidableEq

/-- `AccordionItem.setInitialState` (src/hybrid-accordion.js lines
    212–233): a start-open item becomes open with active classes, the
    native `open` attribute when semantic, and height `auto`; otherwise
    the item becomes closed (active classes untouched), the `open`
    attribute is removed when semantic, and the height is set to 0. -/
def setInitialState (it : ItemState) : ItemState :=
  if it.startOpen then
    { it with isOpen := true, active := true, openAttr := if it.isSemanticHTML then true else it.openAttr, heightAuto := true }
  else
    { it with isOpen := false, openAttr := if it.isSemanticHTML then false else it.openAttr, heightAuto := false }

/-- The `AccordionItem` constructor (src/hybrid-accordion.js lines
    88–115): resolve `startOpen` from the item's `data-acc-open`
    attribute, start closed, then run `setInitialState`. -/
def constructItem (m : ItemMarkup) : ItemState :=
  setInitialState
    { element := m.element, bodyElem := m.bodyElem, headerText := m.headerText, id := m.id,
      isSemanticHTML := m.isSemanticHTML,
      startOpen := parseBooleanAttribute m.attrs "data-acc-open", isOpen := false,
      active := false, openAttr := m.openAttr0, heightAuto := false, hasTimeline := false,
      passes := 0, plays := 0, reverses := 0, scheduledScrolls := 0 }

/-- The item-construction and open-first-item part of
    `Accordion.initialize` (src/hybrid-accordion.js lines 609–650, the
    open-first logic lines 633–641): construct the scoped items; then, if
    `openFirstItem` is set, the list is non-empty and no item resolved
    `startOpen`, force the first item's `startOpen` and re-run its
    `setInitialState`. -/
def initializeItems (opts : AccordionOptions) (ms : List ItemMarkup) : List ItemState :=
  let items := ms.map constructItem
  if opts.interactions.openFirstItem && decide (0 < items.length) then
    if items.any (fun it => it.startOpen) then items
    else
      match items with
      | [] => items
      | it0 :: rest => setInitialState { it0 with startOpen := true } :: rest
  else items

theorem constructItem_isOpen (m : ItemMarkup) :
    (constructItem m).isOpen = parseBooleanAttribute m.attrs "data-acc-open" := by
  unfold constructItem setInitialState
  by_cases h : parseBooleanAttribute m.attrs "data-acc-open" = true <;> simp [h]

theorem constructItem_startOpen (m : ItemMarkup) :
    (constructItem m).startOpen = parseBooleanAttribute m.attrs "data-acc-open" := by
  unfold constructItem setInitialState
  by_cases h : parseBooleanAttribute m.attrs "data-acc-open" = true <;> simp [h]

/-- C5: with `interactions.openFirstItem = true` and a non-empty item
    list, (a) when no item resolved `startOpen` from its own
    `data-acc-open` attribute, the first item is forced into the
    start-open state by a re-run of `setInitialState` and ends open, and
    it is the only open item; (b) when at least one item resolved
    `startOpen`, the open-first-item option has no effect at all — the
    items are exactly the plainly constructed ones — and an item begins
    open exactly when its own attribute resolved `startOpen`. -/
theorem openFirstItem_resolution (opts : AccordionOptions) (ms : List ItemMarkup)
    (hopt : opts.interactions.openFirstItem = true) (hne : ms ≠ []) :
    ((∀ m ∈ ms, parseBooleanAttribute m.attrs "data-acc-open" = false) →
      ((initializeItems opts ms)[0]?).map (fun it => it.isOpen) = some true ∧
      (∀ (k : Nat) (it : ItemState), (initializeItems opts ms)[k]? = some it →
        (it.isOpen = true ↔ k = 0))) ∧
    ((∃ m ∈ ms, parseBooleanAttribute m.attrs "data-acc-open" = true) →
      initializeItems opts ms = ms.map constructItem ∧
      (∀ (k : Nat) (it : ItemState) (mk : ItemMarkup),
        (initializeItems opts ms)[k]? = some it → ms[k]? = some mk →
        it.isOpen = parseBooleanAttribute mk.attrs "data-acc-open")) := by
  cases ms with
  | nil => exact absurd rfl hne
  | cons m0 mrest =>
    have h0 : (0 : Nat) < ((m0 :: mrest).map constructItem).length := by simp
    constructor
    · intro hall
      have hany : ((m0 :: mrest).map constructItem).any (fun it => it.startOpen) = false := by
        rw [List.any_eq_false]
        intro it hit
        obtain ⟨m, hm, rfl⟩ := List.mem_map.mp hit
        rw [constructItem_startOpen]
        simp [hall m hm]
      have hred : initializeItems opts (m0 :: mrest) =
          setInitialState { constructItem m0 with startOpen := true } ::
            mrest.map constructItem := by
        unfold initializeItems
        simp only []
        rw [hopt, decide_eq_true h0, Bool.and_self, if_pos rfl, hany,
          if_neg Bool.false_ne_true]
        rfl
      constructor
      · rw [hred]
        simp [setInitialState]
      · intro k it hit
        rw [hred] at hit
        cases k with
        | zero =>
          rw [List.getElem?_cons_zero] at hit
          cases Option.some_inj.mp hit
          simp [setInitialState]
        | succ j =>
          have hit' : (mrest.map constructItem)[j]? = some it := by simpa using hit
          rw [List.getElem?_map] at hit'
          obtain ⟨mj, hmj, hje⟩ := Option.map_eq_some'.mp hit'
          have hcl : it.isOpen = false := by
            rw [← hje, constructItem_isOpen]
            exact hall mj (List.mem_cons_of_mem _ (List.mem_iff_getElem?.mpr ⟨j, hmj⟩))
          simp [hcl]
    · intro hex
      obtain ⟨m, hm, hmtrue⟩ := hex
      have hany : ((m0 :: mrest).map constructItem).any (fun it => it.startOpen) = true := by
        rw [List.any_eq_true]
        exact ⟨constructItem m, List.mem_map.mpr ⟨m, hm, rfl⟩,
          by rw [constructItem_startOpen]; exact hmtrue⟩
      have hred : initializeItems opts (m0 :: mrest) = (m0 :: mrest).map constructItem := by
        unfold initializeItems
        simp only []
        rw [hopt, decide_eq_true h0, Bool.and_self, if_pos rfl, hany, if_pos rfl]
      refine ⟨hred, fun k it mk hit hmk => ?_⟩
      rw [hred] at hit
      rw [List.getElem?_map, hmk, Option.map_some'] at hit
      rw [← Option.some_inj.mp hit, constructItem_isOpen]

def wfoOpts : AccordionOptions :=
  { defaultOptions with interactions := { defaultOptions.interactions with openFirstItem := true } }

def wMs : List ItemMarkup :=
  [{ element := 1, bodyElem := 11, headerText := "A", id := none, isSemanticHTML := true, attrs := [], openAttr0 := false },
   { element := 2, bodyElem := 12, headerText := "B", id := none, isSemanticHTML := true, attrs := [], openAttr0 := false }]

theorem openFirstItem_resolution_witness :
    ((initializeItems wfoOpts wMs)[0]?).map (fun it => it.isOpen) = some true ∧
    ((initializeItems wfoOpts wMs)[1]?).map (fun it => it.isOpen) = some false := by
  have h := (openFirstItem_resolution wfoOpts wMs rfl (by decide)).1 (by decide)
  refine ⟨h.1, ?_⟩
  obtain ⟨it1, hit1⟩ : ∃ it, (initializeItems wfoOpts wMs)[1]? = some it := ⟨_, rfl⟩
  rw [hit1, Option.map_some']
  have hiff := h.2 1 it1 hit1
  cases hb : it1.isOpen with
  | false => rfl
  | true => exact absurd (hiff.mp hb) (by decide)

/-- C7: the scroll delay is exactly the configured post-animation delay
    (converted to milliseconds) when reduced motion is preferred and
    respected, and exactly animation duration plus the configured delay,
    both in milliseconds, otherwise; in particular a 0.4 s duration with
    a 0.1 s delay and motion not reduced yields 500 ms. -/
theorem getScrollDelay_spec (acc : AccState) (d p : Dec)
    (hdur : acc.options.animation.duration = some d)
    (hdel : acc.options.scrollToView.delay = some p) :
    ((acc.prefersReducedMotion && acc.options.animation.respectMotionPreference) = true →
      (getScrollDelay acc).map Dec.toRat = some (p.toRat * 1000)) ∧
    ((acc.prefersReducedMotion && acc.options.animation.respectMotionPreference) = false →
      (getScrollDelay acc).map Dec.toRat = some (d.toRat * 1000 + p.toRat * 1000)) ∧
    ((acc.prefersReducedMotion && acc.options.animation.respectMotionPreference) = false →
      d.toRat = 2/5 → p.toRat = 1/10 →
      (getScrollDelay acc).map Dec.toRat = some 500) := by
  have h1000 : ((10 : ℚ)) ^ (3 : ℕ) = 1000 := by norm_num
  refine ⟨fun hred => ?_, fun hred => ?_, fun hred hd hp => ?_⟩
  · unfold getScrollDelay
    rw [if_pos hred, hdel]
    simp [jsOrZero, Dec.toRat_mulPow10, h1000]
  · unfold getScrollDelay
    rw [if_neg (by rw [hred]; exact Bool.false_ne_true), hdur, hdel]
    simp [jsOrZero, jsMul1000, jsAdd, Dec.toRat_add, Dec.toRat_mulPow10, h1000]
  · unfold getScrollDelay
    rw [if_neg (by rw [hred]; exact Bool.false_ne_true), hdur, hdel]
    simp [jsOrZero, jsMul1000, jsAdd, Dec.toRat_add, Dec.toRat_mulPow10, h1000, hd, hp]
    norm_num

theorem getScrollDelay_spec_witness :
    (getScrollDelay exAcc).map Dec.toRat = some 500 := by
  have h := getScrollDelay_spec exAcc ⟨4, 1⟩ ⟨1, 1⟩ rfl rfl
  exact h.2.2 rfl (by norm_num [Dec.toRat]) (by norm_num [Dec.toRat])

/-! ## The Accordion constructor (src/hybrid-accordion.js lines 469–507) -/

/-- The diagnostic logged when GSAP is missing (line 472). -/
def gsapErrorMessage : String :=
  "GSAP is required for the Hybrid Accordion. Please include GSAP before initializing the accordion."

/-- A container element as the markup declares it. -/
structure ContainerMarkup where
  element : Nat
  attrs : List (String × String)
  items : List ItemMarkup
deriving DecidableEq

/-- An `Accordion` instance object.  JS fields that the constructor never
    reaches stay `undefined` (`none`); `gsapAtConstruction` records
    whether `gsap` was defined when the constructor ran. -/
structure AccordionInst where
  element : Option Nat
  options : Option AccordionOptions
  items : Option (List ItemState)
  gsapAtConstruction : Bool
deriving DecidableEq

/-- The page state the constructor can touch: the process-wide
    `accordionRegistry`, the container element's attribute list, and the
    console log. -/
structure World where
  registry : List AccordionInst
  containerAttrs : List (String × String)
  log : List String
deriving DecidableEq

/-- `element.setAttribute`: replace in place or append. -/
def setAttr (attrs : List (String × String)) (k v : String) : List (String × String) :=
  if attrs.any (fun p => p.1 = k) then attrs.map (fun p => if p.1 = k then (k, v) else p)
  else attrs ++ [(k, v)]

/-- The `Accordion` constructor (src/hybrid-accordion.js lines 469–507):
    when `typeof gsap === 'undefined'` it logs the diagnostic and
    returns at once — the instance keeps every field `undefined`, the
    container and the registry are untouched, and nothing is thrown.
    Otherwise it parses the container attributes, merges the options,
    writes the schema attributes onto the container when
    `schema.enabled`, pushes the instance onto `accordionRegistry` and
    runs `initialize()`, which populates `items`. -/
def constructAccordion (gsapDefined : Bool) (cm : ContainerMarkup) (opts : PartialOptions)
    (w : World) : Except String (AccordionInst × World) :=
  if gsapDefined = false then
    .ok ({ element := none, options := none, items := none, gsapAtConstruction := false },
         { w with log := w.log ++ [gsapErrorMessage] })
  else
    let cfg := parseContainerAttributes cm.attrs
    let merged := mergeOptions defaultOptions cfg opts
    let attrs1 :=
      if merged.schema.enabled then
        setAttr (setAttr w.containerAttrs "itemscope" "") "itemtype" "https://schema.org/FAQPage"
      else w.containerAttrs
    let inst : AccordionInst :=
      { element := some cm.element, options := some merged,
        items := some (initializeItems merged cm.items), gsapAtConstruction := true }
    .ok (inst, { w with containerAttrs := attrs1, registry := w.registry ++ [inst] })

/-- C8: with the animation engine absent, construction aborts early
    after logging the diagnostic: no exception propagates (the result is
    `ok`, never `error`), the instance's item list is never populated
    (`items` stays `undefined`, as do its other fields), the registry is
    not extended, and the container element's attributes are left exactly
    as the markup declared them. -/
theorem gsap_absent_constructor_aborts (cm : ContainerMarkup) (opts : PartialOptions)
    (w : World) :
    ∃ inst w', constructAccordion false cm opts w = Except.ok (inst, w') ∧
      inst.items = none ∧ inst.element = none ∧ inst.options = none ∧
      w'.registry = w.registry ∧ w'.containerAttrs = w.containerAttrs ∧
      w'.log = w.log ++ [gsapErrorMessage] :=
  ⟨_, _, rfl, rfl, rfl, rfl, rfl, rfl, rfl⟩

/-- C9: constructing preserves the registry invariant that every
    registered instance was constructed with `gsap` defined and has a
    populated (defined) `items` array — an aborted constructor never
    pushes its instance, so the navigation helpers iterating
    `accordionRegistry` never observe one. -/
theorem registry_gsap_invariant (g : Bool) (cm : ContainerMarkup) (opts : PartialOptions)
    (w : World) (inst : AccordionInst) (w' : World)
    (hwf : w.registry.all (fun i => i.gsapAtConstruction && i.items.isSome) = true)
    (h : constructAccordion g cm opts w = Except.ok (inst, w')) :
    w'.registry.all (fun i => i.gsapAtConstruction && i.items.isSome) = true := by
  cases g with
  | false =>
    have h2 := Except.ok.inj h
    obtain ⟨-, hw⟩ := Prod.mk.inj h2
    rw [← hw]
    exact hwf
  | true =>
    have h2 := Except.ok.inj h
    obtain ⟨-, hw⟩ := Prod.mk.inj h2
    rw [← hw]
    simp [List.all_append, hwf]

def noOpts : PartialOptions :=
  { containerSelector := none, itemSelector := none, headerSelector := none,
    bodySelector := none, iconSelector := none, activeClass := none,
    animation := { duration := none, ease := none, respectMotionPreference := none },
    interactions := { singleOpen := none, startOpen := none, openFirstItem := none, openOnHover := none, closeOnSecondClick := none, closeNestedOnParentClose := none },
    schema := { enabled := none },
    scrollToView := { enabled := none, delay := none } }

def c9w0 : World := { registry := [], containerAttrs := [], log := [] }

def c9cm : ContainerMarkup := { element := 0, attrs := [], items := [] }

def c9inst : AccordionInst :=
  match constructAccordion true c9cm noOpts c9w0 with
  | .ok (i, _) => i
  | .error _ => { element := none, options := none, items := none, gsapAtConstruction := false }

def c9w1 : World :=
  match constructAccordion true c9cm noOpts c9w0 with
  | .ok (_, w) => w
  | .error _ => c9w0

theorem registry_gsap_invariant_witness :
    c9w1.registry.all (fun i => i.gsapAtConstruction && i.items.isSome) = true :=
  registry_gsap_invariant true c9cm noOpts c9w0 c9inst c9w1 rfl rfl

/-! ## Heap model of `mergeOptions` (src/hybrid-accordion.js lines 544–605):
object identity of the four section objects -/

/-- The section objects live in four stores; an address is an index. -/
structure Heap where
  anims : List AnimationOptions
  inters : List InteractionOptions
  schemas : List SchemaOptions
  scrolls : List ScrollToViewOptions
deriving DecidableEq

/-- An options record as an object: plain fields inline, each section a
    reference into the heap. -/
structure OptionsRef where
  containerSelector : String
  itemSelector : String
  headerSelector : String
  bodySelector : String
  iconSelector : String
  activeClass : String
  animation : Nat
  interactions : Nat
  schema : Nat
  scrollToView : Nat
deriving DecidableEq

/-- Dereference an options record. -/
def readOptions (h : Heap) (ref : OptionsRef) : AccordionOptions :=
  { containerSelector := ref.containerSelector, itemSelector := ref.itemSelector,
    headerSelector := ref.headerSelector, bodySelector := ref.bodySelector,
    iconSelector := ref.iconSelector, activeClass := ref.activeClass,
    animation := (h.anims[ref.animation]?).getD defaultOptions.animation,
    interactions := (h.inters[ref.interactions]?).getD defaultOptions.interactions,
    schema := (h.schemas[ref.schema]?).getD defaultOptions.schema,
    scrollToView := (h.scrolls[ref.scrollToView]?).getD defaultOptions.scrollToView }

/-- One attribute write of the `mergeOptions` loop, performed in place on
    the section objects `ref` points to. -/
def applyAttributeH (hh : Heap) (ref : OptionsRef) (key : String) (v : AttrVal) : Heap :=
  let o := applyAttribute (readOptions hh ref) key v
  { anims := hh.anims.set ref.animation o.animation,
    inters := hh.inters.set ref.interactions o.interactions,
    schemas := hh.schemas.set ref.schema o.schema,
    scrolls := hh.scrolls.set ref.scrollToView o.scrollToView }

theorem applyAttribute_plain (o : AccordionOptions) (key : String) (v : AttrVal) :
    (applyAttribute o key v).containerSelector = o.containerSelector ∧
    (applyAttribute o key v).itemSelector = o.itemSelector ∧
    (applyAttribute o key v).headerSelector = o.headerSelector ∧
    (applyAttribute o key v).bodySelector = o.bodySelector ∧
    (applyAttribute o key v).iconSelector = o.iconSelector ∧
    (applyAttribute o key v).activeClass = o.activeClass := by
  unfold applyAttribute
  cases attributeMapping key with
  | none => exact ⟨rfl, rfl, rfl, rfl, rfl, rfl⟩
  | some p => cases p <;> cases v <;> exact ⟨rfl, rfl, rfl, rfl, rfl, rfl⟩

theorem applyAttributeH_step (hh : Heap) (ref : OptionsRef) (key : String) (v : AttrVal)
    (ha : ref.animation < hh.anims.length) (hb : ref.interactions < hh.inters.length)
    (hc : ref.schema < hh.schemas.length) (hdd : ref.scrollToView < hh.scrolls.length) :
    (applyAttributeH hh ref key v).anims.length = hh.anims.length ∧
    (applyAttributeH hh ref key v).inters.length = hh.inters.length ∧
    (applyAttributeH hh ref key v).schemas.length = hh.schemas.length ∧
    (applyAttributeH hh ref key v).scrolls.length = hh.scrolls.length ∧
    (∀ i, i ≠ ref.animation → (applyAttributeH hh ref key v).anims[i]? = hh.anims[i]?) ∧
    (∀ i, i ≠ ref.interactions → (applyAttributeH hh ref key v).inters[i]? = hh.inters[i]?) ∧
    (∀ i, i ≠ ref.schema → (applyAttributeH hh ref key v).schemas[i]? = hh.schemas[i]?) ∧
    (∀ i, i ≠ ref.scrollToView → (applyAttributeH hh ref key v).scrolls[i]? = hh.scrolls[i]?) ∧
    readOptions (applyAttributeH hh ref key v) ref = applyAttribute (readOptions hh ref) key v := by
  obtain ⟨e1, e2, e3, e4, e5, e6⟩ := applyAttribute_plain (readOptions hh ref) key v
  have e1' : (applyAttribute (readOptions hh ref) key v).containerSelector = ref.containerSelector := e1
  have e2' : (applyAttribute (readOptions hh ref) key v).itemSelector = ref.itemSelector := e2
  have e3' : (applyAttribute (readOptions hh ref) key v).headerSelector = ref.headerSelector := e3
  have e4' : (applyAttribute (readOptions hh ref) key v).bodySelector = ref.bodySelector := e4
  have e5' : (applyAttribute (readOptions hh ref) key v).iconSelector = ref.iconSelector := e5
  have e6' : (applyAttribute (readOptions hh ref) key v).activeClass = ref.activeClass := e6
  refine ⟨List.length_set _ _ _, List.length_set _ _ _, List.length_set _ _ _,
    List.length_set _ _ _,
    fun i hi => List.getElem?_set_ne (fun hx => hi hx.symm),
    fun i hi => List.getElem?_set_ne (fun hx => hi hx.symm),
    fun i hi => List.getElem?_set_ne (fun hx => hi hx.symm),
    fun i hi => List.getElem?_set_ne (fun hx => hi hx.symm), ?_⟩
  show ({ containerSelector := ref.containerSelector, itemSelector := ref.itemSelector,
          headerSelector := ref.headerSelector, bodySelector := ref.bodySelector,
          iconSelector := ref.iconSelector, activeClass := ref.activeClass,
          animation := ((hh.anims.set ref.animation (applyAttribute (readOptions hh ref) key v).animation)[ref.animation]?).getD defaultOptions.animation,
          interactions := ((hh.inters.set ref.interactions (applyAttribute (readOptions hh ref) key v).interactions)[ref.interactions]?).getD defaultOptions.interactions,
          schema := ((hh.schemas.set ref.schema (applyAttribute (readOptions hh ref) key v).schema)[ref.schema]?).getD defaultOptions.schema,
          scrollToView := ((hh.scrolls.set ref.scrollToView (applyAttribute (readOptions hh ref) key v).scrollToView)[ref.scrollToView]?).getD defaultOptions.scrollToView } : AccordionOptions) =
      applyAttribute (readOptions hh ref) key v
  rw [List.getElem?_set_eq_of_lt _ ha, List.getElem?_set_eq_of_lt _ hb,
    List.getElem?_set_eq_of_lt _ hc, List.getElem?_set_eq_of_lt _ hdd]
  rw [← e1', ← e2', ← e3', ← e4', ← e5', ← e6']
  simp only [Option.getD_some]

theorem foldl_applyAttributeH (ref : OptionsRef) :
    ∀ (cfg : List (String × AttrVal)) (hh : Heap),
      ref.animation < hh.anims.length → ref.interactions < hh.inters.length →
      ref.schema < hh.schemas.length → ref.scrollToView < hh.scrolls.length →
      (cfg.foldl (fun x p => applyAttributeH x ref p.1 p.2) hh).anims.length = hh.anims.length ∧
      (cfg.foldl (fun x p => applyAttributeH x ref p.1 p.2) hh).inters.length = hh.inters.length ∧
      (cfg.foldl (fun x p => applyAttributeH x ref p.1 p.2) hh).schemas.length = hh.schemas.length ∧
      (cfg.foldl (fun x p => applyAttributeH x ref p.1 p.2) hh).scrolls.length = hh.scrolls.length ∧
      (∀ i, i ≠ ref.animation →
        (cfg.foldl (fun x p => applyAttributeH x ref p.1 p.2) hh).anims[i]? = hh.anims[i]?) ∧
      (∀ i, i ≠ ref.interactions →
        (cfg.foldl (fun x p => applyAttributeH x ref p.1 p.2) hh).inters[i]? = hh.inters[i]?) ∧
      (∀ i, i ≠ ref.schema →
        (cfg.foldl (fun x p => applyAttributeH x ref p.1 p.2) hh).schemas[i]? = hh.schemas[i]?) ∧
      (∀ i, i ≠ ref.scrollToView →
        (cfg.foldl (fun x p => applyAttributeH x ref p.1 p.2) hh).scrolls[i]? = hh.scrolls[i]?) ∧
      readOptions (cfg.foldl (fun x p => applyAttributeH x ref p.1 p.2) hh) ref =
        cfg.foldl (fun o p => applyAttribute o p.1 p.2) (readOptions hh ref) := by
  intro cfg
  induction cfg with
  | nil =>
    intro hh _ _ _ _
    exact ⟨rfl, rfl, rfl, rfl, fun i _ => rfl, fun i _ => rfl, fun i _ => rfl, fun i _ => rfl, rfl⟩
  | cons p rest ih =>
    intro hh ha hb hc hdd
    obtain ⟨s1, s2, s3, s4, s5, s6, s7, s8, s9⟩ := applyAttributeH_step hh ref p.1 p.2 ha hb hc hdd
    obtain ⟨t1, t2, t3, t4, t5, t6, t7, t8, t9⟩ := ih (applyAttributeH hh ref p.1 p.2)
      (by rw [s1]; exact ha) (by rw [s2]; exact hb) (by rw [s3]; exact hc) (by rw [s4]; exact hdd)
    rw [List.foldl_cons, List.foldl_cons]
    exact ⟨t1.trans s1, t2.trans s2, t3.trans s3, t4.trans s4,
      fun i hi => (t5 i hi).trans (s5 i hi), fun i hi => (t6 i hi).trans (s6 i hi),
      fun i hi => (t7 i hi).trans (s7 i hi), fun i hi => (t8 i hi).trans (s8 i hi),
      by rw [t9, s9]⟩

/-- `mergeOptions` with object identity (src/hybrid-accordion.js lines
    544–605): `merged` is a top-level copy of the defaults whose four
    section objects are fresh shallow copies; the attribute loop mutates
    those fresh sections in place; `result` is a top-level copy whose
    sections are again fresh shallow merges of `merged`'s sections with
    the caller's, and caller top-level keys override inline. -/
def mergeOptionsH (h : Heap) (dref : OptionsRef) (cfg : List (String × AttrVal))
    (opts : PartialOptions) : Heap × OptionsRef :=
  let d := readOptions h dref
  let h1 : Heap := { anims := h.anims ++ [d.animation], inters := h.inters ++ [d.interactions],
                     schemas := h.schemas ++ [d.schema], scrolls := h.scrolls ++ [d.scrollToView] }
  let mref : OptionsRef := { dref with animation := h.anims.length, interactions := h.inters.length, schema := h.schemas.length, scrollToView := h.scrolls.length }
  let h2 := cfg.foldl (fun x p => applyAttributeH x mref p.1 p.2) h1
  let m := readOptions h2 mref
  let ra : AnimationOptions :=
    { duration := opts.animation.duration.getD m.animation.duration,
      ease := opts.animation.ease.getD m.animation.ease,
      respectMotionPreference := opts.animation.respectMotionPreference.getD m.animation.respectMotionPreference }
  let ri : InteractionOptions :=
    { singleOpen := opts.interactions.singleOpen.getD m.interactions.singleOpen,
      startOpen := opts.interactions.startOpen.getD m.interactions.startOpen,
      openFirstItem := opts.interactions.openFirstItem.getD m.interactions.openFirstItem,
      openOnHover := opts.interactions.openOnHover.getD m.interactions.openOnHover,
      closeOnSecondClick := opts.interactions.closeOnSecondClick.getD m.interactions.closeOnSecondClick,
      closeNestedOnParentClose := opts.interactions.closeNestedOnParentClose.getD m.interactions.closeNestedOnParentClose }
  let rs : SchemaOptions := { enabled := opts.schema.enabled.getD m.schema.enabled }
  let rv : ScrollToViewOptions :=
    { enabled := opts.scrollToView.enabled.getD m.scrollToView.enabled,
      delay := opts.scrollToView.delay.getD m.scrollToView.delay }
  let h3 : Heap := { anims := h2.anims ++ [ra], inters := h2.inters ++ [ri],
                     schemas := h2.schemas ++ [rs], scrolls := h2.scrolls ++ [rv] }
  let rref : OptionsRef :=
    { containerSelector := opts.containerSelector.getD m.containerSelector,
      itemSelector := opts.itemSelector.getD m.itemSelector,
      headerSelector := opts.headerSelector.getD m.headerSelector,
      bodySelector := opts.bodySelector.getD m.bodySelector,
      iconSelector := opts.iconSelector.getD m.iconSelector,
      activeClass := opts.activeClass.getD m.activeClass,
      animation := h2.anims.length, interactions := h2.inters.length,
      schema := h2.schemas.length, scrollToView := h2.scrolls.length }
  (h3, rref)

/-- C10: `mergeOptions` never mutates the shared `defaultOptions`
    object: every pre-existing heap cell — in particular each of the
    defaults' four section objects — is unchanged, the defaults record
    still reads exactly as before, the returned record's four section
    references are freshly allocated cells (addresses beyond every
    pre-existing one, so no instance aliases the defaults or another
    instance), and the returned record reads as the pure merge. -/
theorem mergeOptions_no_defaults_mutation (h : Heap) (dref : OptionsRef)
    (cfg : List (String × AttrVal)) (opts : PartialOptions)
    (ha : dref.animation < h.anims.length) (hb : dref.interactions < h.inters.length)
    (hc : dref.schema < h.schemas.length) (hdd : dref.scrollToView < h.scrolls.length) :
    (∀ i, i < h.anims.length → (mergeOptionsH h dref cfg opts).1.anims[i]? = h.anims[i]?) ∧
    (∀ i, i < h.inters.length → (mergeOptionsH h dref cfg opts).1.inters[i]? = h.inters[i]?) ∧
    (∀ i, i < h.schemas.length → (mergeOptionsH h dref cfg opts).1.schemas[i]? = h.schemas[i]?) ∧
    (∀ i, i < h.scrolls.length → (mergeOptionsH h dref cfg opts).1.scrolls[i]? = h.scrolls[i]?) ∧
    readOptions (mergeOptionsH h dref cfg opts).1 dref = readOptions h dref ∧
    (h.anims.length < (mergeOptionsH h dref cfg opts).2.animation ∧
     h.inters.length < (mergeOptionsH h dref cfg opts).2.interactions ∧
     h.schemas.length < (mergeOptionsH h dref cfg opts).2.schema ∧
     h.scrolls.length < (mergeOptionsH h dref cfg opts).2.scrollToView) ∧
    readOptions (mergeOptionsH h dref cfg opts).1 (mergeOptionsH h dref cfg opts).2 =
      mergeOptions (readOptions h dref) cfg opts := by
  have hfst : (mergeOptionsH h dref cfg opts).1 = ({ anims := (cfg.foldl (fun x p => applyAttributeH x ({ dref with animation := h.anims.length, interactions := h.inters.length, schema := h.schemas.length, scrollToView := h.scrolls.length } : OptionsRef) p.1 p.2) ({ anims := h.anims ++ [(readOptions h dref).animation], inters := h.inters ++ [(readOptions h dref).interactions], schemas := h.schemas ++ [(readOptions h dref).schema], scrolls := h.scrolls ++ [(readOptions h dref).scrollToView] } : Heap)).anims ++ [({ duration := opts.animation.duration.getD (readOptions (cfg.foldl (fun x p => applyAttributeH x ({ dref with animation := h.anims.length, interactions := h.inters.length, schema := h.schemas.length, scrollToView := h.scrolls.length } : OptionsRef) p.1 p.2) ({ anims := h.anims ++ [(readOptions h dref).animation], inters := h.inters ++ [(readOptions h dref).interactions], schemas := h.schemas ++ [(readOptions h dref).schema], scrolls := h.scrolls ++ [(readOptions h dref).scrollToView] } : Heap)) ({ dref with animation := h.anims.length, interactions := h.inters.length, schema := h.schemas.length, scrollToView := h.scrolls.length } : OptionsRef)).animation.duration, ease := opts.animation.ease.getD (readOptions (cfg.foldl (fun x p => applyAttributeH x ({ dref with animation := h.anims.length, interactions := h.inters.length, schema := h.schemas.length, scrollToView := h.scrolls.length } : OptionsRef) p.1 p.2) ({ anims := h.anims ++ [(readOptions h dref).animation], inters := h.inters ++ [(readOptions h dref).interactions], schemas := h.schemas ++ [(readOptions h dref).schema], scrolls := h.scrolls ++ [(readOptions h dref).scrollToView] } : Heap)) ({ dref with animation := h.anims.length, interactions := h.inters.length, schema := h.schemas.length, scrollToView := h.scrolls.length } : OptionsRef)).animation.ease, respectMotionPreference := opts.animation.respectMotionPreference.getD (readOptions (cfg.foldl (fun x p => applyAttributeH x ({ dref with animation := h.anims.length, interactions := h.inters.length, schema := h.schemas.length, scrollToView := h.scrolls.length } : OptionsRef) p.1 p.2) ({ anims := h.anims ++ [(readOptions h dref).animation], inters := h.inters ++ [(readOptions h dref).interactions], schemas := h.schemas ++ [(readOptions h dref).schema], scrolls := h.scrolls ++ [(readOptions h dref).scrollToView] } : Heap)) ({ dref with animation := h.anims.length, interactions := h.inters.length, schema := h.schemas.length, scrollToView := h.scrolls.length } : OptionsRef)).animation.respectMotionPreference } : AnimationOptions)], inters := (cfg.foldl (fun x p => applyAttributeH x ({ dref with animation := h.anims.length, interactions := h.inters.length, schema := h.schemas.length, scrollToView := h.scrolls.length } : OptionsRef) p.1 p.2) ({ anims := h.anims ++ [(readOptions h dref).animation], inters := h.inters ++ [(readOptions h dref).interactions], schemas := h.schemas ++ [(readOptions h dref).schema], scrolls := h.scrolls ++ [(readOptions h dref).scrollToView] } : Heap)).inters ++ [({ singleOpen := opts.interactions.singleOpen.getD (readOptions (cfg.foldl (fun x p => applyAttributeH x ({ dref with animation := h.anims.length, interactions := h.inters.length, schema := h.schemas.length, scrollToView := h.scrolls.length } : OptionsRef) p.1 p.2) ({ anims := h.anims ++ [(readOptions h dref).animation], inters := h.inters ++ [(readOptions h dref).interactions], schemas := h.schemas ++ [(readOptions h dref).schema], scrolls := h.scrolls ++ [(readOptions h dref).scrollToView] } : Heap)) ({ dref with animation := h.anims.length, interactions := h.inters.length, schema := h.schemas.length, scrollToView := h.scrolls.length } : OptionsRef)).interactions.singleOpen, startOpen := opts.interactions.startOpen.getD (readOptions (cfg.foldl (fun x p => applyAttributeH x ({ dref with animation := h.anims.length, interactions := h.inters.length, schema := h.schemas.length, scrollToView := h.scrolls.length } : OptionsRef) p.1 p.2) ({ anims := h.anims ++ [(readOptions h dref).animation], inters := h.inters ++ [(readOptions h dref).interactions], schemas := h.schemas ++ [(readOptions h dref).schema], scrolls := h.scrolls ++ [(readOptions h dref).scrollToView] } : Heap)) ({ dref with animation := h.anims.length, interactions := h.inters.length, schema := h.schemas.length, scrollToView := h.scrolls.length } : OptionsRef)).interactions.startOpen, openFirstItem := opts.interactions.openFirstItem.getD (readOptions (cfg.foldl (fun x p => applyAttributeH x ({ dref with animation := h.anims.length, interactions := h.inters.length, schema := h.schemas.length, scrollToView := h.scrolls.length } : OptionsRef) p.1 p.2) ({ anims := h.anims ++ [(readOptions h dref).animation], inters := h.inters ++ [(readOptions h dref).interactions], schemas := h.schemas ++ [(readOptions h dref).schema], scrolls := h.scrolls ++ [(readOptions h dref).scrollToView] } : Heap)) ({ dref with animation := h.anims.length, interactions := h.inters.length, schema := h.schemas.length, scrollToView := h.scrolls.length } : OptionsRef)).interactions.openFirstItem, openOnHover := opts.interactions.openOnHover.getD (readOptions (cfg.foldl (fun x p => applyAttributeH x ({ dref with animation := h.anims.length, interactions := h.inters.length, schema := h.schemas.length, scrollToView := h.scrolls.length } : OptionsRef) p.1 p.2) ({ anims := h.anims ++ [(readOptions h dref).animation], inters := h.inters ++ [(readOptions h dref).interactions], schemas := h.schemas ++ [(readOptions h dref).schema], scrolls := h.scrolls ++ [(readOptions h dref).scrollToView] } : Heap)) ({ dref with animation := h.anims.length, interactions := h.inters.length, schema := h.schemas.length, scrollToView := h.scrolls.length } : OptionsRef)).interactions.openOnHover, closeOnSecondClick := opts.interactions.closeOnSecondClick.getD (readOptions (cfg.foldl (fun x p => applyAttributeH x ({ dref with animation := h.anims.length, interactions := h.inters.length, schema := h.schemas.length, scrollToView := h.scrolls.length } : OptionsRef) p.1 p.2) ({ anims := h.anims ++ [(readOptions h dref).animation], inters := h.inters ++ [(readOptions h dref).interactions], schemas := h.schemas ++ [(readOptions h dref).schema], scrolls := h.scrolls ++ [(readOptions h dref).scrollToView] } : Heap)) ({ dref with animation := h.anims.length, interactions := h.inters.length, schema := h.schemas.length, scrollToView := h.scrolls.length } : OptionsRef)).interactions.closeOnSecondClick, closeNestedOnParentClose := opts.interactions.closeNestedOnParentClose.getD (readOptions (cfg.foldl (fun x p => applyAttributeH x ({ dref with animation := h.anims.length, interactions := h.inters.length, schema := h.schemas.length, scrollToView := h.scrolls.length } : OptionsRef) p.1 p.2) ({ anims := h.anims ++ [(readOptions h dref).animation], inters := h.inters ++ [(readOptions h dref).interactions], schemas := h.schemas ++ [(readOptions h dref).schema], scrolls := h.scrolls ++ [(readOptions h dref).scrollToView] } : Heap)) ({ dref with animation := h.anims.length, interactions := h.inters.length, schema := h.schemas.length, scrollToView := h.scrolls.length } : OptionsRef)).interactions.closeNestedOnParentClose } : InteractionOptions)], schemas := (cfg.foldl (fun x p => applyAttributeH x ({ dref with animation := h.anims.length, interactions := h.inters.length, schema := h.schemas.length, scrollToView := h.scrolls.length } : OptionsRef) p.1 p.2) ({ anims := h.anims ++ [(readOptions h dref).animation], inters := h.inters ++ [(readOptions h dref).interactions], schemas := h.schemas ++ [(readOptions h dref).schema], scrolls := h.scrolls ++ [(readOptions h dref).scrollToView] } : Heap)).schemas ++ [({ enabled := opts.schema.enabled.getD (readOptions (cfg.foldl (fun x p => applyAttributeH x ({ dref with animation := h.anims.length, interactions := h.inters.length, schema := h.schemas.length, scrollToView := h.scrolls.length } : OptionsRef) p.1 p.2) ({ anims := h.anims ++ [(readOptions h dref).animation], inters := h.inters ++ [(readOptions h dref).interactions], schemas := h.schemas ++ [(readOptions h dref).schema], scrolls := h.scrolls ++ [(readOptions h dref).scrollToView] } : Heap)) ({ dref with animation := h.anims.length, interactions := h.inters.length, schema := h.schemas.length, scrollToView := h.scrolls.length } : OptionsRef)).schema.enabled } : SchemaOptions)], scrolls := (cfg.foldl (fun x p => applyAttributeH x ({ dref with animation := h.anims.length, interactions := h.inters.length, schema := h.schemas.length, scrollToView := h.scrolls.length } : OptionsRef) p.1 p.2) ({ anims := h.anims ++ [(readOptions h dref).animation], inters := h.inters ++ [(readOptions h dref).interactions], schemas := h.schemas ++ [(readOptions h dref).schema], scrolls := h.scrolls ++ [(readOptions h dref).scrollToView] } : Heap)).scrolls ++ [({ enabled := opts.scrollToView.enabled.getD (readOptions (cfg.foldl (fun x p => applyAttributeH x ({ dref with animation := h.anims.length, interactions := h.inters.length, schema := h.schemas.length, scrollToView := h.scrolls.length } : OptionsRef) p.1 p.2) ({ anims := h.anims ++ [(readOptions h dref).animation], inters := h.inters ++ [(readOptions h dref).interactions], schemas := h.schemas ++ [(readOptions h dref).schema], scrolls := h.scrolls ++ [(readOptions h dref).scrollToView] } : Heap)) ({ dref with animation := h.anims.length, interactions := h.inters.length, schema := h.schemas.length, scrollToView := h.scrolls.length } : OptionsRef)).scrollToView.enabled, delay := opts.scrollToView.delay.getD (readOptions (cfg.foldl (fun x p => applyAttributeH x ({ dref with animation := h.anims.length, interactions := h.inters.length, schema := h.schemas.length, scrollToView := h.scrolls.length } : OptionsRef) p.1 p.2) ({ anims := h.anims ++ [(readOptions h dref).animation], inters := h.inters ++ [(readOptions h dref).interactions], schemas := h.schemas ++ [(readOptions h dref).schema], scrolls := h.scrolls ++ [(readOptions h dref).scrollToView] } : Heap)) ({ dref with animation := h.anims.length, interactions := h.inters.length, schema := h.schemas.length, scrollToView := h.scrolls.length } : OptionsRef)).scrollToView.delay } : ScrollToViewOptions)] } : Heap) := rfl
  have hsnd : (mergeOptionsH h dref cfg opts).2 = ({ containerSelector := opts.containerSelector.getD (readOptions (cfg.foldl (fun x p => applyAttributeH x ({ dref with animation := h.anims.length, interactions := h.inters.length, schema := h.schemas.length, scrollToView := h.scrolls.length } : OptionsRef) p.1 p.2) ({ anims := h.anims ++ [(readOptions h dref).animation], inters := h.inters ++ [(readOptions h dref).interactions], schemas := h.schemas ++ [(readOptions h dref).schema], scrolls := h.scrolls ++ [(readOptions h dref).scrollToView] } : Heap)) ({ dref with animation := h.anims.length, interactions := h.inters.length, schema := h.schemas.length, scrollToView := h.scrolls.length } : OptionsRef)).containerSelector, itemSelector := opts.itemSelector.getD (readOptions (cfg.foldl (fun x p => applyAttributeH x ({ dref with animation := h.anims.length, interactions := h.inters.length, schema := h.schemas.length, scrollToView := h.scrolls.length } : OptionsRef) p.1 p.2) ({ anims := h.anims ++ [(readOptions h dref).animation], inters := h.inters ++ [(readOptions h dref).interactions], schemas := h.schemas ++ [(readOptions h dref).schema], scrolls := h.scrolls ++ [(readOptions h dref).scrollToView] } : Heap)) ({ dref with animation := h.anims.length, interactions := h.inters.length, schema := h.schemas.length, scrollToView := h.scrolls.length } : OptionsRef)).itemSelector, headerSelector := opts.headerSelector.getD (readOptions (cfg.foldl (fun x p => applyAttributeH x ({ dref with animation := h.anims.length, interactions := h.inters.length, schema := h.schemas.length, scrollToView := h.scrolls.length } : OptionsRef) p.1 p.2) ({ anims := h.anims ++ [(readOptions h dref).animation], inters := h.inters ++ [(readOptions h dref).interactions], schemas := h.schemas ++ [(readOptions h dref).schema], scrolls := h.scrolls ++ [(readOptions h dref).scrollToView] } : Heap)) ({ dref with animation := h.anims.length, interactions := h.inters.length, schema := h.schemas.length, scrollToView := h.scrolls.length } : OptionsRef)).headerSelector, bodySelector := opts.bodySelector.getD (readOptions (cfg.foldl (fun x p => applyAttributeH x ({ dref with animation := h.anims.length, interactions := h.inters.length, schema := h.schemas.length, scrollToView := h.scrolls.length } : OptionsRef) p.1 p.2) ({ anims := h.anims ++ [(readOptions h dref).animation], inters := h.inters ++ [(readOptions h dref).interactions], schemas := h.schemas ++ [(readOptions h dref).schema], scrolls := h.scrolls ++ [(readOptions h dref).scrollToView] } : Heap)) ({ dref with animation := h.anims.length, interactions := h.inters.length, schema := h.schemas.length, scrollToView := h.scrolls.length } : OptionsRef)).bodySelector, iconSelector := opts.iconSelector.getD (readOptions (cfg.foldl (fun x p => applyAttributeH x ({ dref with animation := h.anims.length, interactions := h.inters.length, schema := h.schemas.length, scrollToView := h.scrolls.length } : OptionsRef) p.1 p.2) ({ anims := h.anims ++ [(readOptions h dref).animation], inters := h.inters ++ [(readOptions h dref).interactions], schemas := h.schemas ++ [(readOptions h dref).schema], scrolls := h.scrolls ++ [(readOptions h dref).scrollToView] } : Heap)) ({ dref with animation := h.anims.length, interactions := h.inters.length, schema := h.schemas.length, scrollToView := h.scrolls.length } : OptionsRef)).iconSelector, activeClass := opts.activeClass.getD (readOptions (cfg.foldl (fun x p => applyAttributeH x ({ dref with animation := h.anims.length, interactions := h.inters.length, schema := h.schemas.length, scrollToView := h.scrolls.length } : OptionsRef) p.1 p.2) ({ anims := h.anims ++ [(readOptions h dref).animation], inters := h.inters ++ [(readOptions h dref).interactions], schemas := h.schemas ++ [(readOptions h dref).schema], scrolls := h.scrolls ++ [(readOptions h dref).scrollToView] } : Heap)) ({ dref with animation := h.anims.length, interactions := h.inters.length, schema := h.schemas.length, scrollToView := h.scrolls.length } : OptionsRef)).activeClass, animation := (cfg.foldl (fun x p => applyAttributeH x ({ dref with animation := h.anims.length, interactions := h.inters.length, schema := h.schemas.length, scrollToView := h.scrolls.length } : OptionsRef) p.1 p.2) ({ anims := h.anims ++ [(readOptions h dref).animation], inters := h.inters ++ [(readOptions h dref).interactions], schemas := h.schemas ++ [(readOptions h dref).schema], scrolls := h.scrolls ++ [(readOptions h dref).scrollToView] } : Heap)).anims.length, interactions := (cfg.foldl (fun x p => applyAttributeH x ({ dref with animation := h.anims.length, interactions := h.inters.length, schema := h.schemas.length, scrollToView := h.scrolls.length } : OptionsRef) p.1 p.2) ({ anims := h.anims ++ [(readOptions h dref).animation], inters := h.inters ++ [(readOptions h dref).interactions], schemas := h.schemas ++ [(readOptions h dref).schema], scrolls := h.scrolls ++ [(readOptions h dref).scrollToView] } : Heap)).inters.length, schema := (cfg.foldl (fun x p => applyAttributeH x ({ dref with animation := h.anims.length, interactions := h.inters.length, schema := h.schemas.length, scrollToView := h.scrolls.length } : OptionsRef) p.1 p.2) ({ anims := h.anims ++ [(readOptions h dref).animation], inters := h.inters ++ [(readOptions h dref).interactions], schemas := h.schemas ++ [(readOptions h dref).schema], scrolls := h.scrolls ++ [(readOptions h dref).scrollToView] } : Heap)).schemas.length, scrollToView := (cfg.foldl (fun x p => applyAttributeH x ({ dref with animation := h.anims.length, interactions := h.inters.length, schema := h.schemas.length, scrollToView := h.scrolls.length } : OptionsRef) p.1 p.2) ({ anims := h.anims ++ [(readOptions h dref).animation], inters := h.inters ++ [(readOptions h dref).interactions], schemas := h.schemas ++ [(readOptions h dref).schema], scrolls := h.scrolls ++ [(readOptions h dref).scrollToView] } : Heap)).scrolls.length } : OptionsRef) := rfl
  obtain ⟨f1, f2, f3, f4, f5, f6, f7, f8, f9⟩ := foldl_applyAttributeH ({ dref with animation := h.anims.length, interactions := h.inters.length, schema := h.schemas.length, scrollToView := h.scrolls.length } : OptionsRef) cfg ({ anims := h.anims ++ [(readOptions h dref).animation], inters := h.inters ++ [(readOptions h dref).interactions], schemas := h.schemas ++ [(readOptions h dref).schema], scrolls := h.scrolls ++ [(readOptions h dref).scrollToView] } : Heap)
    (by simp) (by simp) (by simp) (by simp)
  have pa : ∀ i, i < h.anims.length → (mergeOptionsH h dref cfg opts).1.anims[i]? = h.anims[i]? := by
    intro i hi
    rw [hfst]
    show ((cfg.foldl (fun x p => applyAttributeH x ({ dref with animation := h.anims.length, interactions := h.inters.length, schema := h.schemas.length, scrollToView := h.scrolls.length } : OptionsRef) p.1 p.2) ({ anims := h.anims ++ [(readOptions h dref).animation], inters := h.inters ++ [(readOptions h dref).interactions], schemas := h.schemas ++ [(readOptions h dref).schema], scrolls := h.scrolls ++ [(readOptions h dref).scrollToView] } : Heap)).anims ++ [({ duration := opts.animation.duration.getD (readOptions (cfg.foldl (fun x p => applyAttributeH x ({ dref with animation := h.anims.length, interactions := h.inters.length, schema := h.schemas.length, scrollToView := h.scrolls.length } : OptionsRef) p.1 p.2) ({ anims := h.anims ++ [(readOptions h dref).animation], inters := h.inters ++ [(readOptions h dref).interactions], schemas := h.schemas ++ [(readOptions h dref).schema], scrolls := h.scrolls ++ [(readOptions h dref).scrollToView] } : Heap)) ({ dref with animation := h.anims.length, interactions := h.inters.length, schema := h.schemas.length, scrollToView := h.scrolls.length } : OptionsRef)).animation.duration, ease := opts.animation.ease.getD (readOptions (cfg.foldl (fun x p => applyAttributeH x ({ dref with animation := h.anims.length, interactions := h.inters.length, schema := h.schemas.length, scrollToView := h.scrolls.length } : OptionsRef) p.1 p.2) ({ anims := h.anims ++ [(readOptions h dref).animation], inters := h.inters ++ [(readOptions h dref).interactions], schemas := h.schemas ++ [(readOptions h dref).schema], scrolls := h.scrolls ++ [(readOptions h dref).scrollToView] } : Heap)) ({ dref with animation := h.anims.length, interactions := h.inters.length, schema := h.schemas.length, scrollToView := h.scrolls.length } : OptionsRef)).animation.ease, respectMotionPreference := opts.animation.respectMotionPreference.getD (readOptions (cfg.foldl (fun x p => applyAttributeH x ({ dref with animation := h.anims.length, interactions := h.inters.length, schema := h.schemas.length, scrollToView := h.scrolls.length } : OptionsRef) p.1 p.2) ({ anims := h.anims ++ [(readOptions h dref).animation], inters := h.inters ++ [(readOptions h dref).interactions], schemas := h.schemas ++ [(readOptions h dref).schema], scrolls := h.scrolls ++ [(readOptions h dref).scrollToView] } : Heap)) ({ dref with animation := h.anims.length, interactions := h.inters.length, schema := h.schemas.length, scrollToView := h.scrolls.length } : OptionsRef)).animation.respectMotionPreference } : AnimationOptions)])[i]? = h.anims[i]?
    rw [List.getElem?_append_left (by rw [f1]; simp; omega)]
    rw [f5 i (by simp; omega)]
    show (h.anims ++ [(readOptions h dref).animation])[i]? = h.anims[i]?
    rw [List.getElem?_append_left hi]
  have pb : ∀ i, i < h.inters.length → (mergeOptionsH h dref cfg opts).1.inters[i]? = h.inters[i]? := by
    intro i hi
    rw [hfst]
    show ((cfg.foldl (fun x p => applyAttributeH x ({ dref with animation := h.anims.length, interactions := h.inters.length, schema := h.schemas.length, scrollToView := h.scrolls.length } : OptionsRef) p.1 p.2) ({ anims := h.anims ++ [(readOptions h dref).animation], inters := h.inters ++ [(readOptions h dref).interactions], schemas := h.schemas ++ [(readOptions h dref).schema], scrolls := h.scrolls ++ [(readOptions h dref).scrollToView] } : Heap)).inters ++ [({ singleOpen := opts.interactions.singleOpen.getD (readOptions (cfg.foldl (fun x p => applyAttributeH x ({ dref with animation := h.anims.length, interactions := h.inters.length, schema := h.schemas.length, scrollToView := h.scrolls.length } : OptionsRef) p.1 p.2) ({ anims := h.anims ++ [(readOptions h dref).animation], inters := h.inters ++ [(readOptions h dref).interactions], schemas := h.schemas ++ [(readOptions h dref).schema], scrolls := h.scrolls ++ [(readOptions h dref).scrollToView] } : Heap)) ({ dref with animation := h.anims.length, interactions := h.inters.length, schema := h.schemas.length, scrollToView := h.scrolls.length } : OptionsRef)).interactions.singleOpen, startOpen := opts.interactions.startOpen.getD (readOptions (cfg.foldl (fun x p => applyAttributeH x ({ dref with animation := h.anims.length, interactions := h.inters.length, schema := h.schemas.length, scrollToView := h.scrolls.length } : OptionsRef) p.1 p.2) ({ anims := h.anims ++ [(readOptions h dref).animation], inters := h.inters ++ [(readOptions h dref).interactions], schemas := h.schemas ++ [(readOptions h dref).schema], scrolls := h.scrolls ++ [(readOptions h dref).scrollToView] } : Heap)) ({ dref with animation := h.anims.length, interactions := h.inters.length, schema := h.schemas.length, scrollToView := h.scrolls.length } : OptionsRef)).interactions.startOpen, openFirstItem := opts.interactions.openFirstItem.getD (readOptions (cfg.foldl (fun x p => applyAttributeH x ({ dref with animation := h.anims.length, interactions := h.inters.length, schema := h.schemas.length, scrollToView := h.scrolls.length } : OptionsRef) p.1 p.2) ({ anims := h.anims ++ [(readOptions h dref).animation], inters := h.inters ++ [(readOptions h dref).interactions], schemas := h.schemas ++ [(readOptions h dref).schema], scrolls := h.scrolls ++ [(readOptions h dref).scrollToView] } : Heap)) ({ dref with animation := h.anims.length, interactions := h.inters.length, schema := h.schemas.length, scrollToView := h.scrolls.length } : OptionsRef)).interactions.openFirstItem, openOnHover := opts.interactions.openOnHover.getD (readOptions (cfg.foldl (fun x p => applyAttributeH x ({ dref with animation := h.anims.length, interactions := h.inters.length, schema := h.schemas.length, scrollToView := h.scrolls.length } : OptionsRef) p.1 p.2) ({ anims := h.anims ++ [(readOptions h dref).animation], inters := h.inters ++ [(readOptions h dref).interactions], schemas := h.schemas ++ [(readOptions h dref).schema], scrolls := h.scrolls ++ [(readOptions h dref).scrollToView] } : Heap)) ({ dref with animation := h.anims.length, interactions := h.inters.length, schema := h.schemas.length, scrollToView := h.scrolls.length } : OptionsRef)).interactions.openOnHover, closeOnSecondClick := opts.interactions.closeOnSecondClick.getD (readOptions (cfg.foldl (fun x p => applyAttributeH x ({ dref with animation := h.anims.length, interactions := h.inters.length, schema := h.schemas.length, scrollToView := h.scrolls.length } : OptionsRef) p.1 p.2) ({ anims := h.anims ++ [(readOptions h dref).animation], inters := h.inters ++ [(readOptions h dref).interactions], schemas := h.schemas ++ [(readOptions h dref).schema], scrolls := h.scrolls ++ [(readOptions h dref).scrollToView] } : Heap)) ({ dref with animation := h.anims.length, interactions := h.inters.length, schema := h.schemas.length, scrollToView := h.scrolls.length } : OptionsRef)).interactions.closeOnSecondClick, closeNestedOnParentClose := opts.interactions.closeNestedOnParentClose.getD (readOptions (cfg.foldl (fun x p => applyAttributeH x ({ dref with animation := h.anims.length, interactions := h.inters.length, schema := h.schemas.length, scrollToView := h.scrolls.length } : OptionsRef) p.1 p.2) ({ anims := h.anims ++ [(readOptions h dref).animation], inters := h.inters ++ [(readOptions h dref).interactions], schemas := h.schemas ++ [(readOptions h dref).schema], scrolls := h.scrolls ++ [(readOptions h dref).scrollToView] } : Heap)) ({ dref with animation := h.anims.length, interactions := h.inters.length, schema := h.schemas.length, scrollToView := h.scrolls.length } : OptionsRef)).interactions.closeNestedOnParentClose } : InteractionOptions)])[i]? = h.inters[i]?
    rw [List.getElem?_append_left (by rw [f2]; simp; omega)]
    rw [f6 i (by simp; omega)]
    show (h.inters ++ [(readOptions h dref).interactions])[i]? = h.inters[i]?
    rw [List.getElem?_append_left hi]
  have pc : ∀ i, i < h.schemas.length → (mergeOptionsH h dref cfg opts).1.schemas[i]? = h.schemas[i]? := by
    intro i hi
    rw [hfst]
    show ((cfg.foldl (fun x p => applyAttributeH x ({ dref with animation := h.anims.length, interactions := h.inters.length, schema := h.schemas.length, scrollToView := h.scrolls.length } : OptionsRef) p.1 p.2) ({ anims := h.anims ++ [(readOptions h dref).animation], inters := h.inters ++ [(readOptions h dref).interactions], schemas := h.schemas ++ [(readOptions h dref).schema], scrolls := h.scrolls ++ [(readOptions h dref).scrollToView] } : Heap)).schemas ++ [({ enabled := opts.schema.enabled.getD (readOptions (cfg.foldl (fun x p => applyAttributeH x ({ dref with animation := h.anims.length, interactions := h.inters.length, schema := h.schemas.length, scrollToView := h.scrolls.length } : OptionsRef) p.1 p.2) ({ anims := h.anims ++ [(readOptions h dref).animation], inters := h.inters ++ [(readOptions h dref).interactions], schemas := h.schemas ++ [(readOptions h dref).schema], scrolls := h.scrolls ++ [(readOptions h dref).scrollToView] } : Heap)) ({ dref with animation := h.anims.length, interactions := h.inters.length, schema := h.schemas.length, scrollToView := h.scrolls.length } : OptionsRef)).schema.enabled } : SchemaOptions)])[i]? = h.schemas[i]?
    rw [List.getElem?_append_left (by rw [f3]; simp; omega)]
    rw [f7 i (by simp; omega)]
    show (h.schemas ++ [(readOptions h dref).schema])[i]? = h.schemas[i]?
    rw [List.getElem?_append_left hi]
  have pd : ∀ i, i < h.scrolls.length → (mergeOptionsH h dref cfg opts).1.scrolls[i]? = h.scrolls[i]? := by
    intro i hi
    rw [hfst]
    show ((cfg.foldl (fun x p => applyAttributeH x ({ dref with animation := h.anims.length, interactions := h.inters.length, schema := h.schemas.length, scrollToView := h.scrolls.length } : OptionsRef) p.1 p.2) ({ anims := h.anims ++ [(readOptions h dref).animation], inters := h.inters ++ [(readOptions h dref).interactions], schemas := h.schemas ++ [(readOptions h dref).schema], scrolls := h.scrolls ++ [(readOptions h dref).scrollToView] } : Heap)).scrolls ++ [({ enabled := opts.scrollToView.enabled.getD (readOptions (cfg.foldl (fun x p => applyAttributeH x ({ dref with animation := h.anims.length, interactions := h.inters.length, schema := h.schemas.length, scrollToView := h.scrolls.length } : OptionsRef) p.1 p.2) ({ anims := h.anims ++ [(readOptions h dref).animation], inters := h.inters ++ [(readOptions h dref).interactions], schemas := h.schemas ++ [(readOptions h dref).schema], scrolls := h.scrolls ++ [(readOptions h dref).scrollToView] } : Heap)) ({ dref with animation := h.anims.length, interactions := h.inters.length, schema := h.schemas.length, scrollToView := h.scrolls.length } : OptionsRef)).scrollToView.enabled, delay := opts.scrollToView.delay.getD (readOptions (cfg.foldl (fun x p => applyAttributeH x ({ dref with animation := h.anims.length, interactions := h.inters.length, schema := h.schemas.length, scrollToView := h.scrolls.length } : OptionsRef) p.1 p.2) ({ anims := h.anims ++ [(readOptions h dref).animation], inters := h.inters ++ [(readOptions h dref).interactions], schemas := h.schemas ++ [(readOptions h dref).schema], scrolls := h.scrolls ++ [(readOptions h dref).scrollToView] } : Heap)) ({ dref with animation := h.anims.length, interactions := h.inters.length, schema := h.schemas.length, scrollToView := h.scrolls.length } : OptionsRef)).scrollToView.delay } : ScrollToViewOptions)])[i]? = h.scrolls[i]?
    rw [List.getElem?_append_left (by rw [f4]; simp; omega)]
    rw [f8 i (by simp; omega)]
    show (h.scrolls ++ [(readOptions h dref).scrollToView])[i]? = h.scrolls[i]?
    rw [List.getElem?_append_left hi]
  refine ⟨pa, pb, pc, pd, ?_, ⟨?_, ?_, ?_, ?_⟩, ?_⟩
  · unfold readOptions
    rw [pa dref.animation ha, pb dref.interactions hb, pc dref.schema hc, pd dref.scrollToView hdd]
  · rw [hsnd]
    show h.anims.length < (cfg.foldl (fun x p => applyAttributeH x ({ dref with animation := h.anims.length, interactions := h.inters.length, schema := h.schemas.length, scrollToView := h.scrolls.length } : OptionsRef) p.1 p.2) ({ anims := h.anims ++ [(readOptions h dref).animation], inters := h.inters ++ [(readOptions h dref).interactions], schemas := h.schemas ++ [(readOptions h dref).schema], scrolls := h.scrolls ++ [(readOptions h dref).scrollToView] } : Heap)).anims.length
    rw [f1]
    simp
  · rw [hsnd]
    show h.inters.length < (cfg.foldl (fun x p => applyAttributeH x ({ dref with animation := h.anims.length, interactions := h.inters.length, schema := h.schemas.length, scrollToView := h.scrolls.length } : OptionsRef) p.1 p.2) ({ anims := h.anims ++ [(readOptions h dref).animation], inters := h.inters ++ [(readOptions h dref).interactions], schemas := h.schemas ++ [(readOptions h dref).schema], scrolls := h.scrolls ++ [(readOptions h dref).scrollToView] } : Heap)).inters.length
    rw [f2]
    simp
  · rw [hsnd]
    show h.schemas.length < (cfg.foldl (fun x p => applyAttributeH x ({ dref with animation := h.anims.length, interactions := h.inters.length, schema := h.schemas.length, scrollToView := h.scrolls.length } : OptionsRef) p.1 p.2) ({ anims := h.anims ++ [(readOptions h dref).animation], inters := h.inters ++ [(readOptions h dref).interactions], schemas := h.schemas ++ [(readOptions h dref).schema], scrolls := h.scrolls ++ [(readOptions h dref).scrollToView] } : Heap)).schemas.length
    rw [f3]
    simp
  · rw [hsnd]
    show h.scrolls.length < (cfg.foldl (fun x p => applyAttributeH x ({ dref with animation := h.anims.length, interactions := h.inters.length, schema := h.schemas.length, scrollToView := h.scrolls.length } : OptionsRef) p.1 p.2) ({ anims := h.anims ++ [(readOptions h dref).animation], inters := h.inters ++ [(readOptions h dref).interactions], schemas := h.schemas ++ [(readOptions h dref).schema], scrolls := h.scrolls ++ [(readOptions h dref).scrollToView] } : Heap)).scrolls.length
    rw [f4]
    simp
  · have hH1M : readOptions ({ anims := h.anims ++ [(readOptions h dref).animation], inters := h.inters ++ [(readOptions h dref).interactions], schemas := h.schemas ++ [(readOptions h dref).schema], scrolls := h.scrolls ++ [(readOptions h dref).scrollToView] } : Heap) ({ dref with animation := h.anims.length, interactions := h.inters.length, schema := h.schemas.length, scrollToView := h.scrolls.length } : OptionsRef) = readOptions h dref := by
      unfold readOptions
      show ({ containerSelector := dref.containerSelector, itemSelector := dref.itemSelector, headerSelector := dref.headerSelector, bodySelector := dref.bodySelector, iconSelector := dref.iconSelector, activeClass := dref.activeClass, animation := ((h.anims ++ [(readOptions h dref).animation])[h.anims.length]?).getD defaultOptions.animation, interactions := ((h.inters ++ [(readOptions h dref).interactions])[h.inters.length]?).getD defaultOptions.interactions, schema := ((h.schemas ++ [(readOptions h dref).schema])[h.schemas.length]?).getD defaultOptions.schema, scrollToView := ((h.scrolls ++ [(readOptions h dref).scrollToView])[h.scrolls.length]?).getD defaultOptions.scrollToView } : AccordionOptions) = _
      rw [List.getElem?_concat_length, List.getElem?_concat_length,
        List.getElem?_concat_length, List.getElem?_concat_length]
      rfl
    have hM : (readOptions (cfg.foldl (fun x p => applyAttributeH x ({ dref with animation := h.anims.length, interactions := h.inters.length, schema := h.schemas.length, scrollToView := h.scrolls.length } : OptionsRef) p.1 p.2) ({ anims := h.anims ++ [(readOptions h dref).animation], inters := h.inters ++ [(readOptions h dref).interactions], schemas := h.schemas ++ [(readOptions h dref).schema], scrolls := h.scrolls ++ [(readOptions h dref).scrollToView] } : Heap)) ({ dref with animation := h.anims.length, interactions := h.inters.length, schema := h.schemas.length, scrollToView := h.scrolls.length } : OptionsRef)) = cfg.foldl (fun o p => applyAttribute o p.1 p.2) (readOptions h dref) := by
      rw [f9, hH1M]
    rw [hfst, hsnd]
    show ({ containerSelector := opts.containerSelector.getD (readOptions (cfg.foldl (fun x p => applyAttributeH x ({ dref with animation := h.anims.length, interactions := h.inters.length, schema := h.schemas.length, scrollToView := h.scrolls.length } : OptionsRef) p.1 p.2) ({ anims := h.anims ++ [(readOptions h dref).animation], inters := h.inters ++ [(readOptions h dref).interactions], schemas := h.schemas ++ [(readOptions h dref).schema], scrolls := h.scrolls ++ [(readOptions h dref).scrollToView] } : Heap)) ({ dref with animation := h.anims.length, interactions := h.inters.length, schema := h.schemas.length, scrollToView := h.scrolls.length } : OptionsRef)).containerSelector, itemSelector := opts.itemSelector.getD (readOptions (cfg.foldl (fun x p => applyAttributeH x ({ dref with animation := h.anims.length, interactions := h.inters.length, schema := h.schemas.length, scrollToView := h.scrolls.length } : OptionsRef) p.1 p.2) ({ anims := h.anims ++ [(readOptions h dref).animation], inters := h.inters ++ [(readOptions h dref).interactions], schemas := h.schemas ++ [(readOptions h dref).schema], scrolls := h.scrolls ++ [(readOptions h dref).scrollToView] } : Heap)) ({ dref with animation := h.anims.length, interactions := h.inters.length, schema := h.schemas.length, scrollToView := h.scrolls.length } : OptionsRef)).itemSelector, headerSelector := opts.headerSelector.getD (readOptions (cfg.foldl (fun x p => applyAttributeH x ({ dref with animation := h.anims.length, interactions := h.inters.length, schema := h.schemas.length, scrollToView := h.scrolls.length } : OptionsRef) p.1 p.2) ({ anims := h.anims ++ [(readOptions h dref).animation], inters := h.inters ++ [(readOptions h dref).interactions], schemas := h.schemas ++ [(readOptions h dref).schema], scrolls := h.scrolls ++ [(readOptions h dref).scrollToView] } : Heap)) ({ dref with animation := h.anims.length, interactions := h.inters.length, schema := h.schemas.length, scrollToView := h.scrolls.length } : OptionsRef)).headerSelector, bodySelector := opts.bodySelector.getD (readOptions (cfg.foldl (fun x p => applyAttributeH x ({ dref with animation := h.anims.length, interactions := h.inters.length, schema := h.schemas.length, scrollToView := h.scrolls.length } : OptionsRef) p.1 p.2) ({ anims := h.anims ++ [(readOptions h dref).animation], inters := h.inters ++ [(readOptions h dref).interactions], schemas := h.schemas ++ [(readOptions h dref).schema], scrolls := h.scrolls ++ [(readOptions h dref).scrollToView] } : Heap)) ({ dref with animation := h.anims.length, interactions := h.inters.length, schema := h.schemas.length, scrollToView := h.scrolls.length } : OptionsRef)).bodySelector, iconSelector := opts.iconSelector.getD (readOptions (cfg.foldl (fun x p => applyAttributeH x ({ dref with animation := h.anims.length, interactions := h.inters.length, schema := h.schemas.length, scrollToView := h.scrolls.length } : OptionsRef) p.1 p.2) ({ anims := h.anims ++ [(readOptions h dref).animation], inters := h.inters ++ [(readOptions h dref).interactions], schemas := h.schemas ++ [(readOptions h dref).schema], scrolls := h.scrolls ++ [(readOptions h dref).scrollToView] } : Heap)) ({ dref with animation := h.anims.length, interactions := h.inters.length, schema := h.schemas.length, scrollToView := h.scrolls.length } : OptionsRef)).iconSelector, activeClass := opts.activeClass.getD (readOptions (cfg.foldl (fun x p => applyAttributeH x ({ dref with animation := h.anims.length, interactions := h.inters.length, schema := h.schemas.length, scrollToView := h.scrolls.length } : OptionsRef) p.1 p.2) ({ anims := h.anims ++ [(readOptions h dref).animation], inters := h.inters ++ [(readOptions h dref).interactions], schemas := h.schemas ++ [(readOptions h dref).schema], scrolls := h.scrolls ++ [(readOptions h dref).scrollToView] } : Heap)) ({ dref with animation := h.anims.length, interactions := h.inters.length, schema := h.schemas.length, scrollToView := h.scrolls.length } : OptionsRef)).activeClass, animation := (((cfg.foldl (fun x p => applyAttributeH x ({ dref with animation := h.anims.length, interactions := h.inters.length, schema := h.schemas.length, scrollToView := h.scrolls.length } : OptionsRef) p.1 p.2) ({ anims := h.anims ++ [(readOptions h dref).animation], inters := h.inters ++ [(readOptions h dref).interactions], schemas := h.schemas ++ [(readOptions h dref).schema], scrolls := h.scrolls ++ [(readOptions h dref).scrollToView] } : Heap)).anims ++ [({ duration := opts.animation.duration.getD (readOptions (cfg.foldl (fun x p => applyAttributeH x ({ dref with animation := h.anims.length, interactions := h.inters.length, schema := h.schemas.length, scrollToView := h.scrolls.length } : OptionsRef) p.1 p.2) ({ anims := h.anims ++ [(readOptions h dref).animation], inters := h.inters ++ [(readOptions h dref).interactions], schemas := h.schemas ++ [(readOptions h dref).schema], scrolls := h.scrolls ++ [(readOptions h dref).scrollToView] } : Heap)) ({ dref with animation := h.anims.length, interactions := h.inters.length, schema := h.schemas.length, scrollToView := h.scrolls.length } : OptionsRef)).animation.duration, ease := opts.animation.ease.getD (readOptions (cfg.foldl (fun x p => applyAttributeH x ({ dref with animation := h.anims.length, interactions := h.inters.length, schema := h.schemas.length, scrollToView := h.scrolls.length } : OptionsRef) p.1 p.2) ({ anims := h.anims ++ [(readOptions h dref).animation], inters := h.inters ++ [(readOptions h dref).interactions], schemas := h.schemas ++ [(readOptions h dref).schema], scrolls := h.scrolls ++ [(readOptions h dref).scrollToView] } : Heap)) ({ dref with animation := h.anims.length, interactions := h.inters.length, schema := h.schemas.length, scrollToView := h.scrolls.length } : OptionsRef)).animation.ease, respectMotionPreference := opts.animation.respectMotionPreference.getD (readOptions (cfg.foldl (fun x p => applyAttributeH x ({ dref with animation := h.anims.length, interactions := h.inters.length, schema := h.schemas.length, scrollToView := h.scrolls.length } : OptionsRef) p.1 p.2) ({ anims := h.anims ++ [(readOptions h dref).animation], inters := h.inters ++ [(readOptions h dref).interactions], schemas := h.schemas ++ [(readOptions h dref).schema], scrolls := h.scrolls ++ [(readOptions h dref).scrollToView] } : Heap)) ({ dref with animation := h.anims.length, interactions := h.inters.length, schema := h.schemas.length, scrollToView := h.scrolls.length } : OptionsRef)).animation.respectMotionPreference } : AnimationOptions)])[(cfg.foldl (fun x p => applyAttributeH x ({ dref with animation := h.anims.length, interactions := h.inters.length, schema := h.schemas.length, scrollToView := h.scrolls.length } : OptionsRef) p.1 p.2) ({ anims := h.anims ++ [(readOptions h dref).animation], inters := h.inters ++ [(readOptions h dref).interactions], schemas := h.schemas ++ [(readOptions h dref).schema], scrolls := h.scrolls ++ [(readOptions h dref).scrollToView] } : Heap)).anims.length]?).getD defaultOptions.animation, interactions := (((cfg.foldl (fun x p => applyAttributeH x ({ dref with animation := h.anims.length, interactions := h.inters.length, schema := h.schemas.length, scrollToView := h.scrolls.length } : OptionsRef) p.1 p.2) ({ anims := h.anims ++ [(readOptions h dref).animation], inters := h.inters ++ [(readOptions h dref).interactions], schemas := h.schemas ++ [(readOptions h dref).schema], scrolls := h.scrolls ++ [(readOptions h dref).scrollToView] } : Heap)).inters ++ [({ singleOpen := opts.interactions.singleOpen.getD (readOptions (cfg.foldl (fun x p => applyAttributeH x ({ dref with animation := h.anims.length, interactions := h.inters.length, schema := h.schemas.length, scrollToView := h.scrolls.length } : OptionsRef) p.1 p.2) ({ anims := h.anims ++ [(readOptions h dref).animation], inters := h.inters ++ [(readOptions h dref).interactions], schemas := h.schemas ++ [(readOptions h dref).schema], scrolls := h.scrolls ++ [(readOptions h dref).scrollToView] } : Heap)) ({ dref with animation := h.anims.length, interactions := h.inters.length, schema := h.schemas.length, scrollToView := h.scrolls.length } : OptionsRef)).interactions.singleOpen, startOpen := opts.interactions.startOpen.getD (readOptions (cfg.foldl (fun x p => applyAttributeH x ({ dref with animation := h.anims.length, interactions := h.inters.length, schema := h.schemas.length, scrollToView := h.scrolls.length } : OptionsRef) p.1 p.2) ({ anims := h.anims ++ [(readOptions h dref).animation], inters := h.inters ++ [(readOptions h dref).interactions], schemas := h.schemas ++ [(readOptions h dref).schema], scrolls := h.scrolls ++ [(readOptions h dref).scrollToView] } : Heap)) ({ dref with animation := h.anims.length, interactions := h.inters.length, schema := h.schemas.length, scrollToView := h.scrolls.length } : OptionsRef)).interactions.startOpen, openFirstItem := opts.interactions.openFirstItem.getD (readOptions (cfg.foldl (fun x p => applyAttributeH x ({ dref with animation := h.anims.length, interactions := h.inters.length, schema := h.schemas.length, scrollToView := h.scrolls.length } : OptionsRef) p.1 p.2) ({ anims := h.anims ++ [(readOptions h dref).animation], inters := h.inters ++ [(readOptions h dref).interactions], schemas := h.schemas ++ [(readOptions h dref).schema], scrolls := h.scrolls ++ [(readOptions h dref).scrollToView] } : Heap)) ({ dref with animation := h.anims.length, interactions := h.inters.length, schema := h.schemas.length, scrollToView := h.scrolls.length } : OptionsRef)).interactions.openFirstItem, openOnHover := opts.interactions.openOnHover.getD (readOptions (cfg.foldl (fun x p => applyAttributeH x ({ dref with animation := h.anims.length, interactions := h.inters.length, schema := h.schemas.length, scrollToView := h.scrolls.length } : OptionsRef) p.1 p.2) ({ anims := h.anims ++ [(readOptions h dref).animation], inters := h.inters ++ [(readOptions h dref).interactions], schemas := h.schemas ++ [(readOptions h dref).schema], scrolls := h.scrolls ++ [(readOptions h dref).scrollToView] } : Heap)) ({ dref with animation := h.anims.length, interactions := h.inters.length, schema := h.schemas.length, scrollToView := h.scrolls.length } : OptionsRef)).interactions.openOnHover, closeOnSecondClick := opts.interactions.closeOnSecondClick.getD (readOptions (cfg.foldl (fun x p => applyAttributeH x ({ dref with animation := h.anims.length, interactions := h.inters.length, schema := h.schemas.length, scrollToView := h.scrolls.length } : OptionsRef) p.1 p.2) ({ anims := h.anims ++ [(readOptions h dref).animation], inters := h.inters ++ [(readOptions h dref).interactions], schemas := h.schemas ++ [(readOptions h dref).schema], scrolls := h.scrolls ++ [(readOptions h dref).scrollToView] } : Heap)) ({ dref with animation := h.anims.length, interactions := h.inters.length, schema := h.schemas.length, scrollToView := h.scrolls.length } : OptionsRef)).interactions.closeOnSecondClick, closeNestedOnParentClose := opts.interactions.closeNestedOnParentClose.getD (readOptions (cfg.foldl (fun x p => applyAttributeH x ({ dref with animation := h.anims.length, interactions := h.inters.length, schema := h.schemas.length, scrollToView := h.scrolls.length } : OptionsRef) p.1 p.2) ({ anims := h.anims ++ [(readOptions h dref).animation], inters := h.inters ++ [(readOptions h dref).interactions], schemas := h.schemas ++ [(readOptions h dref).schema], scrolls := h.scrolls ++ [(readOptions h dref).scrollToView] } : Heap)) ({ dref with animation := h.anims.length, interactions := h.inters.length, schema := h.schemas.length, scrollToView := h.scrolls.length } : OptionsRef)).interactions.closeNestedOnParentClose } : InteractionOptions)])[(cfg.foldl (fun x p => applyAttributeH x ({ dref with animation := h.anims.length, interactions := h.inters.length, schema := h.schemas.length, scrollToView := h.scrolls.length } : OptionsRef) p.1 p.2) ({ anims := h.anims ++ [(readOptions h dref).animation], inters := h.inters ++ [(readOptions h dref).interactions], schemas := h.schemas ++ [(readOptions h dref).schema], scrolls := h.scrolls ++ [(readOptions h dref).scrollToView] } : Heap)).inters.length]?).getD defaultOptions.interactions, schema := (((cfg.foldl (fun x p => applyAttributeH x ({ dref with animation := h.anims.length, interactions := h.inters.length, schema := h.schemas.length, scrollToView := h.scrolls.length } : OptionsRef) p.1 p.2) ({ anims := h.anims ++ [(readOptions h dref).animation], inters := h.inters ++ [(readOptions h dref).interactions], schemas := h.schemas ++ [(readOptions h dref).schema], scrolls := h.scrolls ++ [(readOptions h dref).scrollToView] } : Heap)).schemas ++ [({ enabled := opts.schema.enabled.getD (readOptions (cfg.foldl (fun x p => applyAttributeH x ({ dref with animation := h.anims.length, interactions := h.inters.length, schema := h.schemas.length, scrollToView := h.scrolls.length } : OptionsRef) p.1 p.2) ({ anims := h.anims ++ [(readOptions h dref).animation], inters := h.inters ++ [(readOptions h dref).interactions], schemas := h.schemas ++ [(readOptions h dref).schema], scrolls := h.scrolls ++ [(readOptions h dref).scrollToView] } : Heap)) ({ dref with animation := h.anims.length, interactions := h.inters.length, schema := h.schemas.length, scrollToView := h.scrolls.length } : OptionsRef)).schema.enabled } : SchemaOptions)])[(cfg.foldl (fun x p => applyAttributeH x ({ dref with animation := h.anims.length, interactions := h.inters.length, schema := h.schemas.length, scrollToView := h.scrolls.length } : OptionsRef) p.1 p.2) ({ anims := h.anims ++ [(readOptions h dref).animation], inters := h.inters ++ [(readOptions h dref).interactions], schemas := h.schemas ++ [(readOptions h dref).schema], scrolls := h.scrolls ++ [(readOptions h dref).scrollToView] } : Heap)).schemas.length]?).getD defaultOptions.schema, scrollToView := (((cfg.foldl (fun x p => applyAttributeH x ({ dref with animation := h.anims.length, interactions := h.inters.length, schema := h.schemas.length, scrollToView := h.scrolls.length } : OptionsRef) p.1 p.2) ({ anims := h.anims ++ [(readOptions h dref).animation], inters := h.inters ++ [(readOptions h dref).interactions], schemas := h.schemas ++ [(readOptions h dref).schema], scrolls := h.scrolls ++ [(readOptions h dref).scrollToView] } : Heap)).scrolls ++ [({ enabled := opts.scrollToView.enabled.getD (readOptions (cfg.foldl (fun x p => applyAttributeH x ({ dref with animation := h.anims.length, interactions := h.inters.length, schema := h.schemas.length, scrollToView := h.scrolls.length } : OptionsRef) p.1 p.2) ({ anims := h.anims ++ [(readOptions h dref).animation], inters := h.inters ++ [(readOptions h dref).interactions], schemas := h.schemas ++ [(readOptions h dref).schema], scrolls := h.scrolls ++ [(readOptions h dref).scrollToView] } : Heap)) ({ dref with animation := h.anims.length, interactions := h.inters.length, schema := h.schemas.length, scrollToView := h.scrolls.length } : OptionsRef)).scrollToView.enabled, delay := opts.scrollToView.delay.getD (readOptions (cfg.foldl (fun x p => applyAttributeH x ({ dref with animation := h.anims.length, interactions := h.inters.length, schema := h.schemas.length, scrollToView := h.scrolls.length } : OptionsRef) p.1 p.2) ({ anims := h.anims ++ [(readOptions h dref).animation], inters := h.inters ++ [(readOptions h dref).interactions], schemas := h.schemas ++ [(readOptions h dref).schema], scrolls := h.scrolls ++ [(readOptions h dref).scrollToView] } : Heap)) ({ dref with animation := h.anims.length, interactions := h.inters.length, schema := h.schemas.length, scrollToView := h.scrolls.length } : OptionsRef)).scrollToView.delay } : ScrollToViewOptions)])[(cfg.foldl (fun x p => applyAttributeH x ({ dref with animation := h.anims.length, interactions := h.inters.length, schema := h.schemas.length, scrollToView := h.scrolls.length } : OptionsRef) p.1 p.2) ({ anims := h.anims ++ [(readOptions h dref).animation], inters := h.inters ++ [(readOptions h dref).interactions], schemas := h.schemas ++ [(readOptions h dref).schema], scrolls := h.scrolls ++ [(readOptions h dref).scrollToView] } : Heap)).scrolls.length]?).getD defaultOptions.scrollToView } : AccordionOptions) = _
    rw [List.getElem?_concat_length, List.getElem?_concat_length,
      List.getElem?_concat_length, List.getElem?_concat_length]
    simp only [Option.getD_some]
    unfold mergeOptions
    simp only []
    rw [← hM]

def c10h : Heap :=
  { anims := [defaultOptions.animation], inters := [defaultOptions.interactions],
    schemas := [defaultOptions.schema], scrolls := [defaultOptions.scrollToView] }

def c10dref : OptionsRef :=
  { containerSelector := defaultOptions.containerSelector, itemSelector := defaultOptions.itemSelector,
    headerSelector := defaultOptions.headerSelector, bodySelector := defaultOptions.bodySelector,
    iconSelector := defaultOptions.iconSelector, activeClass := defaultOptions.activeClass,
    animation := 0, interactions := 0, schema := 0, scrollToView := 0 }

theorem mergeOptions_no_defaults_mutation_witness :
    readOptions (mergeOptionsH c10h c10dref wCfg wOpts).1 c10dref = readOptions c10h c10dref ∧
    c10h.anims.length < (mergeOptionsH c10h c10dref wCfg wOpts).2.animation ∧
    readOptions (mergeOptionsH c10h c10dref wCfg wOpts).1 (mergeOptionsH c10h c10dref wCfg wOpts).2 =
      mergeOptions (readOptions c10h c10dref) wCfg wOpts := by
  have h := mergeOptions_no_defaults_mutation c10h c10dref wCfg wOpts
    (by decide) (by decide) (by decide) (by decide)
  exact ⟨h.2.2.2.2.1, h.2.2.2.2.2.1.1, h.2.2.2.2.2.2⟩

/-! ## Fragment navigation (src/hybrid-accordion.js lines 348–398, 676–761) -/

/-- `findItemById` (lines 696–703): walk the registry in order, in each
    accordion find the first item whose element id equals the target. -/
def findItemByIdAux (tid : List Char) : List AccState → Nat → Option Addr
  | [], _ => none
  | acc :: rest, a =>
    match acc.items.findIdx? (fun it => it.id == some tid) with
    | some i => some (a, i)
    | none => findItemByIdAux tid rest (a + 1)

def findItemById (reg : Registry) (tid : List Char) : Option Addr :=
  findItemByIdAux tid reg 0

/-- The item lookup of `getAncestors` (lines 749–755): the first item of
    the first registered accordion whose element is `el`. -/
def findItemByElementAux (el : Nat) : List AccState → Nat → Option Addr
  | [], _ => none
  | acc :: rest, a =>
    match acc.items.findIdx? (fun it => it.element == el) with
    | some i => some (a, i)
    | none => findItemByElementAux el rest (a + 1)

def findItemByElement (reg : Registry) (el : Nat) : Option Addr :=
  findItemByElementAux el reg 0

/-- The slug characters `generateUniqueId` keeps: `[a-z0-9\s-]`
    (line 377, after lower-casing). -/
def isSlugKeep (c : Char) : Bool :=
  (decide (97 ≤ c.toNat) && decide (c.toNat ≤ 122)) ||
  (decide (48 ≤ c.toNat) && decide (c.toNat ≤ 57)) ||
  isJsWhitespace c || c = Char.ofNat 45

/-- Collapse runs of hyphens to a single hyphen (the hyphen-run replace
    of line 379; together with the whitespace map this also realises the
    whitespace-run replace of line 378, a whitespace run becoming a
    hyphen run first). -/
def collapseHyphens : List Char → List Char
  | [] => []
  | [c] => [c]
  | c :: d :: rest =>
    if c = Char.ofNat 45 && d = Char.ofNat 45 then collapseHyphens (d :: rest)
    else c :: collapseHyphens (d :: rest)

/-- The edge-hyphen replace of line 380: drop one leading and one
    trailing hyphen. -/
def stripEdgeHyphens (l : List Char) : List Char :=
  let l1 := match l with
    | c :: rest => if c = Char.ofNat 45 then rest else l
    | [] => l
  if l1.getLast? = some (Char.ofNat 45) then l1.dropLast else l1

/-- The slug pipeline of `generateUniqueId` (lines 371–387) for an item
    with no id: trim the header text; when non-empty, lower-case, keep
    only `[a-z0-9\s-]`, turn whitespace into hyphens, collapse and strip
    hyphens and cap at 50 characters; fall back to `accordion-item` when
    empty. -/
def slugify (headerText : String) : List Char :=
  let t := jsTrim headerText.data
  if t.isEmpty then "accordion-item".data
  else
    let s5 := (stripEdgeHyphens (collapseHyphens
      (((t.map Char.toLower).filter isSlugKeep).map
        (fun c => if isJsWhitespace c then Char.ofNat 45 else c)))).take 50
    if s5.isEmpty then "accordion-item".data else s5

/-- The uniqueness loop of `generateUniqueId` (lines 390–396): try the
    base id, then `base-1`, `base-2`, … until no document element holds
    the candidate (fuel bounds the loop; any fuel beyond the number of
    taken ids is exact). -/
def uniqueFrom (docIds : List (List Char)) (base : List Char) :
    Nat → List Char → Nat → List Char
  | 0, cand, _ => cand
  | f + 1, cand, counter =>
    if docIds.contains cand then
      uniqueFrom docIds base f (base ++ Char.ofNat 45 :: (Nat.repr counter).data) (counter + 1)
    else cand

def generateUniqueId (docIds : List (List Char)) (fuel : Nat) (headerText : String) :
    List Char :=
  uniqueFrom docIds (slugify headerText) fuel (slugify headerText) 1

/-- Every item address of the registry, in iteration order. -/
def allAddrs (reg : Registry) : List Addr :=
  ((List.range reg.length).map (fun a =>
    match reg[a]? with
    | none => []
    | some acc => (List.range acc.items.length).map (fun i => (a, i)))).flatten

/-- One item of the `generateMissingIds` double loop (lines 705–713):
    an item with no element id gets a generated one, which from then on
    is taken in the document. -/
def genIdStep (fuel : Nat) (st : Registry × List (List Char)) (ad : Addr) :
    Registry × List (List Char) :=
  match getItem? st.1 ad with
  | none => st
  | some it =>
    match it.id with
    | some _ => st
    | none =>
      let newId := generateUniqueId st.2 fuel it.headerText
      (modifyItem st.1 ad (fun j => { j with id := some newId }), st.2 ++ [newId])

def generateMissingIds (fuel : Nat) (reg : Registry) (docIds : List (List Char)) :
    Registry × List (List Char) :=
  (allAddrs reg).foldl (genIdStep fuel) (reg, docIds)

/-- The `getAncestors` walk (lines 744–761) from a current element
    (`none` models a null `parentElement`): stop at the document body;
    each visited element that is some registered item's element is
    prepended, so the outermost ancestor ends first. -/
def getAncestorsFrom (dom : Dom) (reg : Registry) : Nat → Option Nat → List Addr
  | 0, _ => []
  | _ + 1, none => []
  | f + 1, some el =>
    if el = dom.body then []
    else
      getAncestorsFrom dom reg f (dom.parent el) ++
        (match findItemByElement reg el with
         | some ad => [ad]
         | none => [])

/-- The close pass of `navigateToItem` (lines 720–728), for one item:
    close it when it is open and is neither the target nor an ancestor. -/
def navCloseStep (dom : Dom) (fuel : Nat) (tad : Addr) (anc : List Addr)
    (r : Registry) (ad : Addr) : Registry :=
  if ad = tad || anc.contains ad then r
  else
    match getItem? r ad with
    | some it => if it.isOpen then closeItem dom fuel r ad else r
    | none => r

/-- The open pass of `navigateToItem` (lines 730–733), for one item of
    `[...ancestors, targetItem]`: open it unless it is already open. -/
def navOpenStep (dom : Dom) (fuel : Nat) (r : Registry) (ad : Addr) : Registry :=
  match getItem? r ad with
  | some it => if it.isOpen then r else openItem dom fuel r ad.1 ad.2
  | none => r

/-- `navigateToItem` (lines 716–741): compute the ancestor chain, close
    every open item that is neither the target nor an ancestor, then walk
    `[...ancestors, targetItem]` — outermost ancestor first, target last —
    opening each item not already open.  (The deferred
    `scrollIntoView` timer is not part of the synchronous state.) -/
def navigateToItem (dom : Dom) (fuel : Nat) (reg : Registry) (tad : Addr) : Registry :=
  match getItem? reg tad with
  | none => reg
  | some tit =>
    let anc := getAncestorsFrom dom reg fuel (dom.parent tit.element)
    let reg1 := (allAddrs reg).foldl (navCloseStep dom fuel tad anc) reg
    (anc ++ [tad]).foldl (navOpenStep dom fuel) reg1

/-- `processUrlHash` (lines 676–694): nothing for an empty fragment;
    otherwise resolve by exact id, on a miss generate missing ids and
    retry exactly once, and navigate on a hit. -/
def processUrlHash (dom : Dom) (fuel : Nat) (reg : Registry) (docIds : List (List Char))
    (hash : List Char) : Registry × List (List Char) :=
  if hash.length ≤ 1 then (reg, docIds)
  else
    let tid := hash.drop 1
    match findItemById reg tid with
    | some ad => (navigateToItem dom fuel reg ad, docIds)
    | none =>
      let st2 := generateMissingIds fuel reg docIds
      match findItemById st2.1 tid with
      | some ad => (navigateToItem dom fuel st2.1 ad, st2.2)
      | none => st2

/-- No registered accordion closes nested items on parent close. -/
def NoNestedClose (r : Registry) : Prop :=
  ∀ (b : Nat) (accb : AccState), r[b]? = some accb →
    accb.options.interactions.closeNestedOnParentClose = false

theorem noNestedClose_of_accMap {r r' : Registry}
    (h : ∀ b : Nat, (r'[b]?).map accData = (r[b]?).map accData) (hn : NoNestedClose r) :
    NoNestedClose r' := by
  intro b accb hb
  have hm := h b
  rw [hb, Option.map_some'] at hm
  cases hx : r[b]? with
  | none => rw [hx, Option.map_none'] at hm; cases hm
  | some acc0 =>
    rw [hx, Option.map_some'] at hm
    have hopts : accb.options = acc0.options :=
      congrArg (fun t => t.2.1) (Option.some_inj.mp hm)
    rw [hopts]
    exact hn b acc0 hx

/-- Without the nested-close cascade, `close()` touches only its own
    item. -/
theorem getItem?_closeItem_ne (dom : Dom) (f : Nat) (r : Registry) (ad : Addr)
    (hn : NoNestedClose r) (ad' : Addr) (hne : ad' ≠ ad) :
    getItem? (closeItem dom (f + 1) r ad) ad' = getItem? r ad' := by
  unfold closeItem
  split
  next => rfl
  next acc ha =>
    split
    next => rfl
    next it hi =>
      simp only []
      rw [if_neg (by rw [hn ad.1 acc ha]; exact Bool.false_ne_true)]
      rw [getItem?_modifyItem_ne _ _ _ _ hne, getItem?_modifyItem_ne _ _ _ _ hne]

theorem closeItem_closes_idData (dom : Dom) (f : Nat) (r : Registry) (ad : Addr)
    (it0 : ItemState) (hit0 : getItem? r ad = some it0) :
    ∃ it', getItem? (closeItem dom (f + 1) r ad) ad = some it' ∧ it'.isOpen = false ∧
      itemIdData it' = itemIdData it0 := by
  have hev := closeEvolves_closeItem dom (f + 1) r ad
  obtain ⟨it', hit'⟩ := getItem?_some_of_shape hev.1 hit0
  exact ⟨it', hit', closeItem_closes dom f r ad it' hit', hev.1.2 ad it0 it' hit0 hit'⟩

theorem navCloseStep_accData (dom : Dom) (f : Nat) (tad : Addr) (anc : List Addr)
    (r : Registry) (ad : Addr) :
    ∀ b : Nat, ((navCloseStep dom (f + 1) tad anc r ad)[b]?).map accData =
      (r[b]?).map accData := by
  unfold navCloseStep
  by_cases h0 : (decide (ad = tad) || anc.contains ad) = true
  · rw [if_pos h0]; exact fun b => rfl
  · rw [if_neg h0]
    split
    next it hit =>
      by_cases ho : it.isOpen = true
      · rw [if_pos ho]; exact (closeEvolves_closeItem dom (f + 1) r ad).1.1
      · rw [if_neg ho]; exact fun b => rfl
    next => exact fun b => rfl

theorem navCloseStep_ne (dom : Dom) (f : Nat) (tad : Addr) (anc : List Addr)
    (r : Registry) (ad : Addr) (hn : NoNestedClose r) (ad' : Addr) (hne : ad' ≠ ad) :
    getItem? (navCloseStep dom (f + 1) tad anc r ad) ad' = getItem? r ad' := by
  unfold navCloseStep
  by_cases h0 : (decide (ad = tad) || anc.contains ad) = true
  · rw [if_pos h0]
  · rw [if_neg h0]
    split
    next it hit =>
      by_cases ho : it.isOpen = true
      · rw [if_pos ho]; exact getItem?_closeItem_ne dom f r ad hn ad' hne
      · rw [if_neg ho]
    next => rfl

theorem navCloseStep_closes (dom : Dom) (f : Nat) (tad : Addr) (anc : List Addr)
    (r : Registry) (ad : Addr)
    (hnc : ¬(decide (ad = tad) || anc.contains ad) = true)
    (it0 : ItemState) (hit0 : getItem? r ad = some it0) :
    ∃ it', getItem? (navCloseStep dom (f + 1) tad anc r ad) ad = some it' ∧
      it'.isOpen = false := by
  have hstep : navCloseStep dom (f + 1) tad anc r ad =
      (if it0.isOpen = true then closeItem dom (f + 1) r ad else r) := by
    unfold navCloseStep
    rw [if_neg hnc, hit0]
  by_cases ho : it0.isOpen = true
  · rw [hstep, if_pos ho]
    obtain ⟨it', h1, h2, -⟩ := closeItem_closes_idData dom f r ad it0 hit0
    exact ⟨it', h1, h2⟩
  · rw [hstep, if_neg ho]
    refine ⟨it0, hit0, ?_⟩
    cases hbo : it0.isOpen with
    | false => rfl
    | true => exact absurd hbo ho

theorem navClose_fold (dom : Dom) (f : Nat) (tad : Addr) (anc : List Addr) :
    ∀ (L : List Addr) (r : Registry), NoNestedClose r →
      (∀ b : Nat, ((L.foldl (navCloseStep dom (f + 1) tad anc) r)[b]?).map accData =
        (r[b]?).map accData) ∧
      (∀ ad : Addr, (decide (ad = tad) || anc.contains ad) = true →
        getItem? (L.foldl (navCloseStep dom (f + 1) tad anc) r) ad = getItem? r ad) ∧
      (∀ ad : Addr, ad ∉ L →
        getItem? (L.foldl (navCloseStep dom (f + 1) tad anc) r) ad = getItem? r ad) ∧
      (∀ ad ∈ L, ¬(decide (ad = tad) || anc.contains ad) = true →
        ∀ it0, getItem? r ad = some it0 →
        ∃ it', getItem? (L.foldl (navCloseStep dom (f + 1) tad anc) r) ad = some it' ∧
          it'.isOpen = false) := by
  intro L
  induction L with
  | nil =>
    intro r hn
    exact ⟨fun b => rfl, fun ad _ => rfl, fun ad _ => rfl,
      fun ad h => absurd h (List.not_mem_nil ad)⟩
  | cons ad0 L ih =>
    intro r hn
    have hstep_acc := navCloseStep_accData dom f tad anc r ad0
    have hn' : NoNestedClose (navCloseStep dom (f + 1) tad anc r ad0) :=
      noNestedClose_of_accMap hstep_acc hn
    obtain ⟨i1, i2, i3, i4⟩ := ih (navCloseStep dom (f + 1) tad anc r ad0) hn'
    rw [List.foldl_cons]
    refine ⟨fun b => (i1 b).trans (hstep_acc b), ?_, ?_, ?_⟩
    · intro ad hch
      rw [i2 ad hch]
      by_cases h0 : ad = ad0
      · subst h0
        unfold navCloseStep
        rw [if_pos hch]
      · exact navCloseStep_ne dom f tad anc r ad0 hn ad h0
    · intro ad hnm
      have hnm' : ad ∉ L := fun hL => hnm (List.mem_cons_of_mem _ hL)
      have hne : ad ≠ ad0 := fun he => hnm (he ▸ List.mem_cons_self ad0 L)
      rw [i3 ad hnm', navCloseStep_ne dom f tad anc r ad0 hn ad hne]
    · intro ad hmem hnc it0 hit0
      by_cases h0 : ad = ad0
      · subst h0
        obtain ⟨it1, hit1, hcl⟩ := navCloseStep_closes dom f tad anc r ad hnc it0 hit0
        by_cases hL : ad ∈ L
        · exact i4 ad hL hnc it1 hit1
        · exact ⟨it1, by rw [i3 ad hL]; exact hit1, hcl⟩
      · have hL : ad ∈ L := by
          rcases List.mem_cons.mp hmem with he | hL
          · exact absurd he h0
          · exact hL
        have hstill : getItem? (navCloseStep dom (f + 1) tad anc r ad0) ad = some it0 := by
          rw [navCloseStep_ne dom f tad anc r ad0 hn ad h0]
          exact hit0
        exact i4 ad hL hnc it0 hstill

theorem allAddrs_complete (reg : Registry) (ad : Addr) (it : ItemState)
    (hit : getItem? reg ad = some it) : ad ∈ allAddrs reg := by
  obtain ⟨acc, ha, hi⟩ := getItem?_eq_some_iff.mp hit
  unfold allAddrs
  rw [List.mem_flatten]
  refine ⟨(List.range acc.items.length).map (fun i => (ad.1, i)), ?_, ?_⟩
  · rw [List.mem_map]
    refine ⟨ad.1, List.mem_range.mpr (List.getElem?_eq_some.mp ha).1, ?_⟩
    show (match reg[ad.1]? with
      | none => ([] : List Addr)
      | some acc' => (List.range acc'.items.length).map (fun i => (ad.1, i))) = _
    rw [ha]
  · rw [List.mem_map]
    exact ⟨ad.2, List.mem_range.mpr (List.getElem?_eq_some.mp hi).1, rfl⟩

theorem openItem_none (dom : Dom) (fuel : Nat) (reg : Registry) (a i : Nat)
    (hacc : reg[a]? = none) : openItem dom fuel reg a i = reg := by
  unfold openItem
  rw [hacc]

theorem openItem_eq_general (dom : Dom) (fuel : Nat) (reg : Registry) (a i : Nat)
    (acc : AccState) (hacc : reg[a]? = some acc) :
    openItem dom fuel reg a i =
      handleOpen (modifyItem
        (if acc.options.interactions.singleOpen then
          closeAllExcept dom fuel (modifyItem reg (a, i) (fun j => { j with passes := j.passes + 1 })) a i
        else reg)
        (a, i) (fun j => { j with isOpen := true, active := true, openAttr := if j.isSemanticHTML then true else j.openAttr })) a i := by
  unfold openItem
  rw [hacc]

/-- `open()` always ends with the item's `isOpen` set (single-open or
    not). -/
theorem openItem_opens (dom : Dom) (f : Nat) (reg : Registry) (a i : Nat)
    (acc : AccState) (hacc : reg[a]? = some acc) (hi : i < acc.items.length) :
    (getItem? (openItem dom (f + 1) reg a i) (a, i)).map (fun it => it.isOpen) = some true := by
  rw [openItem_eq_general dom (f + 1) reg a i acc hacc]
  rw [isOpen_handleOpen, getItem?_modifyItem_self]
  have hit0 : getItem? reg (a, i) = some (acc.items[i]) := by
    rw [getItem?_eq_some_iff]
    exact ⟨acc, hacc, List.getElem?_eq_getElem hi⟩
  by_cases hs : acc.options.interactions.singleOpen = true
  · rw [if_pos hs]
    have hRPi : getItem? (modifyItem reg (a, i) (fun j => { j with passes := j.passes + 1 })) (a, i) =
        some { acc.items[i] with passes := (acc.items[i]).passes + 1 } := by
      rw [getItem?_modifyItem_self, hit0, Option.map_some']
    obtain ⟨x, hx⟩ : ∃ x, getItem? (closeAllExcept dom (f + 1)
        (modifyItem reg (a, i) (fun j => { j with passes := j.passes + 1 })) a i) (a, i) = some x := by
      have hs2 := getItem?_isSome_of_acc (closeEvolves_closeAllExcept dom (f + 1)
        (modifyItem reg (a, i) (fun j => { j with passes := j.passes + 1 })) a i).1.1 (a, i)
      rw [hRPi] at hs2
      exact Option.isSome_iff_exists.mp (by rw [hs2]; rfl)
    rw [hx, Option.map_some', Option.map_some']
  · rw [if_neg hs, hit0, Option.map_some', Option.map_some']

theorem openItem_mono_ne (dom : Dom) (f : Nat) (reg : Registry) (a i : Nat)
    (ad : Addr) (hne : ad ≠ (a, i)) (it it' : ItemState)
    (hit : getItem? reg ad = some it)
    (hit' : getItem? (openItem dom (f + 1) reg a i) ad = some it')
    (ho : it'.isOpen = true) : it.isOpen = true := by
  cases hacc : reg[a]? with
  | none =>
    rw [openItem_none dom (f + 1) reg a i hacc, hit] at hit'
    rw [Option.some_inj.mp hit']
    exact ho
  | some acc =>
    rw [openItem_eq_general dom (f + 1) reg a i acc hacc] at hit'
    rw [getItem?_handleOpen_ne _ _ _ _ hne, getItem?_modifyItem_ne _ _ _ _ hne] at hit'
    by_cases hs : acc.options.interactions.singleOpen = true
    · rw [if_pos hs] at hit'
      have hmid : getItem? (modifyItem reg (a, i) (fun j => { j with passes := j.passes + 1 })) ad =
          some it := by
        rw [getItem?_modifyItem_ne _ _ _ _ hne]
        exact hit
      exact (closeEvolves_closeAllExcept dom (f + 1)
        (modifyItem reg (a, i) (fun j => { j with passes := j.passes + 1 })) a i).2
        ad it it' hmid hit' ho
    · rw [if_neg hs, hit] at hit'
      rw [Option.some_inj.mp hit']
      exact ho

theorem closeAllExcept_fold_untouched (dom : Dom) (f : Nat) (a excl : Nat) :
    ∀ (L : List Nat) (r : Registry), NoNestedClose r →
      ∀ ad : Addr, ad ≠ (a, excl) →
      (ad.1 ≠ a ∨ (∀ itj ite, getItem? r ad = some itj → getItem? r (a, excl) = some ite →
        dom.parent itj.element ≠ dom.parent ite.element)) →
      getItem? (L.foldl (closeAllExceptStep dom (f + 1) a excl) r) ad = getItem? r ad := by
  intro L
  induction L with
  | nil => intro r _ ad _ _; rfl
  | cons j L ih =>
    intro r hn ad hne hcond
    rw [List.foldl_cons]
    have s1 : getItem? (closeAllExceptStep dom (f + 1) a excl r j) ad = getItem? r ad := by
      unfold closeAllExceptStep
      by_cases hj : j = excl
      · rw [if_pos hj]
      · rw [if_neg hj]
        split
        next itj ite hitj hite =>
          by_cases hg : (itj.isOpen && (dom.parent itj.element == dom.parent ite.element)) = true
          · rw [if_pos hg]
            have hadj : ad ≠ (a, j) := by
              intro he
              subst he
              rcases hcond with hc1 | hc2
              · exact hc1 rfl
              · rw [Bool.and_eq_true] at hg
                exact hc2 itj ite hitj hite (beq_iff_eq.mp hg.2)
            exact getItem?_closeItem_ne dom f r (a, j) hn ad hadj
          · rw [if_neg hg]
        next => rfl
    have s2 : getItem? (closeAllExceptStep dom (f + 1) a excl r j) (a, excl) =
        getItem? r (a, excl) := by
      unfold closeAllExceptStep
      by_cases hj : j = excl
      · rw [if_pos hj]
      · rw [if_neg hj]
        split
        next itj ite hitj hite =>
          by_cases hg : (itj.isOpen && (dom.parent itj.element == dom.parent ite.element)) = true
          · rw [if_pos hg]
            refine getItem?_closeItem_ne dom f r (a, j) hn (a, excl) ?_
            intro he
            exact hj (congrArg Prod.snd he).symm
          · rw [if_neg hg]
        next => rfl
    have s3 : NoNestedClose (closeAllExceptStep dom (f + 1) a excl r j) :=
      noNestedClose_of_accMap (closeEvolves_closeAllExceptStep dom (f + 1) a excl r j).1.1 hn
    rw [ih (closeAllExceptStep dom (f + 1) a excl r j) s3 ad hne ?hc, s1]
    case hc =>
      rcases hcond with h | h
      · exact Or.inl h
      · refine Or.inr (fun itj ite h1 h2 => ?_)
        rw [s1] at h1
        rw [s2] at h2
        exact h itj ite h1 h2

/-- Under distinct parents (or a different accordion), `open()` on
    another item leaves this address fully untouched. -/
theorem openItem_untouched (dom : Dom) (f : Nat) (reg : Registry) (a i : Nat)
    (hn : NoNestedClose reg) (ad : Addr) (hne : ad ≠ (a, i))
    (hcond : ad.1 ≠ a ∨ (∀ itj iti, getItem? reg ad = some itj → getItem? reg (a, i) = some iti →
      dom.parent itj.element ≠ dom.parent iti.element)) :
    getItem? (openItem dom (f + 1) reg a i) ad = getItem? reg ad := by
  cases hacc : reg[a]? with
  | none => rw [openItem_none dom (f + 1) reg a i hacc]
  | some acc =>
    rw [openItem_eq_general dom (f + 1) reg a i acc hacc]
    rw [getItem?_handleOpen_ne _ _ _ _ hne, getItem?_modifyItem_ne _ _ _ _ hne]
    by_cases hs : acc.options.interactions.singleOpen = true
    · rw [if_pos hs]
      have hmne : getItem? (modifyItem reg (a, i) (fun j => { j with passes := j.passes + 1 })) ad =
          getItem? reg ad := getItem?_modifyItem_ne _ _ _ _ hne
      have hnP : NoNestedClose (modifyItem reg (a, i) (fun j => { j with passes := j.passes + 1 })) :=
        noNestedClose_of_accMap (acc_modifyItem reg (a, i) _) hn
      unfold closeAllExcept
      cases haccP : (modifyItem reg (a, i) (fun j => { j with passes := j.passes + 1 }))[a]? with
      | none => exact hmne
      | some accP =>
        rw [closeAllExcept_fold_untouched dom f a i (List.range accP.items.length) _ hnP ad hne ?hc,
          hmne]
        case hc =>
          rcases hcond with h | h
          · exact Or.inl h
          · refine Or.inr (fun itj iti h1 h2 => ?_)
            rw [hmne] at h1
            rw [getItem?_modifyItem_self] at h2
            obtain ⟨iti0, hi0, hmap⟩ := Option.map_eq_some'.mp h2
            cases hmap
            exact h itj iti0 h1 hi0
    · rw [if_neg hs]

theorem shapeEvolves_navOpenStep (dom : Dom) (fuel : Nat) (r : Registry) (ad : Addr) :
    ShapeEvolves r (navOpenStep dom fuel r ad) := by
  unfold navOpenStep
  split
  next it hit =>
    by_cases ho : it.isOpen = true
    · rw [if_pos ho]; exact shapeEvolves_refl r
    · rw [if_neg ho]; exact shapeEvolves_openItem dom fuel r ad.1 ad.2
  next => exact shapeEvolves_refl r

theorem navOpen_fold (dom : Dom) (f : Nat) :
    ∀ (cs : List Addr) (r : Registry) (keep : List Addr),
      NoNestedClose r →
      (∀ ad ∈ cs, (getItem? r ad).isSome = true) →
      (∀ ad1 ∈ keep ++ cs, ∀ ad2 ∈ keep ++ cs, ad1 ≠ ad2 →
        ∀ it1 it2, getItem? r ad1 = some it1 → getItem? r ad2 = some it2 →
        dom.parent it1.element ≠ dom.parent it2.element) →
      (keep ++ cs).Nodup →
      (∀ ad ∈ keep, (getItem? r ad).map (fun it => it.isOpen) = some true) →
      (∀ ad ∈ keep ++ cs,
        (getItem? (cs.foldl (navOpenStep dom (f + 1)) r) ad).map (fun it => it.isOpen) =
          some true) ∧
      (∀ ad : Addr, ad ∉ keep ++ cs → ∀ it it', getItem? r ad = some it →
        getItem? (cs.foldl (navOpenStep dom (f + 1)) r) ad = some it' →
        it'.isOpen = true → it.isOpen = true) ∧
      ShapeEvolves r (cs.foldl (navOpenStep dom (f + 1)) r) := by
  intro cs
  induction cs with
  | nil =>
    intro r keep hn hv hd hnd hopen
    refine ⟨?_, ?_, shapeEvolves_refl r⟩
    · intro ad hmem
      exact hopen ad (by simpa using hmem)
    · intro ad _ it it' hit hit' ho
      have hit'' : getItem? r ad = some it' := hit'
      rw [hit] at hit''
      rw [Option.some_inj.mp hit'']
      exact ho
  | cons ad0 cs ih =>
    intro r keep hn hv hd hnd hopen
    have hmem0 : ad0 ∈ keep ++ ad0 :: cs := List.mem_append_right _ (List.mem_cons_self ad0 cs)
    obtain ⟨it0, hit0⟩ := Option.isSome_iff_exists.mp (hv ad0 (List.mem_cons_self ad0 cs))
    have hshapeS : ShapeEvolves r (navOpenStep dom (f + 1) r ad0) :=
      shapeEvolves_navOpenStep dom (f + 1) r ad0
    have hstep : navOpenStep dom (f + 1) r ad0 =
        (if it0.isOpen = true then r else openItem dom (f + 1) r ad0.1 ad0.2) := by
      unfold navOpenStep
      rw [hit0]
    -- the step opens (or keeps open) ad0
    have hA : (getItem? (navOpenStep dom (f + 1) r ad0) ad0).map (fun it => it.isOpen) =
        some true := by
      rw [hstep]
      by_cases ho : it0.isOpen = true
      · rw [if_pos ho, hit0, Option.map_some', ho]
      · rw [if_neg ho]
        obtain ⟨acc, ha, hi⟩ := getItem?_eq_some_iff.mp hit0
        exact openItem_opens dom f r ad0.1 ad0.2 acc ha (List.getElem?_eq_some.mp hi).1
    -- the step leaves every other chain member untouched
    have hB : ∀ ad, ad ∈ keep ++ ad0 :: cs → ad ≠ ad0 →
        getItem? (navOpenStep dom (f + 1) r ad0) ad = getItem? r ad := by
      intro ad hmem hne
      rw [hstep]
      by_cases ho : it0.isOpen = true
      · rw [if_pos ho]
      · rw [if_neg ho]
        refine openItem_untouched dom f r ad0.1 ad0.2 hn ad hne (Or.inr ?_)
        intro itj iti h1 h2
        exact hd ad hmem ad0 hmem0 hne itj iti h1 h2
    have hnS : NoNestedClose (navOpenStep dom (f + 1) r ad0) :=
      noNestedClose_of_accMap hshapeS.1 hn
    -- transports to the stepped registry
    have hvS : ∀ ad ∈ cs, (getItem? (navOpenStep dom (f + 1) r ad0) ad).isSome = true := by
      intro ad hm
      rw [getItem?_isSome_of_acc hshapeS.1 ad]
      exact hv ad (List.mem_cons_of_mem _ hm)
    have hmemEq : ∀ ad : Addr, ad ∈ (keep ++ [ad0]) ++ cs ↔ ad ∈ keep ++ ad0 :: cs := by
      intro ad
      rw [List.append_assoc]
      rfl
    have hdS : ∀ ad1 ∈ (keep ++ [ad0]) ++ cs, ∀ ad2 ∈ (keep ++ [ad0]) ++ cs, ad1 ≠ ad2 →
        ∀ it1 it2, getItem? (navOpenStep dom (f + 1) r ad0) ad1 = some it1 →
        getItem? (navOpenStep dom (f + 1) r ad0) ad2 = some it2 →
        dom.parent it1.element ≠ dom.parent it2.element := by
      intro ad1 hm1 ad2 hm2 hne it1 it2 h1 h2
      obtain ⟨it1o, h1o⟩ : ∃ x, getItem? r ad1 = some x := by
        refine Option.isSome_iff_exists.mp ?_
        rw [← getItem?_isSome_of_acc hshapeS.1 ad1, h1]
        rfl
      obtain ⟨it2o, h2o⟩ : ∃ x, getItem? r ad2 = some x := by
        refine Option.isSome_iff_exists.mp ?_
        rw [← getItem?_isSome_of_acc hshapeS.1 ad2, h2]
        rfl
      have he1 : it1.element = it1o.element :=
        congrArg (fun t => t.1) (hshapeS.2 ad1 it1o it1 h1o h1)
      have he2 : it2.element = it2o.element :=
        congrArg (fun t => t.1) (hshapeS.2 ad2 it2o it2 h2o h2)
      rw [he1, he2]
      exact hd ad1 ((hmemEq ad1).mp hm1) ad2 ((hmemEq ad2).mp hm2) hne it1o it2o h1o h2o
    have hndS : ((keep ++ [ad0]) ++ cs).Nodup := by
      rw [List.append_assoc]
      exact hnd
    have hopenS : ∀ ad ∈ keep ++ [ad0],
        (getItem? (navOpenStep dom (f + 1) r ad0) ad).map (fun it => it.isOpen) = some true := by
      intro ad hm
      rcases List.mem_append.mp hm with hk | hsing
      · have hne : ad ≠ ad0 := by
          intro he
          subst he
          have := List.disjoint_of_nodup_append hnd
          exact this hk (List.mem_cons_self ad cs)
        rw [hB ad (List.mem_append_left _ hk) hne]
        exact hopen ad hk
      · have : ad = ad0 := by simpa using hsing
        subst this
        exact hA
    obtain ⟨j1, j2, j3⟩ := ih (navOpenStep dom (f + 1) r ad0) (keep ++ [ad0]) hnS hvS hdS hndS hopenS
    rw [List.foldl_cons]
    refine ⟨?_, ?_, shapeEvolves_trans hshapeS j3⟩
    · intro ad hmem
      exact j1 ad ((hmemEq ad).mpr hmem)
    · intro ad hnm it it' hit hit' ho
      have hnmS : ad ∉ (keep ++ [ad0]) ++ cs := fun hx => hnm ((hmemEq ad).mp hx)
      obtain ⟨itm, hitm⟩ : ∃ x, getItem? (navOpenStep dom (f + 1) r ad0) ad = some x := by
        refine Option.isSome_iff_exists.mp ?_
        rw [getItem?_isSome_of_acc hshapeS.1 ad, hit]
        rfl
      have hmono1 : itm.isOpen = true := j2 ad hnmS itm it' hitm hit' ho
      -- step-level monotonicity
      rw [hstep] at hitm
      by_cases hop : it0.isOpen = true
      · rw [if_pos hop, hit] at hitm
        rw [Option.some_inj.mp hitm]
        exact hmono1
      · rw [if_neg hop] at hitm
        have hne : ad ≠ ad0 := fun he => hnm (he ▸ hmem0)
        exact openItem_mono_ne dom f r ad0.1 ad0.2 ad hne it itm hit hitm hmono1

theorem findItemByElementAux_correct (el : Nat) :
    ∀ (l : List AccState) (a0 : Nat) (reg : Registry),
      (∀ k : Nat, l[k]? = reg[a0 + k]?) →
      ∀ ad : Addr, findItemByElementAux el l a0 = some ad →
      ∃ it, getItem? reg ad = some it ∧ it.element = el := by
  intro l
  induction l with
  | nil => intro a0 reg _ ad h; exact Option.noConfusion h
  | cons acc rest ih =>
    intro a0 reg hrel ad h
    unfold findItemByElementAux at h
    cases hfi : acc.items.findIdx? (fun it => it.element == el) with
    | some i =>
      rw [hfi] at h
      have had : (a0, i) = ad := Option.some_inj.mp h
      subst had
      obtain ⟨hlt, hp, -⟩ := List.findIdx?_eq_some_iff_getElem.mp hfi
      refine ⟨acc.items[i], ?_, ?_⟩
      · rw [getItem?_eq_some_iff]
        refine ⟨acc, ?_, List.getElem?_eq_getElem hlt⟩
        have h0 := hrel 0
        rw [List.getElem?_cons_zero, Nat.add_zero] at h0
        exact h0.symm
      · exact beq_iff_eq.mp hp
    | none =>
      rw [hfi] at h
      refine ih (a0 + 1) reg ?_ ad h
      intro k
      have hk := hrel (k + 1)
      rw [List.getElem?_cons_succ] at hk
      rw [hk, Nat.add_assoc, Nat.add_comm 1 k]

theorem findItemByElement_correct (reg : Registry) (el : Nat) (ad : Addr)
    (h : findItemByElement reg el = some ad) :
    ∃ it, getItem? reg ad = some it ∧ it.element = el :=
  findItemByElementAux_correct el reg 0 reg (fun k => by rw [Nat.zero_add]) ad h

theorem findItemByIdAux_correct (tid : List Char) :
    ∀ (l : List AccState) (a0 : Nat) (reg : Registry),
      (∀ k : Nat, l[k]? = reg[a0 + k]?) →
      ∀ ad : Addr, findItemByIdAux tid l a0 = some ad →
      ∃ it, getItem? reg ad = some it ∧ it.id = some tid := by
  intro l
  induction l with
  | nil => intro a0 reg _ ad h; exact Option.noConfusion h
  | cons acc rest ih =>
    intro a0 reg hrel ad h
    unfold findItemByIdAux at h
    cases hfi : acc.items.findIdx? (fun it => it.id == some tid) with
    | some i =>
      rw [hfi] at h
      have had : (a0, i) = ad := Option.some_inj.mp h
      subst had
      obtain ⟨hlt, hp, -⟩ := List.findIdx?_eq_some_iff_getElem.mp hfi
      refine ⟨acc.items[i], ?_, ?_⟩
      · rw [getItem?_eq_some_iff]
        refine ⟨acc, ?_, List.getElem?_eq_getElem hlt⟩
        have h0 := hrel 0
        rw [List.getElem?_cons_zero, Nat.add_zero] at h0
        exact h0.symm
      · exact eq_of_beq hp
    | none =>
      rw [hfi] at h
      refine ih (a0 + 1) reg ?_ ad h
      intro k
      have hk := hrel (k + 1)
      rw [List.getElem?_cons_succ] at hk
      rw [hk, Nat.add_assoc, Nat.add_comm 1 k]

theorem findItemById_correct (reg : Registry) (tid : List Char) (ad : Addr)
    (h : findItemById reg tid = some ad) :
    ∃ it, getItem? reg ad = some it ∧ it.id = some tid :=
  findItemByIdAux_correct tid reg 0 reg (fun k => by rw [Nat.zero_add]) ad h

theorem isStrictDescendant_mono (dom : Dom) : ∀ (f f' : Nat), f ≤ f' → ∀ e a : Nat,
    isStrictDescendant dom f e a = true → isStrictDescendant dom f' e a = true := by
  intro f
  induction f with
  | zero => intro f' _ e a h; exact Bool.noConfusion h
  | succ f ih =>
    intro f' hf e a h
    cases f' with
    | zero => omega
    | succ f2 =>
      cases hp : dom.parent e with
      | none =>
        have hh : isStrictDescendant dom (f + 1) e a = true := h
        unfold isStrictDescendant at hh
        rw [hp] at hh
        exact Bool.noConfusion hh
      | some p =>
        have hh : isStrictDescendant dom (f + 1) e a = true := h
        unfold isStrictDescendant at hh
        rw [hp] at hh
        have h' : (decide (p = a) || isStrictDescendant dom f p a) = true := hh
        have hgoal : (decide (p = a) || isStrictDescendant dom f2 p a) = true := by
          rw [Bool.or_eq_true] at h' ⊢
          rcases h' with h1 | h2
          · exact Or.inl h1
          · exact Or.inr (ih f2 (Nat.le_of_succ_le_succ hf) p a h2)
        show isStrictDescendant dom (f2 + 1) e a = true
        unfold isStrictDescendant
        rw [hp]
        exact hgoal

theorem isStrictDescendant_step (dom : Dom) (f : Nat) (e p z : Nat)
    (hp : dom.parent e = some p) (hz : z = p ∨ isStrictDescendant dom f p z = true) :
    isStrictDescendant dom (f + 1) e z = true := by
  have hgoal : (decide (p = z) || isStrictDescendant dom f p z) = true := by
    rw [Bool.or_eq_true]
    rcases hz with rfl | h2
    · exact Or.inl (decide_eq_true rfl)
    · exact Or.inr h2
  unfold isStrictDescendant
  rw [hp]
  exact hgoal

/-- The `getAncestors` walk visits only registered items lying on the
    target's parent chain, and lists them outermost-first: each earlier
    member's element strictly contains every later member's element. -/
theorem getAncestorsFrom_spec (dom : Dom) (reg : Registry) :
    ∀ (f : Nat) (oe : Option Nat),
      (∀ ad ∈ getAncestorsFrom dom reg f oe, ∃ it, getItem? reg ad = some it ∧
        ∃ e, oe = some e ∧ (it.element = e ∨ isStrictDescendant dom f e it.element = true)) ∧
      List.Pairwise (fun x y => ∀ itx ity, getItem? reg x = some itx → getItem? reg y = some ity →
        isStrictDescendant dom f ity.element itx.element = true) (getAncestorsFrom dom reg f oe) := by
  intro f
  induction f with
  | zero =>
    intro oe
    exact ⟨fun ad h => absurd h (List.not_mem_nil ad), List.Pairwise.nil⟩
  | succ f ih =>
    intro oe
    cases oe with
    | none => exact ⟨fun ad h => absurd h (List.not_mem_nil ad), List.Pairwise.nil⟩
    | some e =>
      by_cases hb : e = dom.body
      · have hw : getAncestorsFrom dom reg (f + 1) (some e) = [] := by
          unfold getAncestorsFrom
          rw [if_pos hb]
        rw [hw]
        exact ⟨fun ad h => absurd h (List.not_mem_nil ad), List.Pairwise.nil⟩
      · have hw : getAncestorsFrom dom reg (f + 1) (some e) =
            getAncestorsFrom dom reg f (dom.parent e) ++
              (match findItemByElement reg e with
               | some ad => [ad]
               | none => []) := by
          show (if e = dom.body then [] else
            getAncestorsFrom dom reg f (dom.parent e) ++
              (match findItemByElement reg e with
               | some ad => [ad]
               | none => [])) = _
          rw [if_neg hb]
        obtain ⟨ihm, ihp⟩ := ih (dom.parent e)
        rw [hw]
        constructor
        · intro ad hmem
          rcases List.mem_append.mp hmem with hA | hB
          · obtain ⟨it, hit, p, hpp, hd⟩ := ihm ad hA
            refine ⟨it, hit, e, rfl, Or.inr ?_⟩
            exact isStrictDescendant_step dom f e p it.element hpp
              (by rcases hd with h1 | h2
                  · exact Or.inl h1
                  · exact Or.inr h2)
          · cases hfe : findItemByElement reg e with
            | none => rw [hfe] at hB; exact absurd hB (List.not_mem_nil ad)
            | some ad0 =>
              rw [hfe] at hB
              have : ad = ad0 := by simpa using hB
              subst this
              obtain ⟨it, hit, hel⟩ := findItemByElement_correct reg e ad hfe
              exact ⟨it, hit, e, rfl, Or.inl hel⟩
        · rw [List.pairwise_append]
          refine ⟨?_, ?_, ?_⟩
          · refine ihp.imp ?_
            intro x y hr itx ity hx hy
            exact isStrictDescendant_mono dom f (f + 1) (Nat.le_succ f) _ _ (hr itx ity hx hy)
          · cases hfe : findItemByElement reg e with
            | none => exact List.Pairwise.nil
            | some ad0 => exact List.pairwise_singleton _ ad0
          · intro x hx y hy itx ity hitx hity
            cases hfe : findItemByElement reg e with
            | none => rw [hfe] at hy; exact absurd hy (List.not_mem_nil y)
            | some ad0 =>
              rw [hfe] at hy
              have hy0 : y = ad0 := by simpa using hy
              subst hy0
              obtain ⟨itf, hitf, helf⟩ := findItemByElement_correct reg e y hfe
              rw [hity] at hitf
              have hife : ity.element = e := by
                rw [← Option.some_inj.mp hitf] at helf
                exact helf
              obtain ⟨itx0, hitx0, p, hpp, hd⟩ := ihm x hx
              rw [hitx] at hitx0
              cases Option.some_inj.mp hitx0
              rw [hife]
              exact isStrictDescendant_step dom f e p itx.element hpp hd
theorem genIdStep_isOpen (fuel : Nat) (st : Registry × List (List Char)) (ad : Addr) :
    ∀ ad' : Addr, (getItem? (genIdStep fuel st ad).1 ad').map (fun it => it.isOpen) =
      (getItem? st.1 ad').map (fun it => it.isOpen) := by
  unfold genIdStep
  split
  next => exact fun ad' => rfl
  next it hit =>
    split
    next => exact fun ad' => rfl
    next =>
      intro ad'
      apply isOpen_modifyItem
      exact fun j => rfl

theorem generateMissingIds_isOpen (fuel : Nat) (reg : Registry) (docIds : List (List Char)) :
    ∀ ad : Addr, (getItem? (generateMissingIds fuel reg docIds).1 ad).map (fun it => it.isOpen) =
      (getItem? reg ad).map (fun it => it.isOpen) := by
  have hfold : ∀ (L : List Addr) (st : Registry × List (List Char)) (ad : Addr),
      (getItem? (L.foldl (genIdStep fuel) st).1 ad).map (fun it => it.isOpen) =
        (getItem? st.1 ad).map (fun it => it.isOpen) := by
    intro L
    induction L with
    | nil => exact fun st ad => rfl
    | cons x L ih =>
      intro st ad
      rw [List.foldl_cons, ih (genIdStep fuel st x) ad, genIdStep_isOpen fuel st x ad]
  exact fun ad => hfold (allAddrs reg) (reg, docIds) ad

theorem foldl_congr_id_mem {β : Type} (step : Registry → β → Registry) (reg : Registry) :
    ∀ l : List β, (∀ x ∈ l, step reg x = reg) → l.foldl step reg = reg := by
  intro l
  induction l with
  | nil => intro _; rfl
  | cons x xs ih =>
    intro h
    rw [List.foldl_cons, h x (List.mem_cons_self x xs)]
    exact ih (fun y hy => h y (List.mem_cons_of_mem x hy))

theorem chain_mem_bool {anc : List Addr} {tad ad : Addr} (h : ad ∈ anc ++ [tad]) :
    (decide (ad = tad) || anc.contains ad) = true := by
  rw [Bool.or_eq_true]
  rcases List.mem_append.mp h with h1 | h2
  · exact Or.inr (List.elem_eq_true_of_mem h1)
  · exact Or.inl (decide_eq_true (by simpa using h2))

theorem chain_bool_mem {anc : List Addr} {tad ad : Addr}
    (h : (decide (ad = tad) || anc.contains ad) = true) : ad ∈ anc ++ [tad] := by
  rw [Bool.or_eq_true] at h
  rcases h with h1 | h2
  · exact List.mem_append_right _ (by simpa using of_decide_eq_true h1)
  · exact List.mem_append_left _ (List.mem_of_elem_eq_true h2)

/-- After `navigateToItem` (with no nested-close cascades and pairwise
    distinct parents along the chain), an item is open exactly when it is
    the target or one of its ancestors. -/
theorem navigateToItem_post (dom : Dom) (f : Nat) (reg : Registry) (tad : Addr)
    (tit : ItemState) (htit : getItem? reg tad = some tit)
    (hn : NoNestedClose reg)
    (hnd : (getAncestorsFrom dom reg (f + 1) (dom.parent tit.element) ++ [tad]).Nodup)
    (hdist : ∀ ad1 ∈ getAncestorsFrom dom reg (f + 1) (dom.parent tit.element) ++ [tad],
      ∀ ad2 ∈ getAncestorsFrom dom reg (f + 1) (dom.parent tit.element) ++ [tad], ad1 ≠ ad2 →
      ∀ it1 it2, getItem? reg ad1 = some it1 → getItem? reg ad2 = some it2 →
      dom.parent it1.element ≠ dom.parent it2.element) :
    ∀ ad it, getItem? (navigateToItem dom (f + 1) reg tad) ad = some it →
      (it.isOpen = true ↔
        ad ∈ getAncestorsFrom dom reg (f + 1) (dom.parent tit.element) ++ [tad]) := by
  have hnav : navigateToItem dom (f + 1) reg tad =
      ((getAncestorsFrom dom reg (f + 1) (dom.parent tit.element)) ++ [tad]).foldl
        (navOpenStep dom (f + 1))
        ((allAddrs reg).foldl (navCloseStep dom (f + 1) tad
          (getAncestorsFrom dom reg (f + 1) (dom.parent tit.element))) reg) := by
    unfold navigateToItem
    rw [htit]
  obtain ⟨c1, c2, c3, c4⟩ := navClose_fold dom f tad
    (getAncestorsFrom dom reg (f + 1) (dom.parent tit.element)) (allAddrs reg) reg hn
  have hn1 : NoNestedClose ((allAddrs reg).foldl (navCloseStep dom (f + 1) tad
      (getAncestorsFrom dom reg (f + 1) (dom.parent tit.element))) reg) :=
    noNestedClose_of_accMap c1 hn
  have hmemItems : ∀ ad ∈ getAncestorsFrom dom reg (f + 1) (dom.parent tit.element) ++ [tad],
      (getItem? reg ad).isSome = true := by
    intro ad hm
    rcases List.mem_append.mp hm with h1 | h2
    · obtain ⟨it, hit, -⟩ := ((getAncestorsFrom_spec dom reg (f + 1)
        (dom.parent tit.element)).1) ad h1
      rw [hit]
      rfl
    · have : ad = tad := by simpa using h2
      subst this
      rw [htit]
      rfl
  have hv1 : ∀ ad ∈ getAncestorsFrom dom reg (f + 1) (dom.parent tit.element) ++ [tad],
      (getItem? ((allAddrs reg).foldl (navCloseStep dom (f + 1) tad
        (getAncestorsFrom dom reg (f + 1) (dom.parent tit.element))) reg) ad).isSome = true := by
    intro ad hm
    rw [c2 ad (chain_mem_bool hm)]
    exact hmemItems ad hm
  have hd1 : ∀ ad1 ∈ ([] : List Addr) ++ (getAncestorsFrom dom reg (f + 1) (dom.parent tit.element) ++ [tad]),
      ∀ ad2 ∈ ([] : List Addr) ++ (getAncestorsFrom dom reg (f + 1) (dom.parent tit.element) ++ [tad]),
      ad1 ≠ ad2 → ∀ it1 it2,
      getItem? ((allAddrs reg).foldl (navCloseStep dom (f + 1) tad
        (getAncestorsFrom dom reg (f + 1) (dom.parent tit.element))) reg) ad1 = some it1 →
      getItem? ((allAddrs reg).foldl (navCloseStep dom (f + 1) tad
        (getAncestorsFrom dom reg (f + 1) (dom.parent tit.element))) reg) ad2 = some it2 →
      dom.parent it1.element ≠ dom.parent it2.element := by
    intro ad1 hm1 ad2 hm2 hne it1 it2 h1 h2
    rw [List.nil_append] at hm1 hm2
    rw [c2 ad1 (chain_mem_bool hm1)] at h1
    rw [c2 ad2 (chain_mem_bool hm2)] at h2
    exact hdist ad1 hm1 ad2 hm2 hne it1 it2 h1 h2
  obtain ⟨o1, o2, o3⟩ := navOpen_fold dom f
    (getAncestorsFrom dom reg (f + 1) (dom.parent tit.element) ++ [tad])
    ((allAddrs reg).foldl (navCloseStep dom (f + 1) tad
      (getAncestorsFrom dom reg (f + 1) (dom.parent tit.element))) reg)
    [] hn1 hv1 hd1 (by rw [List.nil_append]; exact hnd) (fun ad h => absurd h (List.not_mem_nil ad))
  intro ad it hit
  rw [hnav] at hit
  constructor
  · intro ho
    by_contra had
    have hadK : ad ∉ ([] : List Addr) ++ (getAncestorsFrom dom reg (f + 1) (dom.parent tit.element) ++ [tad]) := by
      rw [List.nil_append]
      exact had
    -- the item before the open pass
    obtain ⟨it1, hit1⟩ : ∃ x, getItem? ((allAddrs reg).foldl (navCloseStep dom (f + 1) tad
        (getAncestorsFrom dom reg (f + 1) (dom.parent tit.element))) reg) ad = some x := by
      refine Option.isSome_iff_exists.mp ?_
      rw [← getItem?_isSome_of_acc o3.1 ad, hit]
      rfl
    have hopen1 : it1.isOpen = true := o2 ad hadK it1 it hit1 hit ho
    -- the item before the close pass
    obtain ⟨it0, hit0⟩ : ∃ x, getItem? reg ad = some x := by
      refine Option.isSome_iff_exists.mp ?_
      rw [← getItem?_isSome_of_acc c1 ad, hit1]
      rfl
    have hvisited : ad ∈ allAddrs reg := allAddrs_complete reg ad it0 hit0
    have hnotchain : ¬(decide (ad = tad) ||
        (getAncestorsFrom dom reg (f + 1) (dom.parent tit.element)).contains ad) = true :=
      fun hx => had (chain_bool_mem hx)
    obtain ⟨it1', hit1', hclosed⟩ := c4 ad hvisited hnotchain it0 hit0
    rw [hit1] at hit1'
    rw [← Option.some_inj.mp hit1'] at hclosed
    rw [hclosed] at hopen1
    exact Bool.noConfusion hopen1
  · intro hm
    have := o1 ad (by rw [List.nil_append]; exact hm)
    rw [hit, Option.map_some'] at this
    exact Option.some_inj.mp this

/-- The open order `[...ancestors, target]` is outward-to-inward: every
    earlier entry's element strictly contains every later entry's
    element. -/
theorem chain_pairwise_outermost_first (dom : Dom) (reg : Registry) (f : Nat)
    (tad : Addr) (tit : ItemState) (htit : getItem? reg tad = some tit) :
    List.Pairwise (fun x y => ∀ itx ity, getItem? reg x = some itx → getItem? reg y = some ity →
      isStrictDescendant dom (f + 2) ity.element itx.element = true)
      (getAncestorsFrom dom reg (f + 1) (dom.parent tit.element) ++ [tad]) := by
  rw [List.pairwise_append]
  refine ⟨?_, List.pairwise_singleton _ tad, ?_⟩
  · refine ((getAncestorsFrom_spec dom reg (f + 1) (dom.parent tit.element)).2).imp ?_
    intro x y hr itx ity hx hy
    exact isStrictDescendant_mono dom (f + 1) (f + 2) (Nat.le_succ _) _ _ (hr itx ity hx hy)
  · intro x hx y hy itx ity hitx hity
    have hy' : y = tad := by simpa using hy
    subst hy'
    have hti : tit = ity := Option.some_inj.mp (htit.symm.trans hity)
    subst hti
    obtain ⟨itx0, hitx0, e, hpe, hd⟩ :=
      (getAncestorsFrom_spec dom reg (f + 1) (dom.parent tit.element)).1 x hx
    rw [hitx] at hitx0
    cases Option.some_inj.mp hitx0
    exact isStrictDescendant_step dom (f + 1) tit.element e itx.element hpe hd

/-- When every chain member is already open and every open item is in the
    chain, `navigateToItem` changes nothing: the close pass finds nothing
    to close and the open pass skips every already-open entry. -/
theorem navigateToItem_skip (dom : Dom) (f : Nat) (reg : Registry) (tad : Addr)
    (tit : ItemState) (htit : getItem? reg tad = some tit)
    (hallopen : ∀ ad ∈ getAncestorsFrom dom reg (f + 1) (dom.parent tit.element) ++ [tad],
      ∀ it, getItem? reg ad = some it → it.isOpen = true)
    (honlychain : ∀ ad it, getItem? reg ad = some it → it.isOpen = true →
      ad ∈ getAncestorsFrom dom reg (f + 1) (dom.parent tit.element) ++ [tad]) :
    navigateToItem dom (f + 1) reg tad = reg := by
  have hnav : navigateToItem dom (f + 1) reg tad =
      ((getAncestorsFrom dom reg (f + 1) (dom.parent tit.element)) ++ [tad]).foldl
        (navOpenStep dom (f + 1))
        ((allAddrs reg).foldl (navCloseStep dom (f + 1) tad
          (getAncestorsFrom dom reg (f + 1) (dom.parent tit.element))) reg) := by
    unfold navigateToItem
    rw [htit]
  rw [hnav]
  have hclose : (allAddrs reg).foldl (navCloseStep dom (f + 1) tad
      (getAncestorsFrom dom reg (f + 1) (dom.parent tit.element))) reg = reg := by
    refine foldl_congr_id_mem _ reg _ (fun ad hm => ?_)
    unfold navCloseStep
    by_cases hc : (decide (ad = tad) ||
        (getAncestorsFrom dom reg (f + 1) (dom.parent tit.element)).contains ad) = true
    · rw [if_pos hc]
    · rw [if_neg hc]
      cases hg : getItem? reg ad with
      | none => rfl
      | some it =>
        show (if it.isOpen = true then closeItem dom (f + 1) reg ad else reg) = reg
        by_cases ho : it.isOpen = true
        · exact absurd (chain_mem_bool (honlychain ad it hg ho)) hc
        · rw [if_neg ho]
  rw [hclose]
  refine foldl_congr_id_mem _ reg _ (fun ad hm => ?_)
  unfold navOpenStep
  cases hg : getItem? reg ad with
  | none => rfl
  | some it =>
    show (if it.isOpen = true then reg else openItem dom (f + 1) reg ad.1 ad.2) = reg
    rw [if_pos (hallopen ad hm it hg)]

/-- C6: fragment processing is a no-op for an empty fragment; on a miss
    it generates ids for every item lacking one and retries exactly once,
    a second miss changing no item's open state (the generated ids
    persist, navigation does not run); on a hit it runs `navigateToItem`,
    after which — with no nested-close cascades configured and pairwise
    distinct parents along the chain — an item is open exactly when it is
    the target or one of its ancestors; the open order `[...ancestors,
    target]` is outward-to-inward (each earlier entry's element strictly
    contains every later one's, ancestors before the target); and when
    the whole chain is already open and nothing else is, every entry is
    skipped and navigation changes nothing. -/
theorem processUrlHash_spec (dom : Dom) (f : Nat) (reg : Registry)
    (docIds : List (List Char)) (hash : List Char) :
    (hash.length ≤ 1 → processUrlHash dom (f + 1) reg docIds hash = (reg, docIds)) ∧
    (1 < hash.length →
      findItemById reg (hash.drop 1) = none →
      findItemById (generateMissingIds (f + 1) reg docIds).1 (hash.drop 1) = none →
      processUrlHash dom (f + 1) reg docIds hash = generateMissingIds (f + 1) reg docIds ∧
      (∀ ad : Addr,
        (getItem? (processUrlHash dom (f + 1) reg docIds hash).1 ad).map (fun it => it.isOpen) =
        (getItem? reg ad).map (fun it => it.isOpen))) ∧
    (1 < hash.length → ∀ tad, findItemById reg (hash.drop 1) = some tad →
      processUrlHash dom (f + 1) reg docIds hash = (navigateToItem dom (f + 1) reg tad, docIds)) ∧
    (∀ tad tit, getItem? reg tad = some tit →
      NoNestedClose reg →
      (getAncestorsFrom dom reg (f + 1) (dom.parent tit.element) ++ [tad]).Nodup →
      (∀ ad1 ∈ getAncestorsFrom dom reg (f + 1) (dom.parent tit.element) ++ [tad],
        ∀ ad2 ∈ getAncestorsFrom dom reg (f + 1) (dom.parent tit.element) ++ [tad], ad1 ≠ ad2 →
        ∀ it1 it2, getItem? reg ad1 = some it1 → getItem? reg ad2 = some it2 →
        dom.parent it1.element ≠ dom.parent it2.element) →
      ∀ ad it, getItem? (navigateToItem dom (f + 1) reg tad) ad = some it →
        (it.isOpen = true ↔
          ad ∈ getAncestorsFrom dom reg (f + 1) (dom.parent tit.element) ++ [tad])) ∧
    (∀ tad tit, getItem? reg tad = some tit →
      List.Pairwise (fun x y => ∀ itx ity, getItem? reg x = some itx → getItem? reg y = some ity →
        isStrictDescendant dom (f + 2) ity.element itx.element = true)
        (getAncestorsFrom dom reg (f + 1) (dom.parent tit.element) ++ [tad])) ∧
    (∀ tad tit, getItem? reg tad = some tit →
      (∀ ad ∈ getAncestorsFrom dom reg (f + 1) (dom.parent tit.element) ++ [tad],
        ∀ it, getItem? reg ad = some it → it.isOpen = true) →
      (∀ ad it, getItem? reg ad = some it → it.isOpen = true →
        ad ∈ getAncestorsFrom dom reg (f + 1) (dom.parent tit.element) ++ [tad]) →
      navigateToItem dom (f + 1) reg tad = reg) := by
  refine ⟨?_, ?_, ?_, ?_, ?_, ?_⟩
  · intro h
    unfold processUrlHash
    rw [if_pos h]
  · intro h hm1 hm2
    have heq : processUrlHash dom (f + 1) reg docIds hash = generateMissingIds (f + 1) reg docIds := by
      unfold processUrlHash
      rw [if_neg (Nat.not_le.mpr h)]
      simp only []
      rw [hm1, hm2]
    refine ⟨heq, fun ad => ?_⟩
    rw [heq]
    exact generateMissingIds_isOpen (f + 1) reg docIds ad
  · intro h tad hhit
    unfold processUrlHash
    rw [if_neg (Nat.not_le.mpr h)]
    simp only []
    rw [hhit]
  · intro tad tit htit hn hnd hdist
    exact navigateToItem_post dom f reg tad tit htit hn hnd hdist
  · intro tad tit htit
    exact chain_pairwise_outermost_first dom reg f tad tit htit
  · intro tad tit htit hall honly
    exact navigateToItem_skip dom f reg tad tit htit hall honly

/-- A nested two-accordion page: accordion 0 (container 100) holds items
    1 and 2 (bodies 11, 12); accordion 1 (container 20, inside item 1's
    body 11) holds items 21 and 22 (bodies 31, 32). -/
def c6Dom : Dom :=
  { parent := fun e =>
      if e = 1 then some 100 else if e = 2 then some 100
      else if e = 11 then some 1 else if e = 12 then some 2
      else if e = 20 then some 11 else if e = 21 then some 20
      else if e = 22 then some 20 else if e = 31 then some 21
      else if e = 32 then some 22 else if e = 100 then some 1000 else none,
    body := 1000 }

def mkIt (el bo : Nat) (ht : String) (id : Option (List Char)) (op : Bool) : ItemState :=
  { element := el, bodyElem := bo, headerText := ht, id := id,
    isSemanticHTML := true, startOpen := false, isOpen := op, active := op,
    openAttr := op, heightAuto := op, hasTimeline := false,
    passes := 0, plays := 0, reverses := 0, scheduledScrolls := 0 }

def c6Reg : Registry :=
  [{ element := 100, options := defaultOptions, prefersReducedMotion := false,
     isInitialLoad := true,
     items := [mkIt 1 11 "Outer One" none false, mkIt 2 12 "Outer Two" (some "faq".data) true] },
   { element := 20, options := defaultOptions, prefersReducedMotion := false,
     isInitialLoad := true,
     items := [mkIt 21 31 "Nested One" none false, mkIt 22 32 "Nested Two" none false] }]

theorem processUrlHash_spec_witness :
    processUrlHash c6Dom 5 c6Reg [] ("#".data) = (c6Reg, []) ∧
    processUrlHash c6Dom 5 c6Reg [] ("#zzz".data) = generateMissingIds 5 c6Reg [] ∧
    processUrlHash c6Dom 5 c6Reg [] ("#faq".data) = (navigateToItem c6Dom 5 c6Reg (0, 1), []) ∧
    (getItem? (navigateToItem c6Dom 5 c6Reg (1, 0)) (1, 0)).map (fun it => it.isOpen) =
      some true ∧
    (getItem? (navigateToItem c6Dom 5 c6Reg (1, 0)) (0, 1)).map (fun it => it.isOpen) =
      some false := by
  have hNo : NoNestedClose c6Reg := by
    intro b accb hb
    cases b with
    | zero => cases Option.some_inj.mp hb; decide
    | succ b1 =>
      cases b1 with
      | zero => cases Option.some_inj.mp hb; decide
      | succ n => exact Option.noConfusion hb
  have hl : getAncestorsFrom c6Dom c6Reg 5
      (c6Dom.parent (mkIt 21 31 "Nested One" none false).element) ++ [((1, 0) : Addr)] =
      [(0, 0), (1, 0)] := by decide
  have hNodup : (getAncestorsFrom c6Dom c6Reg 5
      (c6Dom.parent (mkIt 21 31 "Nested One" none false).element) ++ [((1, 0) : Addr)]).Nodup := by
    rw [hl]
    decide
  have hDist : ∀ ad1 ∈ getAncestorsFrom c6Dom c6Reg 5
      (c6Dom.parent (mkIt 21 31 "Nested One" none false).element) ++ [((1, 0) : Addr)],
      ∀ ad2 ∈ getAncestorsFrom c6Dom c6Reg 5
      (c6Dom.parent (mkIt 21 31 "Nested One" none false).element) ++ [((1, 0) : Addr)],
      ad1 ≠ ad2 → ∀ it1 it2, getItem? c6Reg ad1 = some it1 → getItem? c6Reg ad2 = some it2 →
      c6Dom.parent it1.element ≠ c6Dom.parent it2.element := by
    intro ad1 h1 ad2 h2 hne it1 it2 g1 g2
    rw [hl] at h1 h2
    fin_cases h1 <;> fin_cases h2
    · exact absurd rfl hne
    · have e1 : mkIt 1 11 "Outer One" none false = it1 := Option.some_inj.mp g1
      have e2 : mkIt 21 31 "Nested One" none false = it2 := Option.some_inj.mp g2
      rw [← e1, ← e2]
      decide
    · have e1 : mkIt 21 31 "Nested One" none false = it1 := Option.some_inj.mp g1
      have e2 : mkIt 1 11 "Outer One" none false = it2 := Option.some_inj.mp g2
      rw [← e1, ← e2]
      decide
    · exact absurd rfl hne
  have h4 := (processUrlHash_spec c6Dom 4 c6Reg [] ("#".data)).2.2.2.1 (1, 0)
    (mkIt 21 31 "Nested One" none false) rfl hNo hNodup hDist
  refine ⟨(processUrlHash_spec c6Dom 4 c6Reg [] ("#".data)).1 (by decide),
    ((processUrlHash_spec c6Dom 4 c6Reg [] ("#zzz".data)).2.1 (by decide) (by decide) (by decide)).1,
    (processUrlHash_spec c6Dom 4 c6Reg [] ("#faq".data)).2.2.1 (by decide) (0, 1) (by decide),
    ?_, ?_⟩
  · obtain ⟨itA, hA⟩ : ∃ x, getItem? (navigateToItem c6Dom 5 c6Reg (1, 0)) (1, 0) = some x :=
      ⟨_, rfl⟩
    rw [hA, Option.map_some', (h4 (1, 0) itA hA).mpr (by rw [hl]; decide)]
  · obtain ⟨itB, hB⟩ : ∃ x, getItem? (navigateToItem c6Dom 5 c6Reg (1, 0)) (0, 1) = some x :=
      ⟨_, rfl⟩
    rw [hB, Option.map_some']
    have hiff := h4 (0, 1) itB hB
    cases hb : itB.isOpen with
    | false => rfl
    | true =>
      have := hiff.mp hb
      rw [hl] at this
      exact absurd this (by decide)

end HybridAccordion